import Mathlib

/-!
# File buckets and the opening of a database in apr-util
(`buckets/apr_buckets_file.c`, `src/dbm/apr_dbm.c`)

A shallow embedding of `file_read`, `file_destroy`, `apr_bucket_file_make`,
`apr_bucket_file_create` and the type `apr_bucket_type_file`, of the bucket record
they work on, and of the collaborators they call (the file handle of APR, the mapping
facility, the heap and mmap bucket constructors, the functions for shared buckets).

Conventions of the embedding.

* Values of the C integer types are carried as `Int`.  Every place where the C code
  converts to `apr_off_t` (signed, 64 bit) or to `apr_size_t` (unsigned, 64 bit)
  applies `to_off_t` / `to_size_t`, so that wrap-around is part of the model.  The
  fields `start` and `length` of a bucket hold `apr_off_t` values (apr_buckets.h is
  not among the sources).
* `apr_file_seek`, `apr_file_read` and `apr_mmap_create` belong to APR, not to this
  repository.  They are parameters (`FileOps`): functions on an abstract handle
  state `H` which return a status together with their out-parameters.
* `MMAP_THRESHOLD`, `MMAP_LIMIT`, `APR_HAS_MMAP` and `APR_BUCKET_BUFF_SIZE` are
  preprocessor symbols; they are the fields of `Config`.
* A call of `file_read` is a function from the state it reads (the bucket `*e`, the
  reference count of `e->data`, the handle `a->fd`) to the state it leaves, the two
  out-parameters, the returned status and the list of calls it made.
* The code does not test what `malloc` returns, and the pointer is not part of the
  state: the two calls are recorded among the calls made, and what a read into a
  buffer that was not provided comes to is part of what `apr_file_read` reports.
* A call of `apr_file_read` that does not return is the subject of `file_read_wait`.
* `apr_dbm_open` is embedded for both backends it can be compiled for; `sdbm_open`
  and `gdbm_open` are parameters (`DbmOps`), the constants of the headers it uses are
  the fields of `DbmConfig`, and its result carries the status, `*pdb` and the calls.
-/

namespace AprUtil

set_option autoImplicit false

/-! ## Status codes (apr_errno.h) -/

def APR_SUCCESS : Int := 0

/-- Status code `APR_OS_START_STATUS + 14` of apr_errno.h. -/
def APR_EOF : Int := 70014

/-- Status code `APR_OS_START_STATUS + 23` of apr_errno.h. -/
def APR_ENOTIMPL : Int := 70023

/-- The read modes of apr_buckets.h, the type of the parameter `block`. -/
inductive apr_read_type_e where
  | APR_BLOCK_READ
  | APR_NONBLOCK_READ
deriving Repr, DecidableEq

/-! ## Machine integers -/

/-- Conversion of an integer to `apr_off_t`: signed 64 bit, two's complement. -/
def to_off_t (x : Int) : Int := (x + 2 ^ 63) % 2 ^ 64 - 2 ^ 63

/-- Conversion of an integer to `apr_size_t`: unsigned 64 bit. -/
def to_size_t (x : Int) : Int := x % 2 ^ 64

/-! ## Configuration -/

/-- The preprocessor symbols `file_read` depends on. -/
structure Config where
  APR_HAS_MMAP : Bool
  MMAP_THRESHOLD : Int
  MMAP_LIMIT : Int
  APR_BUCKET_BUFF_SIZE : Nat
deriving Repr, DecidableEq

/-- The values the source gives the symbols when nothing overrides them (lines 74-83),
with the buffer size of the scenarios of the specification. -/
def default_config : Config :=
  { APR_HAS_MMAP := true
    MMAP_THRESHOLD := 1
    MMAP_LIMIT := 4 * 1024 * 1024
    APR_BUCKET_BUFF_SIZE := 8000 }

/-! ## Buckets -/

/-- The bucket types `file_read` installs or meets (`b->type`). -/
inductive apr_bucket_type where
  | apr_bucket_type_file
  | apr_bucket_type_heap
  | apr_bucket_type_mmap
deriving Repr, DecidableEq

/-- What `b->data` points to: the shared descriptor of a file bucket (by address),
the byte block of a heap bucket, or the mapping of an mmap bucket. -/
inductive bucket_data (M : Type) where
  | file (a : Nat)
  | heap (buf : List Nat)
  | mmap (mm : M)
deriving Repr, DecidableEq

/-- The fields of `struct apr_bucket` other than the ring links. -/
structure apr_bucket (M : Type) where
  type : apr_bucket_type
  length : Int
  start : Int
  data : bucket_data M
deriving Repr, DecidableEq

/-- The value `*str` can have after a read: `NULL`, the buffer that was filled, or an
address `start` bytes into a mapping. -/
inductive str_ptr (M : Type) where
  | null
  | buf (bytes : List Nat)
  | mapped (mm : M) (start : Int)
deriving Repr, DecidableEq

/-! ## Collaborators -/

/-- Result of `apr_file_seek(f, APR_SET, &offset)`: status, the offset written back
through the pointer, and the handle afterwards. -/
structure seek_result (H : Type) where
  rv : Int
  offset : Int
  f : H

/-- Result of `apr_file_read(f, buf, &nbytes)`: status, the bytes placed in `buf`
(their number is written back to `nbytes`), and the handle afterwards. -/
structure read_result (H : Type) where
  rv : Int
  bytes : List Nat
  f : H

/-- Result of `apr_mmap_create(&mm, f, offset, size, APR_MMAP_READ, p)`. -/
structure mmap_result (M : Type) where
  status : Int
  mm : Option M

/-- The functions of APR that `file_read` calls. -/
structure FileOps (H M : Type) where
  apr_file_seek : H → Int → seek_result H
  apr_file_read : H → Int → read_result H
  apr_mmap_create : H → Int → Int → mmap_result M

/-- The calls `file_read` makes, in the order it makes them.  `malloc size` is the
`malloc(*len)` of line 138, `malloc_bucket` the `malloc(sizeof(*b))` of line 164. -/
inductive Event where
  | mmap_create (offset size : Int)
  | malloc (size : Int)
  | malloc_bucket
  | free_buf
  | file_seek (offset : Int)
  | file_read (nbytes : Int)
  | file_destroy (a : Nat)
deriving Repr, DecidableEq

/-- Modelled from the spec: `apr_bucket_shared_destroy` is not among the sources.
"`release()` decrements and, at zero, closes the Backing Store Handle": the count is
decremented and the descriptor is handed back (`true`) exactly when the count has
reached zero, `NULL` (`false`) otherwise. -/
def apr_bucket_shared_destroy (refcount : Int) : Int × Bool :=
  (refcount - 1, decide (refcount - 1 = 0))

/-- Lines 87-96.  Returns the reference count afterwards and whether the descriptor
was freed. -/
def file_destroy (refcount : Int) : Int × Bool :=
  let f := apr_bucket_shared_destroy refcount
  if f.2 = false then (f.1, false) else (f.1, true)

/-- Modelled from the spec: `apr_bucket_heap_make(e, buf, length, 0, NULL)` is not
among the sources.  It turns `e` in place into a heap bucket that owns `buf` and
covers its first `length` bytes. -/
def apr_bucket_heap_make {M : Type} (e : apr_bucket M) (buf : List Nat) (length : Int) :
    apr_bucket M :=
  { e with type := .apr_bucket_type_heap, data := .heap buf, start := 0, length := length }

/-- Modelled from the spec: `apr_bucket_mmap_make(e, mm, start, length)` is not among
the sources.  It turns `e` in place into an mmap bucket over the mapping `mm`. -/
def apr_bucket_mmap_make {M : Type} (e : apr_bucket M) (mm : M) (start length : Int) :
    apr_bucket M :=
  { e with type := .apr_bucket_type_mmap, data := .mmap mm, start := start, length := length }

/-- What a call of `file_read` leaves behind. -/
structure ReadResult (H M : Type) where
  /-- the returned status -/
  rv : Int
  /-- the bucket `*e` after the call -/
  e : apr_bucket M
  /-- the bucket given to `APR_BUCKET_INSERT_AFTER(e, b)`, if that line ran -/
  b : Option (apr_bucket M)
  /-- the out-parameter `*str` -/
  str : str_ptr M
  /-- the out-parameter `*len` -/
  len : Int
  /-- the handle `a->fd` after the call -/
  f : H
  /-- the reference count of `a` after the call -/
  refcount : Int
  /-- whether `a` was freed -/
  freed : Bool
  /-- the calls made -/
  trace : List Event

/-- Modelled from the spec: the `read` function of an mmap bucket, reached through
`apr_bucket_read(e, str, len, block)`, is not among the sources.  "For
`Buffered`/`Mapped`, returns the already-held view with no side effects."  The view
is held, so the mode of the read makes no difference. -/
def mmap_read {M : Type} (e : apr_bucket M) (mm : M) (_block : apr_read_type_e) :
    Int × str_ptr M × Int :=
  (APR_SUCCESS, .mapped mm e.start, e.length)

/-- Line 134-136: the value given to `*len`, the number of bytes asked of the handle:
`(filelength > APR_BUCKET_BUFF_SIZE) ? APR_BUCKET_BUFF_SIZE : filelength`, converted
to `apr_size_t`. -/
def chunk_size {M : Type} (cfg : Config) (e : apr_bucket M) : Int :=
  to_size_t (if e.length > (cfg.APR_BUCKET_BUFF_SIZE : Int)
              then (cfg.APR_BUCKET_BUFF_SIZE : Int) else e.length)

/-- Lines 141-147: `if (fileoffset) rv = apr_file_seek(f, APR_SET, &fileoffset);`.
When the offset is zero no call is made: the status is the success the code goes on
with, `fileoffset` and the handle are as they were. -/
def seek_step {H M : Type} (ops : FileOps H M) (f : H) (e : apr_bucket M) : seek_result H :=
  if e.start ≠ 0 then ops.apr_file_seek f e.start
  else { rv := APR_SUCCESS, offset := e.start, f := f }

/-- Line 148: `rv = apr_file_read(f, buf, len);`, on the handle as line 142 left it. -/
def read_step {H M : Type} (cfg : Config) (ops : FileOps H M) (f : H) (e : apr_bucket M) :
    read_result H :=
  ops.apr_file_read (seek_step ops f e).f (chunk_size cfg e)

/-- The calls of lines 134-148 up to and including the seek. -/
def seek_trace {M : Type} (cfg : Config) (e : apr_bucket M) : List Event :=
  if e.start ≠ 0 then [Event.malloc (chunk_size cfg e), Event.file_seek e.start]
  else [Event.malloc (chunk_size cfg e)]

/-- Lines 134-177 of `file_read`: the buffered read.  `tr` is the list of calls made
before line 134. -/
def file_read_buffered {H M : Type} (cfg : Config) (ops : FileOps H M) (f : H)
    (refcount : Int) (a : Nat) (e : apr_bucket M) (tr : List Event) : ReadResult H M :=
  let filelength := e.length
  -- *len = ...; *str = NULL; buf = malloc(*len);
  let len0 := chunk_size cfg e
  -- if (fileoffset) { rv = apr_file_seek(f, APR_SET, &fileoffset); ... }
  let s := seek_step ops f e
  let tr2 := tr ++ seek_trace cfg e
  if s.rv ≠ APR_SUCCESS then
    -- free(buf); return rv;
    { rv := s.rv, e := e, b := none, str := .null, len := len0, f := s.f,
      refcount := refcount, freed := false, trace := tr2 ++ [Event.free_buf] }
  else
    -- rv = apr_file_read(f, buf, len);
    let r := read_step cfg ops f e
    let got : Int := (r.bytes.length : Int)
    let tr3 := tr2 ++ [Event.file_read len0]
    if r.rv ≠ APR_SUCCESS ∧ r.rv ≠ APR_EOF then
      -- free(buf); return rv;
      { rv := r.rv, e := e, b := none, str := .null, len := got, f := r.f,
        refcount := refcount, freed := false, trace := tr3 ++ [Event.free_buf] }
    else
      -- filelength -= *len;
      let filelength1 := to_off_t (filelength - got)
      -- apr_bucket_heap_make(e, buf, *len, 0, NULL);
      let e1 := apr_bucket_heap_make e r.bytes got
      if filelength1 > 0 then
        -- b = malloc(sizeof(*b));
        -- b->start = fileoffset + (*len); b->length = filelength; b->data = a; ...
        let b : apr_bucket M :=
          { type := .apr_bucket_type_file, length := filelength1,
            start := to_off_t (s.offset + got), data := .file a }
        { rv := APR_SUCCESS, e := e1, b := some b, str := .buf r.bytes, len := got,
          f := r.f, refcount := refcount, freed := false,
          trace := tr3 ++ [Event.malloc_bucket] }
      else
        -- file_destroy(a);
        let d := file_destroy refcount
        { rv := APR_SUCCESS, e := e1, b := none, str := .buf r.bytes, len := got,
          f := r.f, refcount := d.1, freed := d.2, trace := tr3 ++ [Event.file_destroy a] }

/-- Lines 113-114: the test that guards the call of `apr_mmap_create`; without
`APR_HAS_MMAP` the block is not compiled. -/
def mmap_wanted {M : Type} (cfg : Config) (e : apr_bucket M) : Bool :=
  cfg.APR_HAS_MMAP && decide (e.length ≥ cfg.MMAP_THRESHOLD) && decide (e.length < cfg.MMAP_LIMIT)

/-- Lines 112-126: the value of `mm` at line 127. -/
def mmap_attempt {H M : Type} (cfg : Config) (ops : FileOps H M) (f : H)
    (e : apr_bucket M) : Option M :=
  if mmap_wanted cfg e then
    let r := ops.apr_mmap_create f e.start (to_size_t e.length)
    if r.status ≠ APR_SUCCESS then none else r.mm
  else none

/-- The calls of lines 112-126. -/
def mmap_trace {M : Type} (cfg : Config) (e : apr_bucket M) : List Event :=
  if mmap_wanted cfg e then [Event.mmap_create e.start (to_size_t e.length)] else []

/-- Lines 98-177.  `a` is `e->data`, `refcount` the reference count of `*a`, `f` the
state of the handle `a->fd`; the out-parameters `str` and `len` are fields of the
result. -/
def file_read {H M : Type} (cfg : Config) (ops : FileOps H M) (f : H)
    (refcount : Int) (a : Nat) (e : apr_bucket M) (block : apr_read_type_e) :
    ReadResult H M :=
  let filelength := e.length
  let tr0 := mmap_trace cfg e
  match mmap_attempt cfg ops f e with
  | some mm =>
    -- apr_bucket_mmap_make(e, mm, 0, filelength); file_destroy(a);
    -- return apr_bucket_read(e, str, len, block);
    let e1 := apr_bucket_mmap_make e mm 0 filelength
    let d := file_destroy refcount
    let r := mmap_read e1 mm block
    { rv := r.1, e := e1, b := none, str := r.2.1, len := r.2.2, f := f,
      refcount := d.1, freed := d.2, trace := tr0 ++ [Event.file_destroy a] }
  | none => file_read_buffered cfg ops f refcount a e tr0

/-! ## The brigade -/

/-- The part of the program state `file_read` works in: the ring of buckets of one
brigade, in chain order, the shared descriptors (`apr_bucket_file`, by address: their
reference count and their `fd` field) and the open files. -/
structure World (H M : Type) where
  brigade : List (apr_bucket M)
  refcount : Nat → Int
  fd : Nat → Nat
  files : Nat → H

/-- Whether a bucket is a file bucket whose `data` is the descriptor at address `a`. -/
def refers_to {M : Type} (a : Nat) (e : apr_bucket M) : Bool :=
  match e.type, e.data with
  | .apr_bucket_type_file, .file a1 => decide (a1 = a)
  | _, _ => false

/-- Number of file buckets of a chain that hold the descriptor at address `a`. -/
def holders {M : Type} (a : Nat) (l : List (apr_bucket M)) : Nat :=
  l.countP (refers_to a)

/-- The reference count of every descriptor is the number of file buckets of the
brigade that hold it. -/
def refs_sound {H M : Type} (w : World H M) : Prop :=
  ∀ a : Nat, w.refcount a = (holders a w.brigade : Int)

/-- A read of the `i`-th bucket of the brigade when it is a file bucket
(`apr_bucket_read(e, ...)` dispatching to `file_read`): `*e` is rewritten in place,
`APR_BUCKET_INSERT_AFTER(e, b)` puts `b` right behind it, the reference count of
`e->data` and the state of its handle are written back.  `none` when there is no
`i`-th bucket or it is not a file bucket.  `APR_BUCKET_INSERT_AFTER` is a macro of the
ring of buckets and not among the sources; it is modelled from the spec, which has the
new bucket inserted "immediately after the current bucket in the brigade". -/
def brigade_read {H M : Type} (cfg : Config) (ops : FileOps H M) (block : apr_read_type_e)
    (w : World H M) (i : Nat) : Option (World H M × ReadResult H M) :=
  match w.brigade[i]? with
  | none => none
  | some e =>
    match e.type, e.data with
    | .apr_bucket_type_file, .file a =>
      let r := file_read cfg ops (w.files (w.fd a)) (w.refcount a) a e block
      some ({ brigade := w.brigade.take i ++ r.e :: (r.b.toList ++ w.brigade.drop (i + 1))
              refcount := Function.update w.refcount a r.refcount
              fd := w.fd
              files := Function.update w.files (w.fd a) r.f }, r)
    | _, _ => none

/-! ## Reading a range to its end -/

/-- The consumer's loop over one file range: read the file bucket `e`; when the read
returned `APR_SUCCESS` and inserted a remainder bucket, read that one next; stop
otherwise, or after `n` reads.  Each entry is the bucket as it was before its read
and what the read left. -/
def read_range {H M : Type} (cfg : Config) (ops : FileOps H M) (block : apr_read_type_e)
    (a : Nat) : Nat → H → Int → apr_bucket M → List (apr_bucket M × ReadResult H M)
  | 0, _, _, _ => []
  | n + 1, f, refcount, e =>
    let r := file_read cfg ops f refcount a e block
    (e, r) :: (if r.rv = APR_SUCCESS then
                match r.b with
                | some b => read_range cfg ops block a n r.f r.refcount b
                | none => []
              else [])

/-- The consumer's loop of `read_range` on the brigade: read the `i`-th bucket; when
the read returned `APR_SUCCESS` and inserted a remainder bucket, that bucket is the
`i + 1`-th, read it next; stop otherwise, or after `n` reads. -/
def brigade_drain {H M : Type} (cfg : Config) (ops : FileOps H M)
    (block : apr_read_type_e) : Nat → World H M → Nat → World H M
  | 0, w, _ => w
  | n + 1, w, i =>
    match brigade_read cfg ops block w i with
    | none => w
    | some (w1, r) =>
      if r.rv = APR_SUCCESS then
        match r.b with
        | some _ => brigade_drain cfg ops block n w1 (i + 1)
        | none => w1
      else w1

/-- The reads of a run cover consecutive offsets from `o` on: each read is of a bucket
that starts where the bucket produced by the read before it ends. -/
def consecutive {H M : Type} : Int → List (apr_bucket M × ReadResult H M) → Prop
  | _, [] => True
  | o, s :: rest => s.1.start = o ∧ consecutive (o + s.2.e.length) rest

/-- Sum of the lengths of the buckets the reads of a run produced. -/
def produced_length {H M : Type} (run : List (apr_bucket M × ReadResult H M)) : Int :=
  (run.map (fun s => s.2.e.length)).sum

/-- Number of reads of a run that left a heap bucket: the buffered reads that went
through. -/
def buffered_reads {H M : Type} (run : List (apr_bucket M × ReadResult H M)) : Nat :=
  run.countP (fun s => decide (s.2.e.type = .apr_bucket_type_heap))

/-! ## Contract of the handle -/

/-- A successful `apr_file_seek(f, APR_SET, &offset)` leaves in `offset` the position
that was asked for. -/
def seek_honest {H M : Type} (ops : FileOps H M) : Prop :=
  ∀ (f : H) (offset : Int),
    (ops.apr_file_seek f offset).rv = APR_SUCCESS → (ops.apr_file_seek f offset).offset = offset

/-- A call of `apr_file_read` never delivers more bytes than were asked for (`nbytes`
is an `apr_size_t`). -/
def read_bounded {H M : Type} (ops : FileOps H M) : Prop :=
  ∀ (f : H) (nbytes : Int), 0 ≤ nbytes →
    ((ops.apr_file_read f nbytes).bytes.length : Int) ≤ nbytes

/-! ## A file in memory -/

/-- A handle for the examples: the bytes of the file, the position of the cursor, and
the statuses the three calls are to report (`APR_SUCCESS` lets them work). -/
structure mem_file where
  content : List Nat
  pos : Nat
  seek_rv : Int
  read_rv : Int
  mmap_status : Int
deriving Repr, DecidableEq

/-- The calls of APR on a `mem_file`.  A seek moves the cursor; a read delivers the
bytes from the cursor on, at most `nbytes` of them, advances the cursor, and reports
`APR_EOF` when it was asked for bytes and none were left; a mapping is the list of
the bytes of the mapped range. -/
def mem_ops : FileOps mem_file (List Nat) where
  apr_file_seek f offset :=
    if f.seek_rv ≠ APR_SUCCESS then { rv := f.seek_rv, offset := offset, f := f }
    else { rv := APR_SUCCESS, offset := offset, f := { f with pos := offset.toNat } }
  apr_file_read f nbytes :=
    let chunk := (f.content.drop f.pos).take nbytes.toNat
    if f.read_rv = APR_EOF then
      { rv := APR_EOF, bytes := chunk, f := { f with pos := f.pos + chunk.length } }
    else if f.read_rv ≠ APR_SUCCESS then { rv := f.read_rv, bytes := [], f := f }
    else
      { rv := if chunk = [] ∧ 0 < nbytes then APR_EOF else APR_SUCCESS
        bytes := chunk
        f := { f with pos := f.pos + chunk.length } }
  apr_mmap_create f offset size :=
    if f.mmap_status ≠ APR_SUCCESS then { status := f.mmap_status, mm := none }
    else { status := APR_SUCCESS, mm := some ((f.content.drop offset.toNat).take size.toNat) }

/-- A file bucket over the descriptor at address `a`. -/
def file_bucket (a : Nat) (start length : Int) : apr_bucket (List Nat) :=
  { type := .apr_bucket_type_file, length := length, start := start, data := .file a }

/-- A `mem_file` on which every call works. -/
def mem_of (content : List Nat) (pos : Nat) : mem_file :=
  { content := content, pos := pos, seek_rv := APR_SUCCESS, read_rv := APR_SUCCESS,
    mmap_status := APR_SUCCESS }

/-! ## Inputs of the examples -/

/-- A configuration with a small mapping window, `1 ≤ L < 8`, and buffers of 4 bytes. -/
def small_config : Config :=
  { APR_HAS_MMAP := true, MMAP_THRESHOLD := 1, MMAP_LIMIT := 8, APR_BUCKET_BUFF_SIZE := 4 }

/-- The bytes of a file of 16 bytes: byte `i` is `10 + i`. -/
def digits : List Nat := [10, 11, 12, 13, 14, 15, 16, 17, 18, 19, 20, 21, 22, 23, 24, 25]

/-- The file of 16 bytes behind a handle on which every seek reports `ESPIPE` (29). -/
def mem_seek_fails : mem_file :=
  { content := digits, pos := 0, seek_rv := 29, read_rv := APR_SUCCESS,
    mmap_status := APR_SUCCESS }

/-- The file of 16 bytes behind a handle on which every read reports `EIO` (5). -/
def mem_read_fails : mem_file :=
  { content := digits, pos := 0, seek_rv := APR_SUCCESS, read_rv := 5,
    mmap_status := APR_SUCCESS }

/-- The file of 16 bytes behind a handle whose reads deliver their bytes together with
the status `APR_EOF`. -/
def mem_reports_eof : mem_file :=
  { content := digits, pos := 0, seek_rv := APR_SUCCESS, read_rv := APR_EOF,
    mmap_status := APR_SUCCESS }

/-- The file of 16 bytes behind a handle that cannot be mapped: `apr_mmap_create`
reports `ENOMEM` (12). -/
def mem_unmappable : mem_file :=
  { content := digits, pos := 0, seek_rv := APR_SUCCESS, read_rv := APR_SUCCESS,
    mmap_status := 12 }

/-- A brigade of two file buckets over one descriptor, at address 7, whose reference
count is 2; the descriptor's file is the file of 16 bytes. -/
def two_bucket_world : World mem_file (List Nat) :=
  { brigade := [file_bucket 7 2 10, file_bucket 7 12 4]
    refcount := fun a => if a = 7 then 2 else 0
    fd := fun _ => 0
    files := fun _ => mem_of digits 0 }

/-! ## The scenarios with large files -/

/-- Every call of `apr_file_seek` succeeds and reports the offset it was given. -/
def seeks_succeed {H M : Type} (ops : FileOps H M) : Prop :=
  ∀ (f : H) (offset : Int),
    (ops.apr_file_seek f offset).rv = APR_SUCCESS ∧ (ops.apr_file_seek f offset).offset = offset

/-- Every call of `apr_file_read` is full: it reports `APR_SUCCESS` and delivers as
many bytes as were asked for. -/
def reads_full {H M : Type} (ops : FileOps H M) : Prop :=
  ∀ (f : H) (nbytes : Int), 0 ≤ nbytes →
    (ops.apr_file_read f nbytes).rv = APR_SUCCESS ∧
    ((ops.apr_file_read f nbytes).bytes.length : Int) = nbytes

/-- Every call of `apr_mmap_create` succeeds and hands back a mapping. -/
def mmap_succeeds {H M : Type} (ops : FileOps H M) : Prop :=
  ∀ (f : H) (offset size : Int),
    (ops.apr_mmap_create f offset size).status = APR_SUCCESS ∧
    ∃ mm, (ops.apr_mmap_create f offset size).mm = some mm

/-- A handle for the scenarios with large files: a file that has no end and whose
bytes are all 0.  The state of the handle is the position of its cursor.  Every seek
and every mapping succeeds, every read is full. -/
def endless_ops : FileOps Nat (List Nat) where
  apr_file_seek _ offset := { rv := APR_SUCCESS, offset := offset, f := offset.toNat }
  apr_file_read f nbytes :=
    { rv := APR_SUCCESS, bytes := List.replicate nbytes.toNat 0, f := f + nbytes.toNat }
  apr_mmap_create _ _ size :=
    { status := APR_SUCCESS, mm := some (List.replicate size.toNat 0) }

/-- The configuration of the scenario with a small file: the threshold of SUNOS4
(line 76), the default limit, buffers of 8000 bytes. -/
def sunos4_config : Config :=
  { APR_HAS_MMAP := true
    MMAP_THRESHOLD := 8 * 1024
    MMAP_LIMIT := 4 * 1024 * 1024
    APR_BUCKET_BUFF_SIZE := 8000 }

/-- What the reads of a run left: the type and the length of each bucket. -/
def produced {H M : Type} (run : List (apr_bucket M × ReadResult H M)) :
    List (apr_bucket_type × Int) :=
  run.map (fun s => (s.2.e.type, s.2.e.length))

/-! ## The split in the brigade -/

/-- Line 161 is reached and its test holds: the read is buffered, the seek and the
read of the handle went through, and bytes of the range are left. -/
def splits {H M : Type} (cfg : Config) (ops : FileOps H M) (f : H) (e : apr_bucket M) : Prop :=
  mmap_attempt cfg ops f e = none ∧ (seek_step ops f e).rv = APR_SUCCESS ∧
  ¬((read_step cfg ops f e).rv ≠ APR_SUCCESS ∧ (read_step cfg ops f e).rv ≠ APR_EOF) ∧
  to_off_t (e.length - ((read_step cfg ops f e).bytes.length : Int)) > 0

/-! ## Making file buckets -/

/-- The record `apr_bucket_file` a file bucket's `data` points to: the reference count
it begins with and the file. -/
structure apr_bucket_file where
  refcount : Int
  fd : Nat
deriving Repr, DecidableEq

/-- Modelled from the spec: `apr_bucket_shared_make(b, data, start, length)` is not
among the sources.  A bucket "is created by a producer API call (wrapping a Backing
Store Handle + range)", and a shared reference has "`refcount: integer ≥ 1` while
reachable from ≥1 bucket": the function points `b` at the descriptor `data`, stores
the range in `b`, whose fields hold `apr_off_t` values, and sets the count of the
descriptor to 1.  The count is the second component of the result. -/
def apr_bucket_shared_make {M : Type} (b : apr_bucket M) (data : Nat) (start length : Int) :
    apr_bucket M × Int :=
  ({ b with data := .file data, start := to_off_t start, length := to_off_t length }, 1)

/-- What `apr_bucket_file_make` hands back when it does not hand back `NULL`: the
bucket, the address of the descriptor it allocated, and the descriptor. -/
structure made_bucket (M : Type) where
  b : apr_bucket M
  a : Nat
  f : apr_bucket_file
deriving Repr, DecidableEq

/-- Lines 179-194.  `malloc_f` is what `malloc(sizeof(*f))` hands back, `none` for
`NULL`.  `offset` and `len` are the values the caller writes; the parameters are an
`apr_off_t` and an `apr_size_t`, and the call converts them. -/
def apr_bucket_file_make {M : Type} (malloc_f : Option Nat) (b : apr_bucket M) (fd : Nat)
    (offset len : Int) : Option (made_bucket M) :=
  match malloc_f with
  | none => none
  | some a =>
    -- f->fd = fd; b = apr_bucket_shared_make(b, f, offset, len);
    let m := apr_bucket_shared_make b a (to_off_t offset) (to_size_t len)
    -- b->type = &apr_bucket_type_file; return b;
    some { b := { m.1 with type := .apr_bucket_type_file }, a := a,
           f := { refcount := m.2, fd := fd } }

/-- The bucket `calloc` hands to `apr_bucket_do_create`: every field is zero.  It has
no type and no data yet; `apr_bucket_file_make` writes all four fields before the
bucket is handed out, so what stands here for the two null pointers is never seen. -/
def calloc_bucket {M : Type} : apr_bucket M :=
  { type := .apr_bucket_type_heap, length := 0, start := 0, data := .heap [] }

/-- Lines 196-200.  Modelled from the spec: the macro `apr_bucket_do_create` is not
among the sources; `create_bucket` "allocates a new node" and `make_bucket` "wraps an
existing node in place".  `calloc_b` says whether the allocation of the node
succeeds; without a node, or when the make function hands back `NULL`, the result is
`NULL`. -/
def apr_bucket_file_create {M : Type} (calloc_b : Bool) (malloc_f : Option Nat) (fd : Nat)
    (offset len : Int) : Option (made_bucket M) :=
  if calloc_b = false then none
  else apr_bucket_file_make malloc_f calloc_bucket fd offset len

/-- Modelled from the spec: the sentinel `UNKNOWN` for the length of a bucket, -1
(apr_buckets.h is not among the sources).  Passed for the `apr_size_t` parameter `len`
it is `2 ^ 64 - 1`; stored in the bucket it is -1 again. -/
def unknown_length : Int := -1

/-! ## The type of file buckets -/

/-- Modelled from the spec: `apr_bucket_setaside_notimpl` is not among the sources.
"Some kinds (file-backed, pre-materialization) explicitly do not support this; calling
it signals a `NotSupported` status rather than corrupting state": the status is
`APR_ENOTIMPL` and the bucket is handed back as it was. -/
def apr_bucket_setaside_notimpl {M : Type} (e : apr_bucket M) : Int × apr_bucket M :=
  (APR_ENOTIMPL, e)

/-- The members of `apr_bucket_type_t` that lines 202-209 fill with functions whose
code or description is at hand: `destroy`, `read` and `setaside`.  The members `split`
and `copy` are filled with `apr_bucket_shared_split` and `apr_bucket_shared_copy`,
which are not among the sources. -/
structure apr_bucket_type_t (H M : Type) where
  name : String
  num_func : Nat
  destroy : Int → Int × Bool
  read : H → Int → Nat → apr_bucket M → apr_read_type_e → ReadResult H M
  setaside : apr_bucket M → Int × apr_bucket M

/-- Lines 202-209. -/
def apr_bucket_type_file {H M : Type} (cfg : Config) (ops : FileOps H M) :
    apr_bucket_type_t H M :=
  { name := "FILE"
    num_func := 5
    destroy := file_destroy
    read := file_read cfg ops
    setaside := apr_bucket_setaside_notimpl }

/-- The call `apr_bucket_setaside(e)` on the `i`-th bucket of the brigade when it is a
file bucket: `e->type->setaside(e)`.  The result is the status and the state the call
leaves.  `none` when there is no `i`-th bucket or it is not a file bucket (the types
of the other buckets are not among the sources). -/
def apr_bucket_setaside {H M : Type} (cfg : Config) (ops : FileOps H M) (w : World H M)
    (i : Nat) : Option (Int × World H M) :=
  match w.brigade[i]? with
  | none => none
  | some e =>
    match e.type with
    | .apr_bucket_type_file =>
      let r := (apr_bucket_type_file cfg ops).setaside e
      some (r.1, { w with brigade := w.brigade.set i r.2 })
    | _ => none

/-! ## The handle that does not block -/

/-- The status `EAGAIN` (11) with which a handle that does not block reports that it
has nothing to deliver yet. -/
def APR_EAGAIN : Int := 11

/-- The file of 16 bytes behind a handle that does not block and has nothing to
deliver yet: every read reports `EAGAIN`. -/
def mem_would_block : mem_file :=
  { content := digits, pos := 0, seek_rv := APR_SUCCESS, read_rv := APR_EAGAIN,
    mmap_status := APR_SUCCESS }

/-! ## A range the source does not fill -/

/-- After the reads of a run a file bucket of the range is left: the last read
inserted one, or it left the bucket it was given a file bucket. -/
def pending {H M : Type} (run : List (apr_bucket M × ReadResult H M)) : Prop :=
  ∃ last, run.getLast? = some last ∧
    ((∃ b, last.2.b = some b ∧ b.type = .apr_bucket_type_file) ∨
      last.2.e.type = .apr_bucket_type_file)

/-- However many reads are made of a range, a file bucket of the range is left. -/
def never_exhausted {H M : Type} (cfg : Config) (ops : FileOps H M) (block : apr_read_type_e)
    (a : Nat) (f : H) (refcount : Int) (e : apr_bucket M) : Prop :=
  ∀ n : Nat, 1 ≤ n → pending (read_range cfg ops block a n f refcount e)

/-! ## Opening a database (src/dbm/apr_dbm.c) -/

/-- Status code `EINVAL` of apr_errno.h: 22 where errno.h defines it. -/
def APR_EINVAL : Int := 22

/-- The backend apr_dbm.c is compiled for: lines 62 and 80 (with neither symbol set,
line 111 stops the compilation). -/
inductive dbm_backend where
  | APU_USE_SDBM
  | APU_USE_GDBM
deriving Repr, DecidableEq

/-- The constants of apr_dbm.h, apr_file_io.h, apr_file_info.h and gdbm.h that
`apr_dbm_open` uses; none of these headers is among the sources. -/
structure DbmConfig where
  backend : dbm_backend
  APR_DBM_READONLY : Int
  APR_DBM_READWRITE : Int
  APR_DBM_RWCREATE : Int
  APR_READ : Nat
  APR_WRITE : Nat
  APR_CREATE : Nat
  APR_OS_DEFAULT : Int
  GDBM_READER : Int
  GDBM_WRITER : Int
  GDBM_WRCREAT : Int

/-- Lines 76 and 96. -/
def APR_DBM_DBMODE_RO (cfg : DbmConfig) : Int :=
  match cfg.backend with
  | .APU_USE_SDBM => (cfg.APR_READ : Int)
  | .APU_USE_GDBM => cfg.GDBM_READER

/-- Lines 77 and 97. -/
def APR_DBM_DBMODE_RW (cfg : DbmConfig) : Int :=
  match cfg.backend with
  | .APU_USE_SDBM => ((cfg.APR_READ ||| cfg.APR_WRITE : Nat) : Int)
  | .APU_USE_GDBM => cfg.GDBM_WRITER

/-- Lines 78 and 98. -/
def APR_DBM_DBMODE_RWCREATE (cfg : DbmConfig) : Int :=
  match cfg.backend with
  | .APU_USE_SDBM => ((cfg.APR_READ ||| cfg.APR_WRITE ||| cfg.APR_CREATE : Nat) : Int)
  | .APU_USE_GDBM => cfg.GDBM_WRCREAT

/-- Lines 115-121: `struct apr_dbm_t`, over the type `F` of the files of the backend
(`real_file_t`).  A pool is known by its address; `errmsg` is `none` for `NULL`. -/
structure apr_dbm_t (F : Type) where
  pool : Nat
  file : F
  errcode : Int
  errmsg : Option String
deriving Repr, DecidableEq

/-- What `sdbm_open(&file, ...)` leaves: the status and the value of `file`. -/
structure sdbm_open_result (F : Type) where
  rv : Int
  file : F
deriving Repr, DecidableEq

/-- The open functions of the two backends.  `sdbm_open` takes the pathname, the
flags, the permissions and the pool; `gdbm_open` takes the pathname, the block size,
the flags and the permissions (its last argument is `NULL` at line 197) and returns
`none` for `NULL`. -/
structure DbmOps (F : Type) where
  sdbm_open : String → Int → Int → Nat → sdbm_open_result F
  gdbm_open : String → Int → Int → Int → Option F

/-- The calls `apr_dbm_open` makes. -/
inductive DbmEvent where
  | sdbm_open (pathname : String) (dbmode perms : Int) (pool : Nat)
  | gdbm_open (pathname : String) (block_size dbmode perms : Int)
  | apr_pcalloc (pool : Nat)
deriving Repr, DecidableEq

/-- What a call of `apr_dbm_open` leaves behind: the returned status, `*pdb` (`none`
for `NULL`) and the calls made, in order. -/
structure dbm_open_result (F : Type) where
  rv : Int
  pdb : Option (apr_dbm_t F)
  trace : List DbmEvent
deriving Repr, DecidableEq

/-- Lines 172-184: the switch on `mode`; `none` is the `default:` label, at which the
function returns. -/
def dbmode_of (cfg : DbmConfig) (mode : Int) : Option Int :=
  if mode = cfg.APR_DBM_READONLY then some (APR_DBM_DBMODE_RO cfg)
  else if mode = cfg.APR_DBM_READWRITE then some (APR_DBM_DBMODE_RW cfg)
  else if mode = cfg.APR_DBM_RWCREATE then some (APR_DBM_DBMODE_RWCREATE cfg)
  else none

/-- Lines 164-209.  `apr_pcalloc` hands out memory filled with zeros, so the fields
the function does not set are `0` and `NULL`. -/
def apr_dbm_open {F : Type} (cfg : DbmConfig) (ops : DbmOps F) (pathname : String)
    (pool : Nat) (mode : Int) : dbm_open_result F :=
  -- *pdb = NULL;
  match dbmode_of cfg mode with
  | none =>
    -- default: return APR_EINVAL;
    { rv := APR_EINVAL, pdb := none, trace := [] }
  | some dbmode =>
    match cfg.backend with
    | .APU_USE_SDBM =>
      -- rv = sdbm_open(&file, pathname, dbmode, APR_OS_DEFAULT, pool);
      let o := ops.sdbm_open pathname dbmode cfg.APR_OS_DEFAULT pool
      let tr := [DbmEvent.sdbm_open pathname dbmode cfg.APR_OS_DEFAULT pool]
      if o.rv ≠ APR_SUCCESS then
        -- return rv;
        { rv := o.rv, pdb := none, trace := tr }
      else
        -- *pdb = apr_pcalloc(pool, sizeof(**pdb)); (*pdb)->pool = pool; (*pdb)->file = file;
        { rv := APR_SUCCESS,
          pdb := some { pool := pool, file := o.file, errcode := 0, errmsg := none },
          trace := tr ++ [DbmEvent.apr_pcalloc pool] }
    | .APU_USE_GDBM =>
      -- file = gdbm_open((char *) pathname, 0, dbmode, 0660, NULL);
      let tr := [DbmEvent.gdbm_open pathname 0 dbmode 0o660]
      match ops.gdbm_open pathname 0 dbmode 0o660 with
      | none =>
        -- if (file == NULL) return APR_EINVAL;
        { rv := APR_EINVAL, pdb := none, trace := tr }
      | some file =>
        { rv := APR_SUCCESS,
          pdb := some { pool := pool, file := file, errcode := 0, errmsg := none },
          trace := tr ++ [DbmEvent.apr_pcalloc pool] }

/-- The build with SDBM, with the values apr_dbm.h (1, 2, 3), apr_file_io.h (1, 2, 4)
and apr_file_info.h (0x0FFF) give the constants. -/
def sdbm_config : DbmConfig :=
  { backend := .APU_USE_SDBM, APR_DBM_READONLY := 1, APR_DBM_READWRITE := 2,
    APR_DBM_RWCREATE := 3, APR_READ := 1, APR_WRITE := 2, APR_CREATE := 4,
    APR_OS_DEFAULT := 0x0FFF, GDBM_READER := 0, GDBM_WRITER := 1, GDBM_WRCREAT := 2 }

/-- The build with GDBM, with the same constants. -/
def gdbm_config : DbmConfig :=
  { sdbm_config with backend := .APU_USE_GDBM }

/-- The pathname of a database that is there. -/
def users_db : String := "users"

/-- The pathname of a database that is not there. -/
def missing_db : String := "missing"

/-- Backends for the examples, with files known by a number: every database but
`missing_db` opens, as file 41 of SDBM and as file 42 of GDBM, unless it is to be
created; `sdbm_open` reports `ENOENT` (2) for the missing one. -/
def example_backends : DbmOps Nat where
  sdbm_open pathname dbmode _ _ :=
    if pathname = missing_db ∧ dbmode ≠ 7 then { rv := 2, file := 0 }
    else { rv := APR_SUCCESS, file := 41 }
  gdbm_open pathname _ dbmode _ :=
    if pathname = missing_db ∧ dbmode ≠ 2 then none else some 42

/-! ## A handle whose read does not return -/

/-- Lines 98-177 on a handle whose read may wait.  `waits g` says that a call of
`apr_file_read` on the handle in state `g` does not return: the handle is in blocking
mode and has nothing to deliver.  Line 148 calls `apr_file_read(f, buf, len)` whatever
`block` is, so the read of the bucket does not return (`none`) exactly when line 148
is reached on such a handle; in every other case it returns what `file_read`
returns. -/
def file_read_wait {H M : Type} (cfg : Config) (ops : FileOps H M) (waits : H → Bool) (f : H)
    (refcount : Int) (a : Nat) (e : apr_bucket M) (block : apr_read_type_e) :
    Option (ReadResult H M) :=
  match mmap_attempt cfg ops f e with
  | some _ =>
    -- return of line 130: the handle is not read
    some (file_read cfg ops f refcount a e block)
  | none =>
    if (seek_step ops f e).rv ≠ APR_SUCCESS then
      -- return of line 145, before line 148
      some (file_read cfg ops f refcount a e block)
    else if waits (seek_step ops f e).f then
      -- rv = apr_file_read(f, buf, len); does not return
      none
    else some (file_read cfg ops f refcount a e block)

/-- A pipe that nothing has been written to yet, behind a handle in blocking mode. -/
def empty_pipe : mem_file := mem_of [] 0

/-- The read of a handle in blocking mode waits while no byte is left to deliver. -/
def pipe_waits (g : mem_file) : Bool := decide (g.content.length ≤ g.pos)

/-- The read of a handle that is not in blocking mode never waits. -/
def never_waits (_g : mem_file) : Bool := false

/-! ## A buffer that cannot be had -/

/-- The file of 16 bytes behind a handle whose read reports `EFAULT` (14): what a read
of `2 ^ 64 - 1` bytes, into the buffer that `malloc(2 ^ 64 - 1)` has not provided,
comes to. -/
def mem_no_buffer : mem_file :=
  { content := digits, pos := 0, seek_rv := APR_SUCCESS, read_rv := 14,
    mmap_status := APR_SUCCESS }

/-! ## Machine integers: conversions that change nothing -/

theorem to_off_t_eq (x : Int) (h1 : -2 ^ 63 ≤ x) (h2 : x < 2 ^ 63) : to_off_t x = x := by
  unfold to_off_t
  have h : (x + 2 ^ 63) % 2 ^ 64 = x + 2 ^ 63 := Int.emod_eq_of_lt (by omega) (by omega)
  omega

theorem to_size_t_eq (x : Int) (h1 : 0 ≤ x) (h2 : x < 2 ^ 64) : to_size_t x = x := by
  unfold to_size_t
  exact Int.emod_eq_of_lt h1 h2

/-! ## The file in memory keeps the contract of the handle -/

theorem mem_ops_seek_honest : seek_honest mem_ops := by
  intro f offset h
  simp only [mem_ops] at h ⊢
  split <;> rfl

theorem mem_ops_read_bounded : read_bounded mem_ops := by
  intro f nbytes h0
  have h : ((List.take nbytes.toNat (List.drop f.pos f.content)).length : Int) ≤ nbytes := by
    rw [List.length_take]
    omega
  simp only [mem_ops]
  split
  · exact h
  · split
    · exact h0
    · exact h

/-! ## Giving up a reference -/

theorem file_destroy_count (refcount : Int) : (file_destroy refcount).1 = refcount - 1 := by
  unfold file_destroy apr_bucket_shared_destroy
  by_cases h : refcount - 1 = 0 <;> simp [h]

theorem file_destroy_freed (refcount : Int) :
    (file_destroy refcount).2 = true ↔ refcount - 1 = 0 := by
  unfold file_destroy apr_bucket_shared_destroy
  by_cases h : refcount - 1 = 0 <;> simp [h]

/-! ## The paths through `file_read` -/

section paths

variable {H M : Type} (cfg : Config) (ops : FileOps H M) (f : H) (refcount : Int) (a : Nat)
  (e : apr_bucket M) (block : apr_read_type_e) (tr : List Event)

/-- Return of line 145: the seek failed. -/
theorem buffered_seek_failed (hs : (seek_step ops f e).rv ≠ APR_SUCCESS) :
    file_read_buffered cfg ops f refcount a e tr =
      { rv := (seek_step ops f e).rv, e := e, b := none, str := .null,
        len := chunk_size cfg e, f := (seek_step ops f e).f, refcount := refcount,
        freed := false, trace := tr ++ seek_trace cfg e ++ [Event.free_buf] } := by
  simp [file_read_buffered, hs]

/-- Return of line 151: the read reported neither success nor end of file. -/
theorem buffered_read_failed (hs : (seek_step ops f e).rv = APR_SUCCESS)
    (hr : (read_step cfg ops f e).rv ≠ APR_SUCCESS ∧ (read_step cfg ops f e).rv ≠ APR_EOF) :
    file_read_buffered cfg ops f refcount a e tr =
      { rv := (read_step cfg ops f e).rv, e := e, b := none, str := .null,
        len := ((read_step cfg ops f e).bytes.length : Int), f := (read_step cfg ops f e).f,
        refcount := refcount, freed := false,
        trace := tr ++ seek_trace cfg e ++ [Event.file_read (chunk_size cfg e)]
                  ++ [Event.free_buf] } := by
  simp [file_read_buffered, hs, hr]

/-- Return of line 176 through the branch of line 161: bytes of the range are left. -/
theorem buffered_split (hs : (seek_step ops f e).rv = APR_SUCCESS)
    (hr : ¬((read_step cfg ops f e).rv ≠ APR_SUCCESS ∧ (read_step cfg ops f e).rv ≠ APR_EOF))
    (hm : to_off_t (e.length - ((read_step cfg ops f e).bytes.length : Int)) > 0) :
    file_read_buffered cfg ops f refcount a e tr =
      { rv := APR_SUCCESS,
        e := apr_bucket_heap_make e (read_step cfg ops f e).bytes
               ((read_step cfg ops f e).bytes.length : Int),
        b := some { type := .apr_bucket_type_file,
                    length := to_off_t (e.length - ((read_step cfg ops f e).bytes.length : Int)),
                    start := to_off_t ((seek_step ops f e).offset
                               + ((read_step cfg ops f e).bytes.length : Int)),
                    data := .file a },
        str := .buf (read_step cfg ops f e).bytes,
        len := ((read_step cfg ops f e).bytes.length : Int),
        f := (read_step cfg ops f e).f, refcount := refcount, freed := false,
        trace := tr ++ seek_trace cfg e ++ [Event.file_read (chunk_size cfg e)]
                  ++ [Event.malloc_bucket] } := by
  unfold file_read_buffered
  simp only [hs, ne_eq, not_true_eq_false, if_false, if_neg hr, if_pos hm]

/-- Return of line 176 through the branch of line 171: nothing of the range is left. -/
theorem buffered_last (hs : (seek_step ops f e).rv = APR_SUCCESS)
    (hr : ¬((read_step cfg ops f e).rv ≠ APR_SUCCESS ∧ (read_step cfg ops f e).rv ≠ APR_EOF))
    (hm : ¬ to_off_t (e.length - ((read_step cfg ops f e).bytes.length : Int)) > 0) :
    file_read_buffered cfg ops f refcount a e tr =
      { rv := APR_SUCCESS,
        e := apr_bucket_heap_make e (read_step cfg ops f e).bytes
               ((read_step cfg ops f e).bytes.length : Int),
        b := none,
        str := .buf (read_step cfg ops f e).bytes,
        len := ((read_step cfg ops f e).bytes.length : Int),
        f := (read_step cfg ops f e).f, refcount := (file_destroy refcount).1,
        freed := (file_destroy refcount).2,
        trace := tr ++ seek_trace cfg e ++ [Event.file_read (chunk_size cfg e)]
                  ++ [Event.file_destroy a] } := by
  unfold file_read_buffered
  simp only [hs, ne_eq, not_true_eq_false, if_false, if_neg hr, if_neg hm]

/-- Return of line 130: the mapping was made. -/
theorem file_read_mapped (mm : M) (hm : mmap_attempt cfg ops f e = some mm) :
    file_read cfg ops f refcount a e block =
      { rv := APR_SUCCESS, e := apr_bucket_mmap_make e mm 0 e.length, b := none,
        str := .mapped mm 0, len := e.length, f := f,
        refcount := (file_destroy refcount).1, freed := (file_destroy refcount).2,
        trace := mmap_trace cfg e ++ [Event.file_destroy a] } := by
  simp [file_read, hm, mmap_read, apr_bucket_mmap_make]

/-- Line 134 is reached: no mapping was made. -/
theorem file_read_unmapped (hm : mmap_attempt cfg ops f e = none) :
    file_read cfg ops f refcount a e block =
      file_read_buffered cfg ops f refcount a e (mmap_trace cfg e) := by
  simp [file_read, hm]

end paths

/-- Under `seek_honest`, after line 147 `fileoffset` is still the start of the bucket. -/
theorem seek_step_offset {H M : Type} (ops : FileOps H M) (f : H) (e : apr_bucket M)
    (hseek : seek_honest ops) (hs : (seek_step ops f e).rv = APR_SUCCESS) :
    (seek_step ops f e).offset = e.start := by
  unfold seek_step at hs ⊢
  by_cases h0 : e.start ≠ 0
  · rw [if_pos h0] at hs ⊢
    exact hseek f e.start hs
  · rw [if_neg h0]

/-- C1: a successful buffered read of a file bucket with start `O` and length `L` that
obtains `got` bytes turns the bucket into a heap bucket of length `got`; when
`L - got > 0` it inserts one file bucket with start `O + got` and length `L - got` over
the same descriptor, when `L - got = 0` it inserts none, and in both cases the lengths
of the head and of the remainder add up to `L`.  The range `[O, O + L)` is taken to
lie within `apr_off_t` and a successful seek to report the offset it was given. -/
theorem file_read_split_coverage {H M : Type} (cfg : Config) (ops : FileOps H M) (f : H)
    (refcount : Int) (a : Nat) (e : apr_bucket M) (block : apr_read_type_e) (r : ReadResult H M)
    (hr : file_read cfg ops f refcount a e block = r)
    (hbuf : mmap_attempt cfg ops f e = none)
    (hok : r.rv = APR_SUCCESS)
    (hseek : seek_honest ops)
    (hstart : 0 ≤ e.start) (hend : e.start + e.length < 2 ^ 63) :
    (∃ bytes : List Nat, r.len = (bytes.length : Int) ∧ r.str = .buf bytes ∧
        r.e = { type := .apr_bucket_type_heap, length := r.len, start := 0,
                data := .heap bytes }) ∧
    (e.length - r.len > 0 →
        r.b = some { type := .apr_bucket_type_file, length := e.length - r.len,
                     start := e.start + r.len, data := .file a }) ∧
    (e.length - r.len = 0 → r.b = none) ∧
    (e.length - r.len ≥ 0 →
        r.e.length + (match r.b with | some b => b.length | none => 0) = e.length) := by
  subst hr
  rw [file_read_unmapped cfg ops f refcount a e block hbuf] at hok ⊢
  by_cases hs : (seek_step ops f e).rv = APR_SUCCESS
  swap
  · rw [buffered_seek_failed cfg ops f refcount a e _ hs] at hok
    exact absurd hok hs
  by_cases hrd : (read_step cfg ops f e).rv ≠ APR_SUCCESS ∧ (read_step cfg ops f e).rv ≠ APR_EOF
  · rw [buffered_read_failed cfg ops f refcount a e _ hs hrd] at hok
    exact absurd hok hrd.1
  have hoff := seek_step_offset ops f e hseek hs
  by_cases hm : to_off_t (e.length - ((read_step cfg ops f e).bytes.length : Int)) > 0
  · rw [buffered_split cfg ops f refcount a e _ hs hrd hm]
    refine ⟨⟨_, rfl, rfl, rfl⟩, ?_, ?_, ?_⟩
    · intro hpos
      simp only at hpos ⊢
      rw [hoff, to_off_t_eq _ (by omega) (by omega), to_off_t_eq _ (by omega) (by omega)]
    · intro hz
      simp only at hz
      rw [hz] at hm
      exact absurd hm (by decide)
    · intro hge
      simp only [apr_bucket_heap_make] at hge ⊢
      rw [to_off_t_eq _ (by omega) (by omega)]
      omega
  · rw [buffered_last cfg ops f refcount a e _ hs hrd hm]
    refine ⟨⟨_, rfl, rfl, rfl⟩, ?_, ?_, ?_⟩
    · intro hpos
      simp only at hpos
      rw [to_off_t_eq _ (by omega) (by omega)] at hm
      exact absurd hpos hm
    · intro _
      rfl
    · intro hge
      simp only [apr_bucket_heap_make] at hge ⊢
      rw [to_off_t_eq _ (by omega) (by omega)] at hm
      omega

/-! ## The calls a read makes -/

theorem mmap_wanted_iff {M : Type} (cfg : Config) (e : apr_bucket M) :
    mmap_wanted cfg e = true ↔
      (cfg.APR_HAS_MMAP = true ∧ cfg.MMAP_THRESHOLD ≤ e.length ∧ e.length < cfg.MMAP_LIMIT) := by
  simp [mmap_wanted, and_assoc]

theorem mem_mmap_trace {M : Type} (cfg : Config) (e : apr_bucket M) (ev : Event) :
    ev ∈ mmap_trace cfg e ↔
      (mmap_wanted cfg e = true ∧ ev = Event.mmap_create e.start (to_size_t e.length)) := by
  unfold mmap_trace
  by_cases h : mmap_wanted cfg e = true <;> simp [h]

theorem mem_seek_trace {M : Type} (cfg : Config) (e : apr_bucket M) (ev : Event) :
    ev ∈ seek_trace cfg e ↔
      (ev = Event.malloc (chunk_size cfg e) ∨ (e.start ≠ 0 ∧ ev = Event.file_seek e.start)) := by
  unfold seek_trace
  by_cases h : e.start ≠ 0 <;> simp [h]

/-- The four returns of the buffered read. -/
theorem buffered_cases {H M : Type} (cfg : Config) (ops : FileOps H M) (f : H)
    (refcount : Int) (a : Nat) (e : apr_bucket M) (tr : List Event) :
    ((seek_step ops f e).rv ≠ APR_SUCCESS ∧
      (file_read_buffered cfg ops f refcount a e tr).trace
        = tr ++ seek_trace cfg e ++ [Event.free_buf]) ∨
    ((seek_step ops f e).rv = APR_SUCCESS ∧
      ((read_step cfg ops f e).rv ≠ APR_SUCCESS ∧ (read_step cfg ops f e).rv ≠ APR_EOF) ∧
      (file_read_buffered cfg ops f refcount a e tr).trace
        = tr ++ seek_trace cfg e ++ [Event.file_read (chunk_size cfg e)] ++ [Event.free_buf]) ∨
    ((seek_step ops f e).rv = APR_SUCCESS ∧
      ¬((read_step cfg ops f e).rv ≠ APR_SUCCESS ∧ (read_step cfg ops f e).rv ≠ APR_EOF) ∧
      to_off_t (e.length - ((read_step cfg ops f e).bytes.length : Int)) > 0 ∧
      (file_read_buffered cfg ops f refcount a e tr).trace
        = tr ++ seek_trace cfg e ++ [Event.file_read (chunk_size cfg e)]
            ++ [Event.malloc_bucket]) ∨
    ((seek_step ops f e).rv = APR_SUCCESS ∧
      ¬((read_step cfg ops f e).rv ≠ APR_SUCCESS ∧ (read_step cfg ops f e).rv ≠ APR_EOF) ∧
      ¬ to_off_t (e.length - ((read_step cfg ops f e).bytes.length : Int)) > 0 ∧
      (file_read_buffered cfg ops f refcount a e tr).trace
        = tr ++ seek_trace cfg e ++ [Event.file_read (chunk_size cfg e)]
            ++ [Event.file_destroy a]) := by
  by_cases hs : (seek_step ops f e).rv = APR_SUCCESS
  swap
  · exact Or.inl ⟨hs, by rw [buffered_seek_failed cfg ops f refcount a e tr hs]⟩
  by_cases hrd : (read_step cfg ops f e).rv ≠ APR_SUCCESS ∧ (read_step cfg ops f e).rv ≠ APR_EOF
  · exact Or.inr (Or.inl ⟨hs, hrd, by rw [buffered_read_failed cfg ops f refcount a e tr hs hrd]⟩)
  by_cases hm : to_off_t (e.length - ((read_step cfg ops f e).bytes.length : Int)) > 0
  · exact Or.inr (Or.inr (Or.inl
      ⟨hs, hrd, hm, by rw [buffered_split cfg ops f refcount a e tr hs hrd hm]⟩))
  · exact Or.inr (Or.inr (Or.inr
      ⟨hs, hrd, hm, by rw [buffered_last cfg ops f refcount a e tr hs hrd hm]⟩))

/-- The buffered read does not call the mapping facility. -/
theorem buffered_trace_mmap_create {H M : Type} (cfg : Config) (ops : FileOps H M) (f : H)
    (refcount : Int) (a : Nat) (e : apr_bucket M) (tr : List Event) (o s : Int) :
    Event.mmap_create o s ∈ (file_read_buffered cfg ops f refcount a e tr).trace ↔
      Event.mmap_create o s ∈ tr := by
  rcases buffered_cases cfg ops f refcount a e tr with h | h | h | h
  · rw [h.2]; simp [mem_seek_trace]
  · rw [h.2.2]; simp [mem_seek_trace]
  · rw [h.2.2.2]; simp [mem_seek_trace]
  · rw [h.2.2.2]; simp [mem_seek_trace]

/-- The bucket a buffered read leaves is the bucket as it was or a heap bucket. -/
theorem buffered_bucket {H M : Type} (cfg : Config) (ops : FileOps H M) (f : H)
    (refcount : Int) (a : Nat) (e : apr_bucket M) (tr : List Event) :
    (file_read_buffered cfg ops f refcount a e tr).e = e ∨
    (file_read_buffered cfg ops f refcount a e tr).e.type = .apr_bucket_type_heap := by
  by_cases hs : (seek_step ops f e).rv = APR_SUCCESS
  swap
  · rw [buffered_seek_failed cfg ops f refcount a e tr hs]; exact Or.inl rfl
  by_cases hrd : (read_step cfg ops f e).rv ≠ APR_SUCCESS ∧ (read_step cfg ops f e).rv ≠ APR_EOF
  · rw [buffered_read_failed cfg ops f refcount a e tr hs hrd]; exact Or.inl rfl
  by_cases hm : to_off_t (e.length - ((read_step cfg ops f e).bytes.length : Int)) > 0
  · rw [buffered_split cfg ops f refcount a e tr hs hrd hm]; exact Or.inr rfl
  · rw [buffered_last cfg ops f refcount a e tr hs hrd hm]; exact Or.inr rfl

/-- C1 at an input: a bucket over bytes 2..11 of a file, read with buffers of 4 bytes,
becomes a heap bucket of 4 bytes and is followed by a file bucket over bytes 6..11. -/
theorem file_read_split_coverage_witness :
    mmap_attempt small_config mem_ops (mem_of digits 0) (file_bucket 7 2 10) = none ∧
    (file_read small_config mem_ops (mem_of digits 0) 1 7 (file_bucket 7 2 10) .APR_BLOCK_READ).rv = APR_SUCCESS ∧
    (file_read small_config mem_ops (mem_of digits 0) 1 7 (file_bucket 7 2 10) .APR_BLOCK_READ).len = 4 ∧
    ((file_bucket 7 2 10).length
        - (file_read small_config mem_ops (mem_of digits 0) 1 7 (file_bucket 7 2 10) .APR_BLOCK_READ).len > 0 →
      (file_read small_config mem_ops (mem_of digits 0) 1 7 (file_bucket 7 2 10) .APR_BLOCK_READ).b
        = some { type := .apr_bucket_type_file,
                 length := (file_bucket 7 2 10).length
                   - (file_read small_config mem_ops (mem_of digits 0) 1 7 (file_bucket 7 2 10) .APR_BLOCK_READ).len,
                 start := (file_bucket 7 2 10).start
                   + (file_read small_config mem_ops (mem_of digits 0) 1 7 (file_bucket 7 2 10) .APR_BLOCK_READ).len,
                 data := .file 7 }) :=
  ⟨by decide, by decide, by decide,
    (file_read_split_coverage small_config mem_ops (mem_of digits 0) 1 7 (file_bucket 7 2 10)
      .APR_BLOCK_READ _ rfl
      (by decide) (by decide) mem_ops_seek_honest (by decide) (by decide)).2.1⟩

/-! ## The mapped read -/

/-- C3: when mapping support is compiled in, `MMAP_THRESHOLD <= L < MMAP_LIMIT` and
the mapping of `[O, O + L)` is made, the read turns the bucket in place into one mmap
bucket of length `L` over that mapping, inserts no bucket, leaves the handle as it
was, makes no call but the one that creates the mapping and one `file_destroy`, and
so gives up the bucket's reference once. -/
theorem file_read_mapped_whole_range {H M : Type} (cfg : Config) (ops : FileOps H M) (f : H)
    (refcount : Int) (a : Nat) (e : apr_bucket M) (block : apr_read_type_e) (mm : M)
    (hcfg : cfg.APR_HAS_MMAP = true)
    (hlow : cfg.MMAP_THRESHOLD ≤ e.length) (hhigh : e.length < cfg.MMAP_LIMIT)
    (hst : (ops.apr_mmap_create f e.start (to_size_t e.length)).status = APR_SUCCESS)
    (hmm : (ops.apr_mmap_create f e.start (to_size_t e.length)).mm = some mm) :
    (file_read cfg ops f refcount a e block).rv = APR_SUCCESS ∧
    (file_read cfg ops f refcount a e block).e
      = { type := .apr_bucket_type_mmap, length := e.length, start := 0, data := .mmap mm } ∧
    (file_read cfg ops f refcount a e block).b = none ∧
    (file_read cfg ops f refcount a e block).str = .mapped mm 0 ∧
    (file_read cfg ops f refcount a e block).len = e.length ∧
    (file_read cfg ops f refcount a e block).f = f ∧
    (file_read cfg ops f refcount a e block).trace
      = [Event.mmap_create e.start (to_size_t e.length), Event.file_destroy a] ∧
    (file_read cfg ops f refcount a e block).refcount = refcount - 1 := by
  have hw : mmap_wanted cfg e = true := (mmap_wanted_iff cfg e).2 ⟨hcfg, hlow, hhigh⟩
  have hm : mmap_attempt cfg ops f e = some mm := by
    unfold mmap_attempt
    rw [if_pos hw]
    simp [hst, hmm]
  rw [file_read_mapped cfg ops f refcount a e block mm hm]
  refine ⟨rfl, rfl, rfl, rfl, rfl, rfl, ?_, file_destroy_count refcount⟩
  simp [mmap_trace, hw]

/-- C3 at an input: a bucket over bytes 2..6 of the file becomes one mmap bucket of
5 bytes. -/
theorem file_read_mapped_whole_range_witness :
    (file_read small_config mem_ops (mem_of digits 0) 1 7 (file_bucket 7 2 5) .APR_BLOCK_READ).e
      = { type := .apr_bucket_type_mmap, length := 5, start := 0,
          data := .mmap [12, 13, 14, 15, 16] } ∧
    (file_read small_config mem_ops (mem_of digits 0) 1 7 (file_bucket 7 2 5) .APR_BLOCK_READ).b = none ∧
    (file_read small_config mem_ops (mem_of digits 0) 1 7 (file_bucket 7 2 5) .APR_BLOCK_READ).refcount = 0 :=
  have h := file_read_mapped_whole_range small_config mem_ops (mem_of digits 0) 1 7
    (file_bucket 7 2 5) .APR_BLOCK_READ [12, 13, 14, 15, 16] rfl (by decide) (by decide) (by decide) (by decide)
  ⟨h.2.1, h.2.2.1, h.2.2.2.2.2.2.2⟩

/-! ## The seek -/

/-- A seek is among the calls of a read only on the buffered path and for a bucket
whose start is not zero. -/
theorem seek_in_trace {H M : Type} (cfg : Config) (ops : FileOps H M) (f : H)
    (refcount : Int) (a : Nat) (e : apr_bucket M) (block : apr_read_type_e) (o : Int)
    (h : Event.file_seek o ∈ (file_read cfg ops f refcount a e block).trace) :
    mmap_attempt cfg ops f e = none ∧ e.start ≠ 0 := by
  cases hm : mmap_attempt cfg ops f e with
  | some mm =>
    rw [file_read_mapped cfg ops f refcount a e block mm hm] at h
    simp [mem_mmap_trace] at h
  | none =>
    refine ⟨rfl, ?_⟩
    rw [file_read_unmapped cfg ops f refcount a e block hm] at h
    rcases buffered_cases cfg ops f refcount a e (mmap_trace cfg e) with c | c | c | c
    · rw [c.2] at h; simp [mem_mmap_trace, mem_seek_trace] at h; exact h.1
    · rw [c.2.2] at h; simp [mem_mmap_trace, mem_seek_trace] at h; exact h.1
    · rw [c.2.2.2] at h; simp [mem_mmap_trace, mem_seek_trace] at h; exact h.1
    · rw [c.2.2.2] at h; simp [mem_mmap_trace, mem_seek_trace] at h; exact h.1

/-- A call of `apr_file_read` is among the calls of a read only on the buffered path
and after line 147 was passed. -/
theorem read_in_trace {H M : Type} (cfg : Config) (ops : FileOps H M) (f : H)
    (refcount : Int) (a : Nat) (e : apr_bucket M) (block : apr_read_type_e) (n : Int)
    (h : Event.file_read n ∈ (file_read cfg ops f refcount a e block).trace) :
    mmap_attempt cfg ops f e = none ∧ (seek_step ops f e).rv = APR_SUCCESS := by
  cases hm : mmap_attempt cfg ops f e with
  | some mm =>
    rw [file_read_mapped cfg ops f refcount a e block mm hm] at h
    simp [mem_mmap_trace] at h
  | none =>
    refine ⟨rfl, ?_⟩
    rw [file_read_unmapped cfg ops f refcount a e block hm] at h
    rcases buffered_cases cfg ops f refcount a e (mmap_trace cfg e) with c | c | c | c
    · rw [c.2] at h; simp [mem_mmap_trace, mem_seek_trace] at h
    · exact c.1
    · exact c.1
    · exact c.1

/-- C4, the code at the failing input: a bucket over bytes 0..7 of the file is read
while the cursor of the handle is at 3.  No seek is made, and the bytes handed to the
caller are bytes 3..6 of the file, not bytes 0..3. -/
theorem file_read_offset_zero_skips_seek :
    (file_bucket 7 0 8).start = 0 ∧ (mem_of digits 3).pos = 3 ∧
    (file_read small_config mem_ops (mem_of digits 3) 1 7 (file_bucket 7 0 8) .APR_BLOCK_READ).rv = APR_SUCCESS ∧
    (file_read small_config mem_ops (mem_of digits 3) 1 7 (file_bucket 7 0 8) .APR_BLOCK_READ).trace
      = [Event.malloc 4, Event.file_read 4, Event.malloc_bucket] ∧
    (file_read small_config mem_ops (mem_of digits 3) 1 7 (file_bucket 7 0 8) .APR_BLOCK_READ).str
      = .buf [13, 14, 15, 16] ∧
    (digits.drop 0).take 4 = [10, 11, 12, 13] := by
  decide

/-- C6: when the seek of line 142 is made and fails, the read returns the status of
the seek, the bucket is as it was (still the file bucket, same start, length and
descriptor), no bucket is inserted, `*str` is `NULL`, the reference count is as it
was, and the buffer that was allocated has been freed. -/
theorem seek_failure_leaves_bucket {H M : Type} (cfg : Config) (ops : FileOps H M) (f : H)
    (refcount : Int) (a : Nat) (e : apr_bucket M) (block : apr_read_type_e) (r : ReadResult H M)
    (hr : file_read cfg ops f refcount a e block = r)
    (hseek : ∃ o, Event.file_seek o ∈ r.trace)
    (hfail : (ops.apr_file_seek f e.start).rv ≠ APR_SUCCESS) :
    r.rv = (ops.apr_file_seek f e.start).rv ∧ r.e = e ∧ r.b = none ∧ r.str = .null ∧
    r.refcount = refcount ∧ r.freed = false ∧
    r.trace = mmap_trace cfg e
      ++ [Event.malloc (chunk_size cfg e), Event.file_seek e.start, Event.free_buf] := by
  subst hr
  obtain ⟨o, ho⟩ := hseek
  obtain ⟨hm, h0⟩ := seek_in_trace cfg ops f refcount a e block o ho
  have hstep : seek_step ops f e = ops.apr_file_seek f e.start := by
    unfold seek_step
    rw [if_pos h0]
  have hs : (seek_step ops f e).rv ≠ APR_SUCCESS := by rw [hstep]; exact hfail
  rw [file_read_unmapped cfg ops f refcount a e block hm,
    buffered_seek_failed cfg ops f refcount a e _ hs, hstep]
  refine ⟨rfl, rfl, rfl, rfl, rfl, rfl, ?_⟩
  simp [seek_trace, h0]

/-- C7: when the call of `apr_file_read` is made and reports a status that is neither
`APR_SUCCESS` nor `APR_EOF`, the read returns that status, the bucket is as it was,
no bucket is inserted, `*str` is `NULL`, and the reference count is as it was. -/
theorem read_failure_leaves_bucket {H M : Type} (cfg : Config) (ops : FileOps H M) (f : H)
    (refcount : Int) (a : Nat) (e : apr_bucket M) (block : apr_read_type_e) (r : ReadResult H M)
    (hr : file_read cfg ops f refcount a e block = r)
    (hread : ∃ n, Event.file_read n ∈ r.trace)
    (hfail : (read_step cfg ops f e).rv ≠ APR_SUCCESS ∧ (read_step cfg ops f e).rv ≠ APR_EOF) :
    r.rv = (read_step cfg ops f e).rv ∧ r.e = e ∧ r.b = none ∧ r.str = .null ∧
    r.refcount = refcount ∧ r.freed = false ∧ r.trace.getLast? = some Event.free_buf := by
  subst hr
  obtain ⟨n, hn⟩ := hread
  obtain ⟨hm, hs⟩ := read_in_trace cfg ops f refcount a e block n hn
  rw [file_read_unmapped cfg ops f refcount a e block hm,
    buffered_read_failed cfg ops f refcount a e _ hs hfail]
  refine ⟨rfl, rfl, rfl, rfl, rfl, rfl, ?_⟩
  simp

/-- C8 as amended: when the call of `apr_file_read` is made and reports `APR_EOF`
with `got` bytes, the read returns `APR_SUCCESS`, the bucket is a heap bucket over
exactly those `got` bytes, and `*len` is `got`. -/
theorem eof_read_materializes {H M : Type} (cfg : Config) (ops : FileOps H M) (f : H)
    (refcount : Int) (a : Nat) (e : apr_bucket M) (block : apr_read_type_e) (r : ReadResult H M)
    (hr : file_read cfg ops f refcount a e block = r)
    (hread : ∃ n, Event.file_read n ∈ r.trace)
    (heof : (read_step cfg ops f e).rv = APR_EOF) :
    r.rv = APR_SUCCESS ∧
    r.e = { type := .apr_bucket_type_heap,
            length := ((read_step cfg ops f e).bytes.length : Int), start := 0,
            data := .heap (read_step cfg ops f e).bytes } ∧
    r.len = ((read_step cfg ops f e).bytes.length : Int) ∧
    r.str = .buf (read_step cfg ops f e).bytes := by
  subst hr
  obtain ⟨n, hn⟩ := hread
  obtain ⟨hm, hs⟩ := read_in_trace cfg ops f refcount a e block n hn
  have hrd : ¬((read_step cfg ops f e).rv ≠ APR_SUCCESS ∧ (read_step cfg ops f e).rv ≠ APR_EOF) :=
    fun h => h.2 heof
  rw [file_read_unmapped cfg ops f refcount a e block hm]
  by_cases hmore : to_off_t (e.length - ((read_step cfg ops f e).bytes.length : Int)) > 0
  · rw [buffered_split cfg ops f refcount a e _ hs hrd hmore]
    exact ⟨rfl, rfl, rfl, rfl⟩
  · rw [buffered_last cfg ops f refcount a e _ hs hrd hmore]
    exact ⟨rfl, rfl, rfl, rfl⟩

/-- C6 at an input: the seek to offset 2 reports status 29; the read returns 29 and
the bucket is the file bucket it was. -/
theorem seek_failure_leaves_bucket_witness :
    (file_read small_config mem_ops mem_seek_fails 1 7 (file_bucket 7 2 10) .APR_BLOCK_READ).rv = 29 ∧
    (file_read small_config mem_ops mem_seek_fails 1 7 (file_bucket 7 2 10) .APR_BLOCK_READ).e
      = file_bucket 7 2 10 ∧
    (file_read small_config mem_ops mem_seek_fails 1 7 (file_bucket 7 2 10) .APR_BLOCK_READ).b = none ∧
    (file_read small_config mem_ops mem_seek_fails 1 7 (file_bucket 7 2 10) .APR_BLOCK_READ).str = .null :=
  have h := seek_failure_leaves_bucket small_config mem_ops mem_seek_fails 1 7
    (file_bucket 7 2 10) .APR_BLOCK_READ _ rfl ⟨2, by decide⟩ (by decide)
  ⟨h.1, h.2.1, h.2.2.1, h.2.2.2.1⟩

/-- C7 at an input: the read of the handle reports status 5; the read of the bucket
returns 5 and the bucket is the file bucket it was. -/
theorem read_failure_leaves_bucket_witness :
    (read_step small_config mem_ops mem_read_fails (file_bucket 7 2 10)).rv = 5 ∧
    (file_read small_config mem_ops mem_read_fails 1 7 (file_bucket 7 2 10) .APR_BLOCK_READ).rv = 5 ∧
    (file_read small_config mem_ops mem_read_fails 1 7 (file_bucket 7 2 10) .APR_BLOCK_READ).e
      = file_bucket 7 2 10 ∧
    (file_read small_config mem_ops mem_read_fails 1 7 (file_bucket 7 2 10) .APR_BLOCK_READ).b = none ∧
    (file_read small_config mem_ops mem_read_fails 1 7 (file_bucket 7 2 10) .APR_BLOCK_READ).str = .null :=
  have h := read_failure_leaves_bucket small_config mem_ops mem_read_fails 1 7
    (file_bucket 7 2 10) .APR_BLOCK_READ _ rfl ⟨4, by decide⟩ (by decide)
  ⟨by decide, h.1.trans (by decide), h.2.1, h.2.2.1, h.2.2.2.1⟩

/-- C8, the claim fails: a bucket over bytes 16..25 of a file of 16 bytes.  The read
of the handle reports `APR_EOF` with no bytes; the read of the bucket returns
`APR_SUCCESS`, which is not `APR_EOF`. -/
theorem eof_status_not_passed_on :
    (read_step small_config mem_ops (mem_of digits 0) (file_bucket 7 16 10)).rv = APR_EOF ∧
    (read_step small_config mem_ops (mem_of digits 0) (file_bucket 7 16 10)).bytes = [] ∧
    (file_read small_config mem_ops (mem_of digits 0) 1 7 (file_bucket 7 16 10) .APR_BLOCK_READ).rv
      = APR_SUCCESS ∧
    (file_read small_config mem_ops (mem_of digits 0) 1 7 (file_bucket 7 16 10) .APR_BLOCK_READ).rv ≠ APR_EOF := by
  decide

/-- C8 as amended, at an input: the read of the handle reports `APR_EOF` with 4 bytes;
the read of the bucket returns `APR_SUCCESS` and leaves a heap bucket of 4 bytes. -/
theorem eof_read_materializes_witness :
    (read_step small_config mem_ops mem_reports_eof (file_bucket 7 2 10)).rv = APR_EOF ∧
    (read_step small_config mem_ops mem_reports_eof (file_bucket 7 2 10)).bytes
      = [12, 13, 14, 15] ∧
    (file_read small_config mem_ops mem_reports_eof 1 7 (file_bucket 7 2 10) .APR_BLOCK_READ).rv = APR_SUCCESS ∧
    (file_read small_config mem_ops mem_reports_eof 1 7 (file_bucket 7 2 10) .APR_BLOCK_READ).len
      = (((read_step small_config mem_ops mem_reports_eof (file_bucket 7 2 10)).bytes.length
          : Nat) : Int) :=
  have h := eof_read_materializes small_config mem_ops mem_reports_eof 1 7
    (file_bucket 7 2 10) .APR_BLOCK_READ _ rfl ⟨4, by decide⟩ (by decide)
  ⟨by decide, by decide, h.1, h.2.2.1⟩

/-! ## The mapping that fails -/

/-- The buffered read depends on the calls made before it only in the list of calls
it hands back. -/
theorem buffered_trace_irrelevant {H M : Type} (cfg : Config) (ops : FileOps H M) (f : H)
    (refcount : Int) (a : Nat) (e : apr_bucket M) (tr : List Event) :
    file_read_buffered cfg ops f refcount a e tr =
      { file_read_buffered cfg ops f refcount a e [] with
        trace := tr ++ (file_read_buffered cfg ops f refcount a e []).trace } := by
  by_cases hs : (seek_step ops f e).rv = APR_SUCCESS
  swap
  · simp [buffered_seek_failed cfg ops f refcount a e _ hs]
  by_cases hrd : (read_step cfg ops f e).rv ≠ APR_SUCCESS ∧ (read_step cfg ops f e).rv ≠ APR_EOF
  · simp [buffered_read_failed cfg ops f refcount a e _ hs hrd]
  by_cases hm : to_off_t (e.length - ((read_step cfg ops f e).bytes.length : Int)) > 0
  · simp [buffered_split cfg ops f refcount a e _ hs hrd hm]
  · simp [buffered_last cfg ops f refcount a e _ hs hrd hm]

/-- The buffered read looks at the configuration only for the buffer size, and at the
collaborators only for the seek and the read. -/
theorem buffered_congr {H M : Type} (cfg cfg2 : Config) (ops ops2 : FileOps H M) (f : H)
    (refcount : Int) (a : Nat) (e : apr_bucket M) (tr : List Event)
    (hcfg : cfg2.APR_BUCKET_BUFF_SIZE = cfg.APR_BUCKET_BUFF_SIZE)
    (hseek : ops2.apr_file_seek = ops.apr_file_seek)
    (hread : ops2.apr_file_read = ops.apr_file_read) :
    file_read_buffered cfg2 ops2 f refcount a e tr = file_read_buffered cfg ops f refcount a e tr := by
  unfold file_read_buffered read_step seek_step seek_trace chunk_size
  rw [hcfg, hseek, hread]

/-- In the window the value of `mm` at line 127 is what `apr_mmap_create`, called with
the handle and the range of the bucket, has reported. -/
theorem mmap_attempt_in_window {H M : Type} (cfg : Config) (ops : FileOps H M) (f : H)
    (e : apr_bucket M)
    (hw : cfg.APR_HAS_MMAP = true ∧ cfg.MMAP_THRESHOLD ≤ e.length ∧ e.length < cfg.MMAP_LIMIT) :
    mmap_attempt cfg ops f e
      = if (ops.apr_mmap_create f e.start (to_size_t e.length)).status ≠ APR_SUCCESS then none
        else (ops.apr_mmap_create f e.start (to_size_t e.length)).mm := by
  unfold mmap_attempt
  rw [if_pos ((mmap_wanted_iff cfg e).2 hw)]

/-- C2: a read of a file bucket of length `L` calls the mapping facility exactly when
mapping support is compiled in and `MMAP_THRESHOLD <= L < MMAP_LIMIT`.  In that window
the call is the first the read makes, it is made on the handle with the range of the
bucket, and what it reports decides the read: when it reports success and a mapping,
the bucket becomes the mmap bucket over that mapping, and when it reports a failure
the bucket does not become an mmap bucket.  Outside the window, or without mapping
support, the read makes no such call, does not leave an mmap bucket, and leaves the
same whatever the mapping facility would have reported. -/
theorem mmap_attempted_iff_in_window {H M : Type} (cfg : Config) (ops : FileOps H M) (f : H)
    (refcount : Int) (a : Nat) (e : apr_bucket M) (block : apr_read_type_e)
    (he : e.type = .apr_bucket_type_file) :
    ((∃ o s, Event.mmap_create o s ∈ (file_read cfg ops f refcount a e block).trace) ↔
      (cfg.APR_HAS_MMAP = true ∧ cfg.MMAP_THRESHOLD ≤ e.length ∧ e.length < cfg.MMAP_LIMIT)) ∧
    ((cfg.APR_HAS_MMAP = true ∧ cfg.MMAP_THRESHOLD ≤ e.length ∧ e.length < cfg.MMAP_LIMIT) →
      (file_read cfg ops f refcount a e block).trace.head?
        = some (Event.mmap_create e.start (to_size_t e.length)) ∧
      (∀ mm, (ops.apr_mmap_create f e.start (to_size_t e.length)).status = APR_SUCCESS →
        (ops.apr_mmap_create f e.start (to_size_t e.length)).mm = some mm →
          (file_read cfg ops f refcount a e block).e = apr_bucket_mmap_make e mm 0 e.length ∧
          (file_read cfg ops f refcount a e block).e.type = .apr_bucket_type_mmap ∧
          (file_read cfg ops f refcount a e block).str = .mapped mm 0 ∧
          (file_read cfg ops f refcount a e block).b = none) ∧
      ((ops.apr_mmap_create f e.start (to_size_t e.length)).status ≠ APR_SUCCESS →
        (file_read cfg ops f refcount a e block).e.type ≠ .apr_bucket_type_mmap)) ∧
    (¬(cfg.APR_HAS_MMAP = true ∧ cfg.MMAP_THRESHOLD ≤ e.length ∧ e.length < cfg.MMAP_LIMIT) →
      (∀ o s, Event.mmap_create o s ∉ (file_read cfg ops f refcount a e block).trace) ∧
      (file_read cfg ops f refcount a e block).e.type ≠ .apr_bucket_type_mmap ∧
      (∀ ops2 : FileOps H M, ops2.apr_file_seek = ops.apr_file_seek →
        ops2.apr_file_read = ops.apr_file_read →
          file_read cfg ops2 f refcount a e block = file_read cfg ops f refcount a e block)) := by
  have key : ∀ o s, Event.mmap_create o s ∈ (file_read cfg ops f refcount a e block).trace ↔
      (mmap_wanted cfg e = true ∧ o = e.start ∧ s = to_size_t e.length) := by
    intro o s
    cases hm : mmap_attempt cfg ops f e with
    | some mm =>
      rw [file_read_mapped cfg ops f refcount a e block mm hm]
      simp [mem_mmap_trace]
    | none =>
      rw [file_read_unmapped cfg ops f refcount a e block hm, buffered_trace_mmap_create]
      simp [mem_mmap_trace]
  have hnot : ∀ tr, (file_read_buffered cfg ops f refcount a e tr).e.type
      ≠ .apr_bucket_type_mmap := by
    intro tr
    rcases buffered_bucket cfg ops f refcount a e tr with h | h
    · rw [h, he]; decide
    · rw [h]; decide
  refine ⟨?_, ?_, ?_⟩
  · rw [← mmap_wanted_iff]
    constructor
    · rintro ⟨o, s, h⟩
      exact ((key o s).1 h).1
    · intro h
      exact ⟨_, _, (key _ _).2 ⟨h, rfl, rfl⟩⟩
  · intro hw
    have hat := mmap_attempt_in_window cfg ops f e hw
    have htr : mmap_trace cfg e = [Event.mmap_create e.start (to_size_t e.length)] := by
      unfold mmap_trace
      rw [if_pos ((mmap_wanted_iff cfg e).2 hw)]
    refine ⟨?_, ?_, ?_⟩
    · cases hm : mmap_attempt cfg ops f e with
      | some mm =>
        rw [file_read_mapped cfg ops f refcount a e block mm hm, htr]
        rfl
      | none =>
        rw [file_read_unmapped cfg ops f refcount a e block hm,
          buffered_trace_irrelevant, htr]
        rfl
    · intro mm hst hmm
      have hm : mmap_attempt cfg ops f e = some mm := by
        rw [hat, if_neg (not_not.2 hst), hmm]
      rw [file_read_mapped cfg ops f refcount a e block mm hm]
      exact ⟨rfl, rfl, rfl, rfl⟩
    · intro hst
      have hm : mmap_attempt cfg ops f e = none := by
        rw [hat, if_pos hst]
      rw [file_read_unmapped cfg ops f refcount a e block hm]
      exact hnot _
  · intro hw
    rw [← mmap_wanted_iff] at hw
    have hm : ∀ ops3 : FileOps H M, mmap_attempt cfg ops3 f e = none := by
      intro ops3
      unfold mmap_attempt
      rw [if_neg hw]
    refine ⟨fun o s h => hw ((key o s).1 h).1, ?_, ?_⟩
    · rw [file_read_unmapped cfg ops f refcount a e block (hm ops)]
      exact hnot _
    · intro ops2 hseek hread
      rw [file_read_unmapped cfg ops f refcount a e block (hm ops),
        file_read_unmapped cfg ops2 f refcount a e block (hm ops2)]
      exact buffered_congr cfg cfg ops ops2 f refcount a e _ rfl hseek hread

/-- C2 at two inputs, with the window `1 ≤ L < 8` and the file of 16 bytes: the bucket
over bytes 2..6 is in the window, the mapping facility is called first, with offset 2
and size 5, and the bucket becomes the mmap bucket over the bytes it reported; the
bucket over bytes 2..11 is not in the window, and is read with no such call. -/
theorem mmap_attempted_iff_in_window_witness :
    (file_bucket 7 2 5).type = .apr_bucket_type_file ∧
    (small_config.APR_HAS_MMAP = true ∧ small_config.MMAP_THRESHOLD ≤ (file_bucket 7 2 5).length
        ∧ (file_bucket 7 2 5).length < small_config.MMAP_LIMIT) ∧
    (file_read small_config mem_ops (mem_of digits 0) 1 7 (file_bucket 7 2 5)
        .APR_BLOCK_READ).trace.head? = some (Event.mmap_create 2 5) ∧
    (file_read small_config mem_ops (mem_of digits 0) 1 7 (file_bucket 7 2 5) .APR_BLOCK_READ).e
      = apr_bucket_mmap_make (file_bucket 7 2 5) [12, 13, 14, 15, 16] 0 5 ∧
    ¬(small_config.APR_HAS_MMAP = true ∧ small_config.MMAP_THRESHOLD ≤ (file_bucket 7 2 10).length
        ∧ (file_bucket 7 2 10).length < small_config.MMAP_LIMIT) ∧
    (file_read small_config mem_ops (mem_of digits 0) 1 7 (file_bucket 7 2 10) .APR_BLOCK_READ).e.type
      ≠ .apr_bucket_type_mmap ∧
    (∀ o s, Event.mmap_create o s ∉
      (file_read small_config mem_ops (mem_of digits 0) 1 7 (file_bucket 7 2 10)
        .APR_BLOCK_READ).trace) :=
  have hin := (mmap_attempted_iff_in_window small_config mem_ops (mem_of digits 0) 1 7
    (file_bucket 7 2 5) .APR_BLOCK_READ rfl).2.1 (by decide)
  have hout := (mmap_attempted_iff_in_window small_config mem_ops (mem_of digits 0) 1 7
    (file_bucket 7 2 10) .APR_BLOCK_READ rfl).2.2 (by decide)
  ⟨rfl, by decide, hin.1, (hin.2.1 [12, 13, 14, 15, 16] (by decide) (by decide)).1,
    by decide, hout.2.1, hout.1⟩

/-- C9: when the bucket is in the mapping window and the mapping attempt fails, the
read leaves what the read with mapping support compiled out leaves, for any
collaborators with the same seek and read: the same status, `*str`, `*len`, bucket,
inserted bucket, handle and reference count.  The calls are the same but for the
failed `apr_mmap_create` at their head, and nothing of what that call reported is
handed back. -/
theorem mapping_failure_falls_back {H M : Type} (cfg : Config) (ops ops2 : FileOps H M)
    (f : H) (refcount : Int) (a : Nat) (e : apr_bucket M) (block : apr_read_type_e)
    (hcfg : cfg.APR_HAS_MMAP = true)
    (hlow : cfg.MMAP_THRESHOLD ≤ e.length) (hhigh : e.length < cfg.MMAP_LIMIT)
    (hfail : (ops.apr_mmap_create f e.start (to_size_t e.length)).status ≠ APR_SUCCESS)
    (hseek : ops2.apr_file_seek = ops.apr_file_seek)
    (hread : ops2.apr_file_read = ops.apr_file_read) :
    (file_read cfg ops f refcount a e block).rv
      = (file_read { cfg with APR_HAS_MMAP := false } ops2 f refcount a e block).rv ∧
    (file_read cfg ops f refcount a e block).e
      = (file_read { cfg with APR_HAS_MMAP := false } ops2 f refcount a e block).e ∧
    (file_read cfg ops f refcount a e block).b
      = (file_read { cfg with APR_HAS_MMAP := false } ops2 f refcount a e block).b ∧
    (file_read cfg ops f refcount a e block).str
      = (file_read { cfg with APR_HAS_MMAP := false } ops2 f refcount a e block).str ∧
    (file_read cfg ops f refcount a e block).len
      = (file_read { cfg with APR_HAS_MMAP := false } ops2 f refcount a e block).len ∧
    (file_read cfg ops f refcount a e block).f
      = (file_read { cfg with APR_HAS_MMAP := false } ops2 f refcount a e block).f ∧
    (file_read cfg ops f refcount a e block).refcount
      = (file_read { cfg with APR_HAS_MMAP := false } ops2 f refcount a e block).refcount ∧
    (file_read cfg ops f refcount a e block).freed
      = (file_read { cfg with APR_HAS_MMAP := false } ops2 f refcount a e block).freed ∧
    (file_read cfg ops f refcount a e block).trace
      = Event.mmap_create e.start (to_size_t e.length)
          :: (file_read { cfg with APR_HAS_MMAP := false } ops2 f refcount a e block).trace := by
  have hw : mmap_wanted cfg e = true := (mmap_wanted_iff cfg e).2 ⟨hcfg, hlow, hhigh⟩
  have hm : mmap_attempt cfg ops f e = none := by
    unfold mmap_attempt
    rw [if_pos hw]
    simp [hfail]
  have hw2 : mmap_wanted { cfg with APR_HAS_MMAP := false } e = false := by
    simp [mmap_wanted]
  have hm2 : mmap_attempt { cfg with APR_HAS_MMAP := false } ops2 f e = none := by
    unfold mmap_attempt
    simp [hw2]
  have ht : mmap_trace cfg e = [Event.mmap_create e.start (to_size_t e.length)] := by
    simp [mmap_trace, hw]
  have ht2 : mmap_trace { cfg with APR_HAS_MMAP := false } e = [] := by
    simp [mmap_trace, hw2]
  rw [file_read_unmapped cfg ops f refcount a e block hm,
    file_read_unmapped { cfg with APR_HAS_MMAP := false } ops2 f refcount a e block hm2, ht, ht2,
    buffered_congr cfg { cfg with APR_HAS_MMAP := false } ops ops2 f refcount a e [] rfl hseek hread,
    buffered_trace_irrelevant cfg ops f refcount a e [_]]
  exact ⟨rfl, rfl, rfl, rfl, rfl, rfl, rfl, rfl, rfl⟩

/-- C9 at an input: a bucket of 5 bytes, inside the window `1 ≤ L < 8`, on a handle
that cannot be mapped: the read returns `APR_SUCCESS` with the 4 bytes of a buffered
read, as the read without mapping support does, not the status 12 of the mapping. -/
theorem mapping_failure_falls_back_witness :
    (mem_ops.apr_mmap_create mem_unmappable 2 5).status = 12 ∧
    (file_read small_config mem_ops mem_unmappable 1 7 (file_bucket 7 2 5) .APR_BLOCK_READ).rv
      = (file_read { small_config with APR_HAS_MMAP := false } mem_ops mem_unmappable 1 7
          (file_bucket 7 2 5) .APR_BLOCK_READ).rv ∧
    (file_read small_config mem_ops mem_unmappable 1 7 (file_bucket 7 2 5) .APR_BLOCK_READ).rv = APR_SUCCESS ∧
    (file_read small_config mem_ops mem_unmappable 1 7 (file_bucket 7 2 5) .APR_BLOCK_READ).str
      = .buf [12, 13, 14, 15] :=
  have h := mapping_failure_falls_back small_config mem_ops mem_ops mem_unmappable 1 7
    (file_bucket 7 2 5) .APR_BLOCK_READ rfl (by decide) (by decide) (by decide) rfl rfl
  ⟨by decide, h.1, by decide, by decide⟩

/-! ## Reference counts -/

theorem count_destroy_mmap_trace {M : Type} (cfg : Config) (e : apr_bucket M) (a : Nat) :
    (mmap_trace cfg e).count (Event.file_destroy a) = 0 :=
  List.count_eq_zero.2 (by simp [mem_mmap_trace])

theorem count_destroy_seek_trace {M : Type} (cfg : Config) (e : apr_bucket M) (a : Nat) :
    (seek_trace cfg e).count (Event.file_destroy a) = 0 :=
  List.count_eq_zero.2 (by simp [mem_seek_trace])

/-- The three outcomes of a read, as far as the reference is concerned: an error, with
nothing changed; a success with no bucket inserted, with one `file_destroy`; a success
with a file bucket over the same descriptor inserted, with no `file_destroy`. -/
theorem file_read_outcomes {H M : Type} (cfg : Config) (ops : FileOps H M) (f : H)
    (refcount : Int) (a : Nat) (e : apr_bucket M) (block : apr_read_type_e) :
    ((file_read cfg ops f refcount a e block).rv ≠ APR_SUCCESS ∧
      (file_read cfg ops f refcount a e block).e = e ∧
      (file_read cfg ops f refcount a e block).b = none ∧
      (file_read cfg ops f refcount a e block).refcount = refcount ∧
      (file_read cfg ops f refcount a e block).freed = false ∧
      (file_read cfg ops f refcount a e block).trace.count (Event.file_destroy a) = 0) ∨
    ((file_read cfg ops f refcount a e block).rv = APR_SUCCESS ∧
      (file_read cfg ops f refcount a e block).e.type ≠ .apr_bucket_type_file ∧
      (file_read cfg ops f refcount a e block).b = none ∧
      (file_read cfg ops f refcount a e block).refcount = refcount - 1 ∧
      (file_read cfg ops f refcount a e block).trace.count (Event.file_destroy a) = 1) ∨
    ((file_read cfg ops f refcount a e block).rv = APR_SUCCESS ∧
      (file_read cfg ops f refcount a e block).e.type ≠ .apr_bucket_type_file ∧
      (∃ l s, (file_read cfg ops f refcount a e block).b
        = some { type := .apr_bucket_type_file, length := l, start := s, data := .file a }) ∧
      (file_read cfg ops f refcount a e block).refcount = refcount ∧
      (file_read cfg ops f refcount a e block).freed = false ∧
      (file_read cfg ops f refcount a e block).trace.count (Event.file_destroy a) = 0) := by
  cases hm : mmap_attempt cfg ops f e with
  | some mm =>
    right; left
    rw [file_read_mapped cfg ops f refcount a e block mm hm]
    refine ⟨rfl, by simp [apr_bucket_mmap_make], rfl, file_destroy_count refcount, ?_⟩
    simp [List.count_append, count_destroy_mmap_trace]
  | none =>
    rw [file_read_unmapped cfg ops f refcount a e block hm]
    by_cases hs : (seek_step ops f e).rv = APR_SUCCESS
    swap
    · left
      rw [buffered_seek_failed cfg ops f refcount a e _ hs]
      refine ⟨hs, rfl, rfl, rfl, rfl, ?_⟩
      simp [List.count_append, count_destroy_mmap_trace, count_destroy_seek_trace]
    by_cases hrd : (read_step cfg ops f e).rv ≠ APR_SUCCESS ∧ (read_step cfg ops f e).rv ≠ APR_EOF
    · left
      rw [buffered_read_failed cfg ops f refcount a e _ hs hrd]
      refine ⟨hrd.1, rfl, rfl, rfl, rfl, ?_⟩
      simp [List.count_append, count_destroy_mmap_trace, count_destroy_seek_trace]
    by_cases hmore : to_off_t (e.length - ((read_step cfg ops f e).bytes.length : Int)) > 0
    · right; right
      rw [buffered_split cfg ops f refcount a e _ hs hrd hmore]
      refine ⟨rfl, by simp [apr_bucket_heap_make], ⟨_, _, rfl⟩, rfl, rfl, ?_⟩
      simp [List.count_append, count_destroy_mmap_trace, count_destroy_seek_trace]
    · right; left
      rw [buffered_last cfg ops f refcount a e _ hs hrd hmore]
      refine ⟨rfl, by simp [apr_bucket_heap_make], rfl, file_destroy_count refcount, ?_⟩
      simp [List.count_append, count_destroy_mmap_trace, count_destroy_seek_trace]

theorem refers_to_of_type_ne {M : Type} (a : Nat) (e : apr_bucket M)
    (h : e.type ≠ .apr_bucket_type_file) : refers_to a e = false := by
  unfold refers_to
  split
  · rename_i ht _; exact absurd ht h
  · rfl

theorem refers_to_file {M : Type} (a a1 : Nat) (e : apr_bucket M)
    (ht : e.type = .apr_bucket_type_file) (hd : e.data = .file a1) :
    refers_to a e = decide (a1 = a) := by
  unfold refers_to
  rw [ht, hd]

/-- The holders of a descriptor in a brigade whose `i`-th bucket has been replaced by
`x` followed by the buckets of `ins`. -/
theorem holders_splice {M : Type} (a : Nat) (l : List (apr_bucket M)) (i : Nat)
    (e x : apr_bucket M) (ins : List (apr_bucket M)) (hi : l[i]? = some e) :
    (holders a (l.take i ++ x :: (ins ++ l.drop (i + 1))) : Int)
        + (if refers_to a e = true then 1 else 0)
      = (holders a l : Int) + (if refers_to a x = true then 1 else 0) + holders a ins := by
  obtain ⟨hlt, he⟩ := List.getElem?_eq_some.1 hi
  have hl : l = l.take i ++ e :: l.drop (i + 1) := by
    rw [← he, List.getElem_cons_drop, List.take_append_drop]
  have h1 : holders a l
      = holders a (l.take i) + (holders a (l.drop (i + 1)) + if refers_to a e = true then 1 else 0) := by
    conv_lhs => rw [hl]
    simp only [holders, List.countP_append, List.countP_cons]
  have h2 : holders a (l.take i ++ x :: (ins ++ l.drop (i + 1)))
      = holders a (l.take i) + (holders a ins + holders a (l.drop (i + 1))
          + if refers_to a x = true then 1 else 0) := by
    simp only [holders, List.countP_append, List.countP_cons]
  rw [h1, h2]
  split <;> split <;> push_cast <;> omega

theorem brigade_read_file {H M : Type} (cfg : Config) (ops : FileOps H M)
    (block : apr_read_type_e) (w : World H M) (i : Nat) (e : apr_bucket M) (a : Nat)
    (hi : w.brigade[i]? = some e)
    (ht : e.type = .apr_bucket_type_file) (hd : e.data = .file a) :
    brigade_read cfg ops block w i =
      some ({ brigade := w.brigade.take i
                ++ (file_read cfg ops (w.files (w.fd a)) (w.refcount a) a e block).e
                  :: ((file_read cfg ops (w.files (w.fd a)) (w.refcount a) a e block).b.toList
                      ++ w.brigade.drop (i + 1))
              refcount := Function.update w.refcount a
                (file_read cfg ops (w.files (w.fd a)) (w.refcount a) a e block).refcount
              fd := w.fd
              files := Function.update w.files (w.fd a)
                (file_read cfg ops (w.files (w.fd a)) (w.refcount a) a e block).f },
            file_read cfg ops (w.files (w.fd a)) (w.refcount a) a e block) := by
  unfold brigade_read
  rw [hi]
  simp only [ht, hd]

/-- C5: in a brigade where the reference count of every descriptor is the number of
file buckets that hold it, a read of a file bucket leaves a brigade where this is so
again.  When the read inserts a remainder bucket, the count is as it was, the bucket
read no longer holds the descriptor and the inserted bucket does, and `file_destroy`
is not called; when it succeeds and inserts none (nothing left, or the range was
mapped), the count is one less and `file_destroy` is called once; when it returns an
error, count and bucket are as they were and `file_destroy` is not called.  In no
case is `file_destroy` called twice. -/
theorem file_read_keeps_refs_sound {H M : Type} (cfg : Config) (ops : FileOps H M)
    (block : apr_read_type_e) (w : World H M) (i : Nat) (e : apr_bucket M) (a : Nat)
    (hinv : refs_sound w) (hi : w.brigade[i]? = some e)
    (ht : e.type = .apr_bucket_type_file) (hd : e.data = .file a) :
    ∃ (w1 : World H M) (r : ReadResult H M),
      brigade_read cfg ops block w i = some (w1, r) ∧
      r = file_read cfg ops (w.files (w.fd a)) (w.refcount a) a e block ∧
      refs_sound w1 ∧
      (∀ b, r.b = some b →
        w1.refcount a = w.refcount a ∧ refers_to a r.e = false ∧ refers_to a b = true ∧
        r.trace.count (Event.file_destroy a) = 0) ∧
      (r.rv = APR_SUCCESS → r.b = none →
        w1.refcount a = w.refcount a - 1 ∧ refers_to a r.e = false ∧
        r.trace.count (Event.file_destroy a) = 1) ∧
      (r.rv ≠ APR_SUCCESS →
        w1.refcount a = w.refcount a ∧ r.e = e ∧ r.b = none ∧
        r.trace.count (Event.file_destroy a) = 0) ∧
      r.trace.count (Event.file_destroy a) ≤ 1 := by
  refine ⟨_, _, brigade_read_file cfg ops block w i e a hi ht hd, rfl, ?_⟩
  have hre : refers_to a e = true := by rw [refers_to_file a a e ht hd]; simp
  have hout := file_read_outcomes cfg ops (w.files (w.fd a)) (w.refcount a) a e block
  generalize file_read cfg ops (w.files (w.fd a)) (w.refcount a) a e block = r at hout ⊢
  refine ⟨?_, ?_⟩
  · intro a2
    have hsp := holders_splice a2 w.brigade i e r.e r.b.toList hi
    have h2 := hinv a2
    have hnone : holders a2 (none : Option (apr_bucket M)).toList = 0 := rfl
    have hsome : ∀ b : apr_bucket M, b.type = .apr_bucket_type_file → b.data = .file a →
        holders a2 (some b).toList = if a = a2 then 1 else 0 := by
      intro b hbt hbd
      simp only [holders, Option.toList, List.countP_cons, List.countP_nil,
        refers_to_file a2 a b hbt hbd, decide_eq_true_eq, Nat.zero_add]
    show Function.update w.refcount a r.refcount a2
      = (holders a2 (w.brigade.take i ++ r.e :: (r.b.toList ++ w.brigade.drop (i + 1))) : Int)
    by_cases ha : a2 = a
    · subst ha
      rw [Function.update_same]
      rw [hre] at hsp
      rcases hout with ⟨_, he, hb, hrc, _, _⟩ | ⟨_, he, hb, hrc, _⟩ | ⟨_, he, ⟨l, s, hb⟩, hrc, _, _⟩
      · rw [he, hre, hb, hnone] at hsp
        rw [he, hb, hrc, h2]
        simp only [if_true] at hsp
        omega
      · rw [refers_to_of_type_ne a2 r.e he, hb, hnone] at hsp
        rw [hb, hrc, h2]
        simp only [if_true, Bool.false_eq_true, if_false] at hsp
        omega
      · rw [refers_to_of_type_ne a2 r.e he, hb, hsome _ rfl rfl] at hsp
        rw [hb, hrc, h2]
        simp only [if_true, Bool.false_eq_true, if_false] at hsp
        omega
    · rw [Function.update_noteq ha]
      have hne : refers_to a2 e = false := by
        rw [refers_to_file a2 a e ht hd]
        simp [Ne.symm ha]
      rw [hne] at hsp
      rcases hout with ⟨_, he, hb, _, _, _⟩ | ⟨_, he, hb, _, _⟩ | ⟨_, he, ⟨l, s, hb⟩, _, _, _⟩
      · rw [he, hne, hb, hnone] at hsp
        rw [he, hb, h2]
        simp only [Bool.false_eq_true, if_false] at hsp
        omega
      · rw [refers_to_of_type_ne a2 r.e he, hb, hnone] at hsp
        rw [hb, h2]
        simp only [Bool.false_eq_true, if_false] at hsp
        omega
      · rw [refers_to_of_type_ne a2 r.e he, hb, hsome _ rfl rfl, if_neg (Ne.symm ha)] at hsp
        rw [hb, h2]
        simp only [Bool.false_eq_true, if_false] at hsp
        omega
  · show (∀ b, r.b = some b →
        Function.update w.refcount a r.refcount a = w.refcount a ∧ refers_to a r.e = false ∧
        refers_to a b = true ∧ r.trace.count (Event.file_destroy a) = 0) ∧
      (r.rv = APR_SUCCESS → r.b = none →
        Function.update w.refcount a r.refcount a = w.refcount a - 1 ∧ refers_to a r.e = false ∧
        r.trace.count (Event.file_destroy a) = 1) ∧
      (r.rv ≠ APR_SUCCESS →
        Function.update w.refcount a r.refcount a = w.refcount a ∧ r.e = e ∧ r.b = none ∧
        r.trace.count (Event.file_destroy a) = 0) ∧
      r.trace.count (Event.file_destroy a) ≤ 1
    rw [Function.update_same]
    rcases hout with ⟨hrv, he, hb, hrc, _, hc⟩ | ⟨hrv, he, hb, hrc, hc⟩
        | ⟨hrv, he, ⟨l, s, hb⟩, hrc, _, hc⟩
    · refine ⟨?_, ?_, ?_, ?_⟩
      · intro b hb2; rw [hb] at hb2; exact absurd hb2 (by simp)
      · intro h; exact absurd h hrv
      · intro _; exact ⟨hrc, he, hb, hc⟩
      · omega
    · refine ⟨?_, ?_, ?_, ?_⟩
      · intro b hb2; rw [hb] at hb2; exact absurd hb2 (by simp)
      · intro _ _; exact ⟨hrc, refers_to_of_type_ne a r.e he, hc⟩
      · intro h; exact absurd hrv h
      · omega
    · refine ⟨?_, ?_, ?_, ?_⟩
      · intro b hb2
        rw [hb] at hb2
        have hb3 := Option.some.inj hb2
        subst hb3
        exact ⟨hrc, refers_to_of_type_ne a r.e he, by simp [refers_to], hc⟩
      · intro _ hb2; rw [hb] at hb2; exact absurd hb2 (by simp)
      · intro h; exact absurd hrv h
      · omega

theorem two_bucket_world_sound : refs_sound two_bucket_world := by
  intro a
  by_cases h : a = 7
  · subst h
    decide
  · have h1 : refers_to a (file_bucket 7 2 10) = false := by
      rw [refers_to_file a 7 _ rfl rfl]; simp [Ne.symm h]
    have h2 : refers_to a (file_bucket 7 12 4) = false := by
      rw [refers_to_file a 7 _ rfl rfl]; simp [Ne.symm h]
    simp [two_bucket_world, holders, h, h1, h2]

/-- C5 at an input: in the brigade of two file buckets over one descriptor with
reference count 2, the read of the first bucket leaves a brigade in which the counts
are again the numbers of holders. -/
theorem file_read_keeps_refs_sound_witness :
    refs_sound two_bucket_world ∧
    ∃ (w1 : World mem_file (List Nat)) (r : ReadResult mem_file (List Nat)),
      brigade_read small_config mem_ops .APR_BLOCK_READ two_bucket_world 0 = some (w1, r) ∧ refs_sound w1 :=
  ⟨two_bucket_world_sound,
    (file_read_keeps_refs_sound small_config mem_ops .APR_BLOCK_READ two_bucket_world 0
      (file_bucket 7 2 10) 7
      two_bucket_world_sound rfl rfl rfl).elim
      (fun w1 h => h.elim (fun r hr => ⟨w1, r, hr.1, hr.2.2.1⟩))⟩

/-! ## Reading a range to its end -/

theorem chunk_size_bounds {M : Type} (cfg : Config) (e : apr_bucket M)
    (h0 : 0 ≤ e.length) (h1 : e.length < 2 ^ 63) :
    0 ≤ chunk_size cfg e ∧ chunk_size cfg e ≤ e.length ∧
      chunk_size cfg e ≤ (cfg.APR_BUCKET_BUFF_SIZE : Int) := by
  unfold chunk_size
  split
  · rw [to_size_t_eq _ (by omega) (by omega)]; omega
  · rw [to_size_t_eq _ (by omega) (by omega)]; omega

/-- One successful read of a file bucket whose range lies within `apr_off_t`, on a
handle that keeps its contract: the bucket becomes a heap or mmap bucket; either it
covers the whole range and no bucket is inserted, or it is a heap bucket and the
inserted file bucket covers what is left, which is not empty. -/
theorem file_read_step {H M : Type} (cfg : Config) (ops : FileOps H M) (f : H)
    (refcount : Int) (a : Nat) (e : apr_bucket M) (block : apr_read_type_e)
    (hseek : seek_honest ops) (hbound : read_bounded ops)
    (hstart : 0 ≤ e.start) (hlen : 0 ≤ e.length) (hend : e.start + e.length < 2 ^ 63)
    (hok : (file_read cfg ops f refcount a e block).rv = APR_SUCCESS) :
    ((file_read cfg ops f refcount a e block).e.type = .apr_bucket_type_heap ∨
      (file_read cfg ops f refcount a e block).e.type = .apr_bucket_type_mmap) ∧
    (((file_read cfg ops f refcount a e block).b = none ∧
        (file_read cfg ops f refcount a e block).e.length = e.length) ∨
      (∃ b, (file_read cfg ops f refcount a e block).b = some b ∧
        (file_read cfg ops f refcount a e block).e.type = .apr_bucket_type_heap ∧
        (file_read cfg ops f refcount a e block).len = (file_read cfg ops f refcount a e block).e.length ∧
        0 ≤ (file_read cfg ops f refcount a e block).e.length ∧
        b.start = e.start + (file_read cfg ops f refcount a e block).e.length ∧
        b.length = e.length - (file_read cfg ops f refcount a e block).e.length ∧
        0 < b.length)) := by
  cases hm : mmap_attempt cfg ops f e with
  | some mm =>
    rw [file_read_mapped cfg ops f refcount a e block mm hm]
    exact ⟨Or.inr rfl, Or.inl ⟨rfl, rfl⟩⟩
  | none =>
    rw [file_read_unmapped cfg ops f refcount a e block hm] at hok ⊢
    by_cases hs : (seek_step ops f e).rv = APR_SUCCESS
    swap
    · rw [buffered_seek_failed cfg ops f refcount a e _ hs] at hok
      exact absurd hok hs
    by_cases hrd : (read_step cfg ops f e).rv ≠ APR_SUCCESS ∧ (read_step cfg ops f e).rv ≠ APR_EOF
    · rw [buffered_read_failed cfg ops f refcount a e _ hs hrd] at hok
      exact absurd hok hrd.1
    have hoff := seek_step_offset ops f e hseek hs
    have hc := chunk_size_bounds cfg e hlen (by omega)
    have hgot : ((read_step cfg ops f e).bytes.length : Int) ≤ chunk_size cfg e :=
      hbound _ _ hc.1
    have hwrap : to_off_t (e.length - ((read_step cfg ops f e).bytes.length : Int))
        = e.length - ((read_step cfg ops f e).bytes.length : Int) :=
      to_off_t_eq _ (by omega) (by omega)
    by_cases hmore : to_off_t (e.length - ((read_step cfg ops f e).bytes.length : Int)) > 0
    · rw [buffered_split cfg ops f refcount a e _ hs hrd hmore]
      refine ⟨Or.inl rfl, Or.inr ⟨_, rfl, rfl, rfl, ?_, ?_, ?_, ?_⟩⟩
      · simp [apr_bucket_heap_make]
      · simp only [apr_bucket_heap_make]
        rw [hoff, to_off_t_eq _ (by omega) (by omega)]
      · simp only [apr_bucket_heap_make]
        exact hwrap
      · exact hmore
    · rw [buffered_last cfg ops f refcount a e _ hs hrd hmore]
      refine ⟨Or.inl rfl, Or.inl ⟨rfl, ?_⟩⟩
      simp only [apr_bucket_heap_make]
      rw [hwrap] at hmore
      omega

/-- The reads of a range, one after the other: if every read returns `APR_SUCCESS`
and every buffered read of a bucket that is not empty obtains at least one byte, there
are at most `max L 1` of them, the last inserts no bucket, every bucket read becomes a
heap or mmap bucket, the reads cover consecutive offsets, and the lengths of what
they leave add up to `L`. -/
theorem read_range_steps {H M : Type} (cfg : Config) (ops : FileOps H M)
    (block : apr_read_type_e) (a : Nat)
    (hseek : seek_honest ops) (hbound : read_bounded ops) :
    ∀ (n : Nat) (f : H) (refcount : Int) (e : apr_bucket M),
      0 ≤ e.start → 0 ≤ e.length → e.start + e.length < 2 ^ 63 →
      max e.length 1 ≤ (n : Int) →
      (∀ s ∈ read_range cfg ops block a n f refcount e,
        s.2.rv = APR_SUCCESS ∧
        (s.2.e.type = .apr_bucket_type_heap → 0 < s.1.length → 0 < s.2.len)) →
      ((read_range cfg ops block a n f refcount e).length : Int) ≤ max e.length 1 ∧
      (∃ last, (read_range cfg ops block a n f refcount e).getLast? = some last ∧ last.2.b = none) ∧
      (∀ s ∈ read_range cfg ops block a n f refcount e,
        s.2.e.type = .apr_bucket_type_heap ∨ s.2.e.type = .apr_bucket_type_mmap) ∧
      consecutive e.start (read_range cfg ops block a n f refcount e) ∧
      produced_length (read_range cfg ops block a n f refcount e) = e.length := by
  intro n
  induction n with
  | zero =>
    intro f refcount e _ _ _ hn
    omega
  | succ n ih =>
    intro f refcount e hstart hlen hend hn hgood
    have hhead : (file_read cfg ops f refcount a e block).rv = APR_SUCCESS ∧
        ((file_read cfg ops f refcount a e block).e.type = .apr_bucket_type_heap →
          0 < e.length → 0 < (file_read cfg ops f refcount a e block).len) :=
      hgood (e, file_read cfg ops f refcount a e block) (by simp [read_range])
    have hok := hhead.1
    have hstep := file_read_step cfg ops f refcount a e block hseek hbound hstart hlen hend hok
    rcases hstep with ⟨hty, ⟨hb, hl⟩ | ⟨b, hb, hheap, hlen2, hgot0, hbs, hbl, hbpos⟩⟩
    · have hrun : read_range cfg ops block a (n + 1) f refcount e
          = [(e, file_read cfg ops f refcount a e block)] := by
        simp [read_range, hok, hb]
      rw [hrun]
      refine ⟨by simp, ⟨_, rfl, hb⟩, ?_, ⟨rfl, trivial⟩, ?_⟩
      · intro s hs
        rw [List.mem_singleton] at hs
        subst hs
        exact hty
      · simp [produced_length, hl]
    · have hrun : read_range cfg ops block a (n + 1) f refcount e
          = (e, file_read cfg ops f refcount a e block)
            :: read_range cfg ops block a n (file_read cfg ops f refcount a e block).f
                (file_read cfg ops f refcount a e block).refcount b := by
        simp [read_range, hok, hb]
      have hprog : 0 < (file_read cfg ops f refcount a e block).e.length := by
        rw [← hlen2]
        exact hhead.2 hheap (by omega)
      rw [hrun] at hgood ⊢
      have ih1 := ih (file_read cfg ops f refcount a e block).f
        (file_read cfg ops f refcount a e block).refcount b (by omega) (by omega) (by omega)
        (by push_cast at hn; omega)
        (fun s hs => hgood s (List.mem_cons_of_mem _ hs))
      obtain ⟨hcount, ⟨last, hlast, hlastb⟩, htypes, hcons, hsum⟩ := ih1
      refine ⟨?_, ⟨last, ?_, hlastb⟩, ?_, ⟨rfl, ?_⟩, ?_⟩
      · rw [List.length_cons]
        push_cast
        omega
      · rw [List.getLast?_cons, hlast]
        rfl
      · intro s hs
        rcases List.mem_cons.1 hs with h | h
        · subst h; exact hty
        · exact htypes s h
      · rw [← hbs]
        exact hcons
      · simp only [produced_length, List.map_cons, List.sum_cons] at hsum ⊢
        rw [hsum]
        omega

/-! ## The run in the brigade -/

theorem inserted_is_file {H M : Type} (cfg : Config) (ops : FileOps H M) (f : H)
    (refcount : Int) (a : Nat) (e b : apr_bucket M) (block : apr_read_type_e)
    (hb : (file_read cfg ops f refcount a e block).b = some b) :
    b.type = .apr_bucket_type_file ∧ b.data = .file a := by
  rcases file_read_outcomes cfg ops f refcount a e block with h | h | h
  · rw [h.2.2.1] at hb; exact absurd hb (by simp)
  · rw [h.2.2.1] at hb; exact absurd hb (by simp)
  · obtain ⟨l, s, hls⟩ := h.2.2.1
    rw [hls] at hb
    have := Option.some.inj hb
    subst this
    exact ⟨rfl, rfl⟩

theorem brigade_read_at {H M : Type} (cfg : Config) (ops : FileOps H M)
    (block : apr_read_type_e) (w : World H M) (pre post : List (apr_bucket M))
    (e : apr_bucket M) (a : Nat)
    (hw : w.brigade = pre ++ e :: post)
    (ht : e.type = .apr_bucket_type_file) (hd : e.data = .file a) :
    brigade_read cfg ops block w pre.length =
      some ({ brigade := pre ++ (file_read cfg ops (w.files (w.fd a)) (w.refcount a) a e block).e
                :: ((file_read cfg ops (w.files (w.fd a)) (w.refcount a) a e block).b.toList ++ post)
              refcount := Function.update w.refcount a
                (file_read cfg ops (w.files (w.fd a)) (w.refcount a) a e block).refcount
              fd := w.fd
              files := Function.update w.files (w.fd a)
                (file_read cfg ops (w.files (w.fd a)) (w.refcount a) a e block).f },
            file_read cfg ops (w.files (w.fd a)) (w.refcount a) a e block) := by
  have hi : w.brigade[pre.length]? = some e := by
    rw [hw, List.getElem?_append_right (le_refl _)]
    simp
  rw [brigade_read_file cfg ops block w pre.length e a hi ht hd, hw]
  simp

/-- When the reads of a range come to their end, the brigade holds, in the place of
the file bucket the run began with, the buckets the reads left, in the order of the
reads; the buckets before and behind are as they were. -/
theorem brigade_drain_brigade {H M : Type} (cfg : Config) (ops : FileOps H M)
    (block : apr_read_type_e) (a : Nat) :
    ∀ (n : Nat) (w : World H M) (pre post : List (apr_bucket M)) (e : apr_bucket M),
      w.brigade = pre ++ e :: post →
      e.type = .apr_bucket_type_file → e.data = .file a →
      (∃ last, (read_range cfg ops block a n (w.files (w.fd a)) (w.refcount a) e).getLast? = some last
        ∧ last.2.b = none) →
      (brigade_drain cfg ops block n w pre.length).brigade
        = pre ++ (read_range cfg ops block a n (w.files (w.fd a)) (w.refcount a) e).map (fun s => s.2.e)
            ++ post := by
  intro n
  induction n with
  | zero =>
    intro w pre post e _ _ _ hlast
    obtain ⟨last, h, _⟩ := hlast
    simp [read_range] at h
  | succ n ih =>
    intro w pre post e hw ht hd hlast
    have hread := brigade_read_at cfg ops block w pre post e a hw ht hd
    generalize hr : file_read cfg ops (w.files (w.fd a)) (w.refcount a) a e block = r at hread
    unfold brigade_drain
    rw [hread]
    unfold read_range at hlast ⊢
    simp only [hr] at hlast ⊢
    by_cases hok : r.rv = APR_SUCCESS
    · simp only [hok, if_true] at hlast ⊢
      cases hb : r.b with
      | none => simp [hb]
      | some b =>
        simp only [hb] at hlast ⊢
        obtain ⟨hbt, hbd⟩ := inserted_is_file cfg ops _ _ a e b block (by rw [hr]; exact hb)
        have hlen : (pre ++ [r.e]).length = pre.length + 1 := by simp
        rw [← hlen]
        have hfiles : (Function.update w.files (w.fd a) r.f) (w.fd a) = r.f :=
          Function.update_same _ _ _
        have hrc : (Function.update w.refcount a r.refcount) a = r.refcount :=
          Function.update_same _ _ _
        have hlast2 : ∃ last, (read_range cfg ops block a n r.f r.refcount b).getLast? = some last
            ∧ last.2.b = none := by
          obtain ⟨last, h1, h2⟩ := hlast
          rw [List.getLast?_cons] at h1
          cases hg : (read_range cfg ops block a n r.f r.refcount b).getLast? with
          | none =>
            rw [hg] at h1
            have h3 := Option.some.inj h1
            rw [← h3] at h2
            simp only [Option.getD_none] at h2
            rw [hb] at h2
            exact absurd h2 (by simp)
          | some l2 =>
            rw [hg] at h1
            have h3 := Option.some.inj h1
            simp only [Option.getD_some] at h3
            exact ⟨l2, rfl, by rw [h3]; exact h2⟩
        have ih1 := ih
          { brigade := pre ++ r.e :: ((some b).toList ++ post)
            refcount := Function.update w.refcount a r.refcount
            fd := w.fd
            files := Function.update w.files (w.fd a) r.f }
          (pre ++ [r.e]) post b (by simp) hbt hbd (by
            simp only [hfiles, hrc]
            exact hlast2)
        rw [ih1]
        simp only [hfiles, hrc]
        simp
    · simp only [hok, if_false] at hlast ⊢
      obtain ⟨last, h1, h2⟩ := hlast
      simp at h1
      rw [← h1] at h2
      simp only at h2
      simp [h2]

/-- C10 as amended: in a brigade, a file bucket over `[O, O + L)`, a range within
`apr_off_t`, is read, then the remainder bucket each read inserts, on a handle that
keeps its contract.  If every read returns `APR_SUCCESS` and every buffered read of a
bucket that is not empty obtains at least one byte, then after at most `max L 1` reads
no file bucket of the range is left: the last read inserts none, every bucket read
has become a heap or an mmap bucket, these buckets stand in the brigade in the order
of the reads in the place of the first, the reads cover consecutive offsets from `O`
on, and the lengths of the buckets they leave add up to `L`. -/
theorem brigade_drain_covers {H M : Type} (cfg : Config) (ops : FileOps H M)
    (block : apr_read_type_e) (w : World H M) (pre post : List (apr_bucket M))
    (e : apr_bucket M) (a n : Nat)
    (hseek : seek_honest ops) (hbound : read_bounded ops)
    (hw : w.brigade = pre ++ e :: post)
    (ht : e.type = .apr_bucket_type_file) (hd : e.data = .file a)
    (hstart : 0 ≤ e.start) (hlen : 0 ≤ e.length) (hend : e.start + e.length < 2 ^ 63)
    (hn : max e.length 1 ≤ (n : Int))
    (hgood : ∀ s ∈ read_range cfg ops block a n (w.files (w.fd a)) (w.refcount a) e,
      s.2.rv = APR_SUCCESS ∧
      (s.2.e.type = .apr_bucket_type_heap → 0 < s.1.length → 0 < s.2.len)) :
    ((read_range cfg ops block a n (w.files (w.fd a)) (w.refcount a) e).length : Int)
      ≤ max e.length 1 ∧
    (∃ last, (read_range cfg ops block a n (w.files (w.fd a)) (w.refcount a) e).getLast? = some last
      ∧ last.2.b = none) ∧
    (∀ s ∈ read_range cfg ops block a n (w.files (w.fd a)) (w.refcount a) e,
      s.2.e.type = .apr_bucket_type_heap ∨ s.2.e.type = .apr_bucket_type_mmap) ∧
    consecutive e.start (read_range cfg ops block a n (w.files (w.fd a)) (w.refcount a) e) ∧
    produced_length (read_range cfg ops block a n (w.files (w.fd a)) (w.refcount a) e) = e.length ∧
    (brigade_drain cfg ops block n w pre.length).brigade
      = pre ++ (read_range cfg ops block a n (w.files (w.fd a)) (w.refcount a) e).map (fun s => s.2.e)
          ++ post := by
  have h := read_range_steps cfg ops block a hseek hbound n (w.files (w.fd a)) (w.refcount a) e
    hstart hlen hend hn hgood
  exact ⟨h.1, h.2.1, h.2.2.1, h.2.2.2.1, h.2.2.2.2,
    brigade_drain_brigade cfg ops block a n w pre post e hw ht hd h.2.1⟩

/-- C10 as amended, at an input: in the brigade of two file buckets, the range of
bytes 2..11 of the first is read in two reads, a buffered one of 4 bytes at offset 2
and a mapped one of 6 bytes at offset 6; the lengths add up to 10, and the brigade
then holds the heap bucket, the mmap bucket and the second file bucket. -/
theorem brigade_drain_covers_witness :
    (∀ s ∈ read_range small_config mem_ops .APR_BLOCK_READ 7 10 (mem_of digits 0) 2 (file_bucket 7 2 10),
      s.2.rv = APR_SUCCESS ∧
      (s.2.e.type = .apr_bucket_type_heap → 0 < s.1.length → 0 < s.2.len)) ∧
    (read_range small_config mem_ops .APR_BLOCK_READ 7 10 (mem_of digits 0) 2 (file_bucket 7 2 10)).map
        (fun s => (s.1.start, s.2.e.type, s.2.e.length))
      = [(2, .apr_bucket_type_heap, 4), (6, .apr_bucket_type_mmap, 6)] ∧
    produced_length
      (read_range small_config mem_ops .APR_BLOCK_READ 7 10 (mem_of digits 0) 2 (file_bucket 7 2 10)) = 10 ∧
    (brigade_drain small_config mem_ops .APR_BLOCK_READ 10 two_bucket_world 0).brigade
      = [] ++ (read_range small_config mem_ops .APR_BLOCK_READ 7 10 (mem_of digits 0) 2 (file_bucket 7 2 10)).map
            (fun s => s.2.e)
          ++ [file_bucket 7 12 4] :=
  have h := brigade_drain_covers small_config mem_ops .APR_BLOCK_READ two_bucket_world [] [file_bucket 7 12 4]
    (file_bucket 7 2 10) 7 10 mem_ops_seek_honest mem_ops_read_bounded rfl rfl rfl
    (by decide) (by decide) (by decide) (by decide) (by decide)
  ⟨by decide, by decide, h.2.2.2.2.1, h.2.2.2.2.2⟩

/-- C10, the claim fails: a file bucket of length 0 at offset 2.  Before any read the
range has its file bucket; the one read there is succeeds, is a buffered read, and
leaves a heap bucket of 0 bytes and no remainder.  That is one buffered read, more
than `L = 0`. -/
theorem empty_range_takes_one_read :
    (file_bucket 7 2 0).type = .apr_bucket_type_file ∧ (file_bucket 7 2 0).length = 0 ∧
    (∀ s ∈ read_range small_config mem_ops .APR_BLOCK_READ 7 1 (mem_of digits 0) 1 (file_bucket 7 2 0),
      s.2.rv = APR_SUCCESS ∧
      (s.2.e.type = .apr_bucket_type_heap → 0 < s.1.length → 0 < s.2.len)) ∧
    (read_range small_config mem_ops .APR_BLOCK_READ 7 1 (mem_of digits 0) 1 (file_bucket 7 2 0)).map
        (fun s => (s.2.rv, s.2.e.type, s.2.e.length, s.2.b))
      = [(APR_SUCCESS, .apr_bucket_type_heap, 0, none)] ∧
    ¬ ((buffered_reads
          (read_range small_config mem_ops .APR_BLOCK_READ 7 1 (mem_of digits 0) 1 (file_bucket 7 2 0)) : Int)
        ≤ (file_bucket 7 2 0).length) := by
  decide

/-! ## The handle without end keeps every promise -/

theorem endless_seeks_succeed : seeks_succeed endless_ops := by
  intro f offset
  exact ⟨rfl, rfl⟩

theorem endless_reads_full : reads_full endless_ops := by
  intro f nbytes h
  refine ⟨rfl, ?_⟩
  simp only [endless_ops, List.length_replicate]
  omega

theorem endless_mmap_succeeds : mmap_succeeds endless_ops := by
  intro f offset size
  exact ⟨rfl, _, rfl⟩

theorem seek_honest_of_succeed {H M : Type} (ops : FileOps H M) (h : seeks_succeed ops) :
    seek_honest ops :=
  fun f offset _ => (h f offset).2

theorem seek_step_succeeds {H M : Type} (ops : FileOps H M) (f : H) (e : apr_bucket M)
    (h : seeks_succeed ops) :
    (seek_step ops f e).rv = APR_SUCCESS ∧ (seek_step ops f e).offset = e.start := by
  unfold seek_step
  by_cases h0 : e.start ≠ 0
  · rw [if_pos h0]; exact h f e.start
  · rw [if_neg h0]; exact ⟨rfl, rfl⟩

/-! ## A range that begins above the limit -/

/-- A full buffered read of a bucket longer than the buffer, outside the mapping
window: the bucket becomes a heap bucket of one buffer, and the file bucket inserted
behind it covers the rest. -/
theorem full_read_above_buffer {H M : Type} (cfg : Config) (ops : FileOps H M) (f : H)
    (refcount : Int) (a : Nat) (e : apr_bucket M) (block : apr_read_type_e)
    (hseek : seeks_succeed ops) (hfull : reads_full ops)
    (hout : mmap_wanted cfg e = false)
    (hstart : 0 ≤ e.start) (hend : e.start + e.length < 2 ^ 63)
    (hlong : (cfg.APR_BUCKET_BUFF_SIZE : Int) < e.length) :
    (file_read cfg ops f refcount a e block).rv = APR_SUCCESS ∧
    (file_read cfg ops f refcount a e block).e.type = .apr_bucket_type_heap ∧
    (file_read cfg ops f refcount a e block).e.length = (cfg.APR_BUCKET_BUFF_SIZE : Int) ∧
    (file_read cfg ops f refcount a e block).len = (cfg.APR_BUCKET_BUFF_SIZE : Int) ∧
    (file_read cfg ops f refcount a e block).refcount = refcount ∧
    (file_read cfg ops f refcount a e block).b
      = some { type := .apr_bucket_type_file,
               length := e.length - (cfg.APR_BUCKET_BUFF_SIZE : Int),
               start := e.start + (cfg.APR_BUCKET_BUFF_SIZE : Int), data := .file a } := by
  have hm : mmap_attempt cfg ops f e = none := by
    unfold mmap_attempt
    simp [hout]
  have hs := seek_step_succeeds ops f e hseek
  have hchunk : chunk_size cfg e = (cfg.APR_BUCKET_BUFF_SIZE : Int) := by
    unfold chunk_size
    rw [if_pos hlong, to_size_t_eq _ (by omega) (by omega)]
  have hr := hfull (seek_step ops f e).f (chunk_size cfg e) (by rw [hchunk]; omega)
  have hrv : (read_step cfg ops f e).rv = APR_SUCCESS := hr.1
  have hgot : ((read_step cfg ops f e).bytes.length : Int) = (cfg.APR_BUCKET_BUFF_SIZE : Int) := by
    rw [← hchunk]; exact hr.2
  have hrd : ¬((read_step cfg ops f e).rv ≠ APR_SUCCESS ∧ (read_step cfg ops f e).rv ≠ APR_EOF) :=
    fun h => h.1 hrv
  have hmore : to_off_t (e.length - ((read_step cfg ops f e).bytes.length : Int)) > 0 := by
    rw [hgot, to_off_t_eq _ (by omega) (by omega)]
    omega
  rw [file_read_unmapped cfg ops f refcount a e block hm,
    buffered_split cfg ops f refcount a e _ hs.1 hrd hmore]
  refine ⟨rfl, rfl, hgot, hgot, rfl, ?_⟩
  simp only [hgot, hs.2]
  rw [to_off_t_eq _ (by omega) (by omega), to_off_t_eq _ (by omega) (by omega)]

/-- A read of a bucket inside the mapping window when every mapping succeeds: the
bucket becomes an mmap bucket over its whole length and nothing is inserted. -/
theorem mapped_read_in_window {H M : Type} (cfg : Config) (ops : FileOps H M) (f : H)
    (refcount : Int) (a : Nat) (e : apr_bucket M) (block : apr_read_type_e)
    (hmap : mmap_succeeds ops) (hin : mmap_wanted cfg e = true) :
    (file_read cfg ops f refcount a e block).rv = APR_SUCCESS ∧
    (file_read cfg ops f refcount a e block).e.type = .apr_bucket_type_mmap ∧
    (file_read cfg ops f refcount a e block).e.length = e.length ∧
    (file_read cfg ops f refcount a e block).b = none := by
  obtain ⟨hst, mm, hmm⟩ := hmap f e.start (to_size_t e.length)
  have hm : mmap_attempt cfg ops f e = some mm := by
    unfold mmap_attempt
    simp [hin, hst, hmm]
  rw [file_read_mapped cfg ops f refcount a e block mm hm]
  exact ⟨rfl, rfl, rfl, rfl⟩

/-- The run over a range of length `L` at or above the limit, when `k` is the number
of buffers that have to be taken off `L` to get below the limit: `k` heap buckets of
one buffer each, then one mmap bucket over the rest. -/
theorem read_range_above_limit {H M : Type} (cfg : Config) (ops : FileOps H M)
    (block : apr_read_type_e) (a : Nat)
    (hcfg : cfg.APR_HAS_MMAP = true)
    (hseek : seeks_succeed ops) (hfull : reads_full ops) (hmap : mmap_succeeds ops)
    (hthr : 1 ≤ cfg.MMAP_THRESHOLD)
    (hwin : cfg.MMAP_THRESHOLD + (cfg.APR_BUCKET_BUFF_SIZE : Int) ≤ cfg.MMAP_LIMIT) :
    ∀ (k n : Nat) (f : H) (refcount : Int) (e : apr_bucket M),
      0 ≤ e.start → e.start + e.length < 2 ^ 63 →
      e.length - ((k + 1 : Nat) : Int) * (cfg.APR_BUCKET_BUFF_SIZE : Int) < cfg.MMAP_LIMIT →
      cfg.MMAP_LIMIT ≤ e.length - (k : Int) * (cfg.APR_BUCKET_BUFF_SIZE : Int) →
      k + 2 ≤ n →
      produced (read_range cfg ops block a n f refcount e)
        = List.replicate (k + 1) (.apr_bucket_type_heap, (cfg.APR_BUCKET_BUFF_SIZE : Int))
          ++ [(.apr_bucket_type_mmap,
                e.length - ((k + 1 : Nat) : Int) * (cfg.APR_BUCKET_BUFF_SIZE : Int))] := by
  intro k
  induction k with
  | zero =>
    intro n f refcount e hstart hend hlow hhigh hn
    simp only [Nat.cast_zero, zero_mul, sub_zero, zero_add, Nat.cast_one, one_mul] at hlow hhigh ⊢
    have hout : mmap_wanted cfg e = false := by
      rw [Bool.eq_false_iff, Ne, mmap_wanted_iff]
      intro h; omega
    have h1 := full_read_above_buffer cfg ops f refcount a e block hseek hfull hout hstart hend
      (by omega)
    obtain ⟨n1, rfl⟩ : ∃ n1, n = n1 + 2 := ⟨n - 2, by omega⟩
    obtain ⟨hrv, hty, hlen, _, _, hb⟩ := h1
    generalize hbdef : ({ type := .apr_bucket_type_file,
                          length := e.length - (cfg.APR_BUCKET_BUFF_SIZE : Int),
                          start := e.start + (cfg.APR_BUCKET_BUFF_SIZE : Int),
                          data := .file a } : apr_bucket M) = b1 at hb
    have hb1 : b1.length = e.length - (cfg.APR_BUCKET_BUFF_SIZE : Int) := by rw [← hbdef]
    have hin : mmap_wanted cfg b1 = true := by
      rw [mmap_wanted_iff]
      refine ⟨hcfg, ?_, ?_⟩ <;> omega
    have h2 := mapped_read_in_window cfg ops (file_read cfg ops f refcount a e block).f
      (file_read cfg ops f refcount a e block).refcount a b1 block hmap hin
    obtain ⟨hrv2, hty2, hlen2, hb2⟩ := h2
    simp only [produced, read_range, hrv, hb, hrv2, hb2, if_true, List.map_cons, List.map_nil,
      hty, hlen, hty2, hlen2, hb1, List.replicate, List.cons_append, List.nil_append]
  | succ k ih =>
    intro n f refcount e hstart hend hlow hhigh hn
    have hk : ((k + 1 : Nat) : Int) = (k : Int) + 1 := by push_cast; rfl
    have hk2 : ((k + 1 + 1 : Nat) : Int) = (k : Int) + 2 := by push_cast; ring
    rw [hk] at hhigh
    rw [hk2] at hlow ⊢
    have hmul1 : ((k : Int) + 1) * (cfg.APR_BUCKET_BUFF_SIZE : Int)
        = (k : Int) * (cfg.APR_BUCKET_BUFF_SIZE : Int) + (cfg.APR_BUCKET_BUFF_SIZE : Int) := by ring
    have hmul2 : ((k : Int) + 2) * (cfg.APR_BUCKET_BUFF_SIZE : Int)
        = (k : Int) * (cfg.APR_BUCKET_BUFF_SIZE : Int) + 2 * (cfg.APR_BUCKET_BUFF_SIZE : Int) := by
      ring
    rw [hmul1] at hhigh
    rw [hmul2] at hlow ⊢
    have hkb : 0 ≤ (k : Int) * (cfg.APR_BUCKET_BUFF_SIZE : Int) :=
      mul_nonneg (Int.ofNat_nonneg _) (Int.ofNat_nonneg _)
    have hout : mmap_wanted cfg e = false := by
      rw [Bool.eq_false_iff, Ne, mmap_wanted_iff]
      intro h; omega
    have h1 := full_read_above_buffer cfg ops f refcount a e block hseek hfull hout hstart hend
      (by omega)
    obtain ⟨n1, rfl⟩ : ∃ n1, n = n1 + 1 := ⟨n - 1, by omega⟩
    obtain ⟨hrv, hty, hlen, _, _, hb⟩ := h1
    generalize hbdef : ({ type := .apr_bucket_type_file,
                          length := e.length - (cfg.APR_BUCKET_BUFF_SIZE : Int),
                          start := e.start + (cfg.APR_BUCKET_BUFF_SIZE : Int),
                          data := .file a } : apr_bucket M) = b1 at hb
    have hb1 : b1.length = e.length - (cfg.APR_BUCKET_BUFF_SIZE : Int) := by rw [← hbdef]
    have hb2 : b1.start = e.start + (cfg.APR_BUCKET_BUFF_SIZE : Int) := by rw [← hbdef]
    have ih1 := ih n1 (file_read cfg ops f refcount a e block).f
      (file_read cfg ops f refcount a e block).refcount b1
      (by omega) (by omega) (by rw [hk, hmul1]; omega) (by omega) (by omega)
    rw [hk, hmul1, hb1] at ih1
    simp only [produced, read_range, hrv, hb, if_true, List.map_cons, hty, hlen]
    simp only [produced] at ih1
    have hrest : e.length - (cfg.APR_BUCKET_BUFF_SIZE : Int)
          - ((k : Int) * (cfg.APR_BUCKET_BUFF_SIZE : Int) + (cfg.APR_BUCKET_BUFF_SIZE : Int))
        = e.length - ((k : Int) * (cfg.APR_BUCKET_BUFF_SIZE : Int)
            + 2 * (cfg.APR_BUCKET_BUFF_SIZE : Int)) := by ring
    rw [ih1, List.replicate_succ (n := k + 1), List.cons_append, hrest]

theorem produced_length_eq {H M : Type} (run : List (apr_bucket M × ReadResult H M)) :
    produced_length run = ((produced run).map Prod.snd).sum := by
  simp [produced_length, produced, List.map_map, Function.comp_def]

/-- C11 as amended: a range of length `L` at or above the limit is read to its end,
with mapping support compiled in, every mapping succeeding, every seek succeeding and
every read full (`1 ≤ MMAP_THRESHOLD`, `MMAP_THRESHOLD + APR_BUCKET_BUFF_SIZE ≤
MMAP_LIMIT`, buffers of at least one byte).  The reads leave `k` heap buckets of one
buffer each, where `k` is the least number of buffers that brings the remaining length
below the limit, and then one mmap bucket over the remaining `L - k * BUFF` bytes; the
lengths add up to `L`. -/
theorem range_above_limit_ends_mapped {H M : Type} (cfg : Config) (ops : FileOps H M)
    (block : apr_read_type_e) (a n : Nat) (f : H) (refcount : Int) (e : apr_bucket M)
    (hcfg : cfg.APR_HAS_MMAP = true)
    (hseek : seeks_succeed ops) (hfull : reads_full ops) (hmap : mmap_succeeds ops)
    (hthr : 1 ≤ cfg.MMAP_THRESHOLD)
    (hwin : cfg.MMAP_THRESHOLD + (cfg.APR_BUCKET_BUFF_SIZE : Int) ≤ cfg.MMAP_LIMIT)
    (hbuf : 1 ≤ cfg.APR_BUCKET_BUFF_SIZE)
    (hstart : 0 ≤ e.start) (hend : e.start + e.length < 2 ^ 63)
    (hL : cfg.MMAP_LIMIT ≤ e.length) (hn : e.length ≤ (n : Int)) :
    ∃ k : Nat, 1 ≤ k ∧
      e.length - (k : Int) * (cfg.APR_BUCKET_BUFF_SIZE : Int) < cfg.MMAP_LIMIT ∧
      cfg.MMAP_LIMIT ≤ e.length - ((k : Int) - 1) * (cfg.APR_BUCKET_BUFF_SIZE : Int) ∧
      produced (read_range cfg ops block a n f refcount e)
        = List.replicate k (.apr_bucket_type_heap, (cfg.APR_BUCKET_BUFF_SIZE : Int))
          ++ [(.apr_bucket_type_mmap, e.length - (k : Int) * (cfg.APR_BUCKET_BUFF_SIZE : Int))] ∧
      produced_length (read_range cfg ops block a n f refcount e) = e.length := by
  have hB : (0 : Int) < (cfg.APR_BUCKET_BUFF_SIZE : Int) := by omega
  have hq0 : 0 ≤ (e.length - cfg.MMAP_LIMIT) / (cfg.APR_BUCKET_BUFF_SIZE : Int) :=
    Int.ediv_nonneg (by omega) (by omega)
  have hdiv := Int.ediv_add_emod (e.length - cfg.MMAP_LIMIT) (cfg.APR_BUCKET_BUFF_SIZE : Int)
  have hr0 := Int.emod_nonneg (e.length - cfg.MMAP_LIMIT) (ne_of_gt hB)
  have hr1 := Int.emod_lt_of_pos (e.length - cfg.MMAP_LIMIT) hB
  generalize (e.length - cfg.MMAP_LIMIT) / (cfg.APR_BUCKET_BUFF_SIZE : Int) = q at hq0 hdiv
  generalize (e.length - cfg.MMAP_LIMIT) % (cfg.APR_BUCKET_BUFF_SIZE : Int) = r at hdiv hr0 hr1
  obtain ⟨k, rfl⟩ : ∃ k : Nat, q = (k : Int) := ⟨q.toNat, (Int.toNat_of_nonneg hq0).symm⟩
  rw [mul_comm] at hdiv
  have hkk : (k : Int) ≤ (k : Int) * (cfg.APR_BUCKET_BUFF_SIZE : Int) :=
    le_mul_of_one_le_right (Int.ofNat_nonneg k) (by omega)
  have hk1 : ((k + 1 : Nat) : Int) * (cfg.APR_BUCKET_BUFF_SIZE : Int)
      = (k : Int) * (cfg.APR_BUCKET_BUFF_SIZE : Int) + (cfg.APR_BUCKET_BUFF_SIZE : Int) := by
    push_cast; ring
  have hrun := read_range_above_limit cfg ops block a hcfg hseek hfull hmap hthr hwin k n f
    refcount e hstart hend (by rw [hk1]; omega) (by omega) (by omega)
  refine ⟨k + 1, by omega, by rw [hk1]; omega, ?_, hrun, ?_⟩
  · have : ((k + 1 : Nat) : Int) - 1 = (k : Int) := by push_cast; ring
    rw [this]; omega
  · rw [produced_length_eq, hrun]
    simp only [List.map_append, List.map_replicate, List.map_cons, List.map_nil,
      List.sum_append, List.sum_replicate, List.sum_cons, List.sum_nil, smul_eq_mul,
      nsmul_eq_mul]
    ring

/-- C11 as amended, at the input of the scenario: the range of 5,000,000 bytes with
the limit 4,194,304 and buffers of 8000 bytes, on the file without end. -/
theorem range_above_limit_ends_mapped_witness :
    default_config.MMAP_LIMIT ≤ (file_bucket 7 0 5000000).length ∧
    ∃ k : Nat, 1 ≤ k ∧
      (file_bucket 7 0 5000000).length
        - (k : Int) * (default_config.APR_BUCKET_BUFF_SIZE : Int) < default_config.MMAP_LIMIT ∧
      produced (read_range default_config endless_ops .APR_BLOCK_READ 7 5000000 0 1
          (file_bucket 7 0 5000000))
        = List.replicate k
            (.apr_bucket_type_heap, (default_config.APR_BUCKET_BUFF_SIZE : Int))
          ++ [(.apr_bucket_type_mmap,
                (file_bucket 7 0 5000000).length
                  - (k : Int) * (default_config.APR_BUCKET_BUFF_SIZE : Int))] :=
  ⟨by decide,
    (range_above_limit_ends_mapped default_config endless_ops .APR_BLOCK_READ 7 5000000 0 1
      (file_bucket 7 0 5000000) rfl endless_seeks_succeed endless_reads_full
      endless_mmap_succeeds (by decide) (by decide) (by decide) (by decide) (by decide)
      (by decide) (by decide)).elim
      (fun k h => ⟨k, h.1, h.2.1, h.2.2.2.1⟩)⟩

/-- C11, the claim fails at its own witness: the range of 5,000,000 bytes, limit
4,194,304, buffers of 8000 bytes, mapping support compiled in, every mapping
succeeding and every read full.  After 101 buffered reads 4,192,000 bytes are left,
fewer than the limit: the 102nd read maps them.  There is an mmap bucket, and there
are 101 heap buckets, not 625. -/
theorem large_range_is_mapped_after_101_reads :
    default_config.APR_HAS_MMAP = true ∧ reads_full endless_ops ∧ mmap_succeeds endless_ops ∧
    default_config.MMAP_LIMIT ≤ (file_bucket 7 0 5000000).length ∧
    produced (read_range default_config endless_ops .APR_BLOCK_READ 7 5000000 0 1
        (file_bucket 7 0 5000000))
      = List.replicate 101 (.apr_bucket_type_heap, 8000) ++ [(.apr_bucket_type_mmap, 4192000)] :=
  ⟨rfl, endless_reads_full, endless_mmap_succeeds, by decide,
    read_range_above_limit default_config endless_ops .APR_BLOCK_READ 7 rfl
      endless_seeks_succeed endless_reads_full endless_mmap_succeeds (by decide) (by decide)
      100 5000000 0 1 (file_bucket 7 0 5000000) (by decide) (by decide) (by decide) (by decide)
      (by decide)⟩

/-! ## The first read of the large file, and the small file -/

/-- C12 as amended: in the scenario of the large file (bucket start 0, length
5,000,000, limit 4,194,304, buffers of 8000 bytes, the read of the handle delivering
all the bytes it was asked for, which are 8000), the first read leaves a heap bucket
of 8000 bytes and inserts a file bucket of length 4,992,000 at offset 8000. -/
theorem large_file_first_read {H M : Type} (cfg : Config) (ops : FileOps H M) (f : H)
    (refcount : Int) (a : Nat) (e : apr_bucket M) (block : apr_read_type_e)
    (hlimit : cfg.MMAP_LIMIT = 4194304) (hbuf : cfg.APR_BUCKET_BUFF_SIZE = 8000)
    (hstart : e.start = 0) (hlen : e.length = 5000000)
    (hrv : (read_step cfg ops f e).rv = APR_SUCCESS)
    (hfull : ((read_step cfg ops f e).bytes.length : Int) = chunk_size cfg e) :
    (file_read cfg ops f refcount a e block).rv = APR_SUCCESS ∧
    (file_read cfg ops f refcount a e block).e
      = { type := .apr_bucket_type_heap, length := 8000, start := 0,
          data := .heap (read_step cfg ops f e).bytes } ∧
    (file_read cfg ops f refcount a e block).len = 8000 ∧
    (file_read cfg ops f refcount a e block).b
      = some { type := .apr_bucket_type_file, length := 4992000, start := 8000,
               data := .file a } := by
  have hout : ¬ (mmap_wanted cfg e = true) := by
    rw [mmap_wanted_iff]
    intro h; omega
  have hm : mmap_attempt cfg ops f e = none := by
    unfold mmap_attempt
    rw [if_neg hout]
  have hs : (seek_step ops f e).rv = APR_SUCCESS ∧ (seek_step ops f e).offset = 0 := by
    unfold seek_step
    simp [hstart]
  have hrd : ¬((read_step cfg ops f e).rv ≠ APR_SUCCESS ∧ (read_step cfg ops f e).rv ≠ APR_EOF) :=
    fun h => h.1 hrv
  have hchunk : chunk_size cfg e = 8000 := by
    unfold chunk_size
    rw [hlen, hbuf]
    decide
  have hgot2 : ((read_step cfg ops f e).bytes.length : Int) = 8000 := by rw [hfull, hchunk]
  have hmore : to_off_t (e.length - ((read_step cfg ops f e).bytes.length : Int)) > 0 := by
    rw [hgot2, hlen]; decide
  rw [file_read_unmapped cfg ops f refcount a e block hm,
    buffered_split cfg ops f refcount a e _ hs.1 hrd hmore]
  have h1 : to_off_t (5000000 - 8000) = 4992000 := by decide
  have h2 : to_off_t (0 + 8000) = 8000 := by decide
  refine ⟨rfl, ?_, hgot2, ?_⟩
  · simp only [apr_bucket_heap_make, hgot2]
  · simp only [hgot2, hs.2, hlen, h1, h2]

/-- C12 as amended, at an input: the first read of the large file on the file without
end. -/
theorem large_file_first_read_witness :
    ((read_step default_config endless_ops 0 (file_bucket 7 0 5000000)).bytes.length : Int)
      = chunk_size default_config (file_bucket 7 0 5000000) ∧
    (file_read default_config endless_ops 0 1 7 (file_bucket 7 0 5000000) .APR_BLOCK_READ).len
      = 8000 ∧
    (file_read default_config endless_ops 0 1 7 (file_bucket 7 0 5000000) .APR_BLOCK_READ).b
      = some (file_bucket 7 8000 4992000) :=
  have hgot : ((read_step default_config endless_ops 0 (file_bucket 7 0 5000000)).bytes.length
      : Int) = chunk_size default_config (file_bucket 7 0 5000000) :=
    (endless_reads_full (seek_step endless_ops 0 (file_bucket 7 0 5000000)).f
      (chunk_size default_config (file_bucket 7 0 5000000)) (by decide)).2
  have h := large_file_first_read default_config endless_ops 0 1 7 (file_bucket 7 0 5000000)
    .APR_BLOCK_READ rfl rfl rfl rfl rfl hgot
  ⟨hgot, h.2.2.1, h.2.2.2⟩

/-- C12, the claim fails: in the scenario of the large file the bucket the first read
inserts has length 4,992,000, which is 5,000,000 - 8000, not 4,991,992. -/
theorem large_file_remainder_is_4992000 :
    ((read_step default_config endless_ops 0 (file_bucket 7 0 5000000)).bytes.length : Int)
      = 8000 ∧
    (file_read default_config endless_ops 0 1 7 (file_bucket 7 0 5000000) .APR_BLOCK_READ).b
      = some (file_bucket 7 8000 4992000) ∧
    (file_bucket 7 8000 4992000).length ≠ 4991992 := by
  have h := full_read_above_buffer default_config endless_ops 0 1 7 (file_bucket 7 0 5000000)
    .APR_BLOCK_READ endless_seeks_succeed endless_reads_full (by decide) (by decide) (by decide)
    (by decide)
  refine ⟨?_, h.2.2.2.2.2, by decide⟩
  have h1 := (endless_reads_full (seek_step endless_ops 0 (file_bucket 7 0 5000000)).f
    (chunk_size default_config (file_bucket 7 0 5000000)) (by decide)).2
  have hchunk : chunk_size default_config (file_bucket 7 0 5000000) = 8000 := by decide
  rw [hchunk] at h1
  exact h1

/-- C13: a file bucket of length `L` with `0 ≤ L ≤ APR_BUCKET_BUFF_SIZE` that is outside
the mapping window (`L < MMAP_THRESHOLD`, or no mapping support), when the seek, if
one is made, succeeds and the read of the handle delivers all the `L` bytes it is
asked for: the read returns `APR_SUCCESS` with `*len = L`, the bucket is one heap
bucket over exactly those `L` bytes, no bucket is inserted, and the reference is given
up once.  `L = 0` is included. -/
theorem small_bucket_single_read {H M : Type} (cfg : Config) (ops : FileOps H M) (f : H)
    (refcount : Int) (a : Nat) (e : apr_bucket M) (block : apr_read_type_e)
    (h0 : 0 ≤ e.length) (hsmall : e.length ≤ (cfg.APR_BUCKET_BUFF_SIZE : Int))
    (hoff : e.length < 2 ^ 63)
    (hout : e.length < cfg.MMAP_THRESHOLD ∨ cfg.APR_HAS_MMAP = false)
    (hseek : (seek_step ops f e).rv = APR_SUCCESS)
    (hrv : (read_step cfg ops f e).rv = APR_SUCCESS)
    (hfull : ((read_step cfg ops f e).bytes.length : Int) = chunk_size cfg e) :
    chunk_size cfg e = e.length ∧
    (file_read cfg ops f refcount a e block).rv = APR_SUCCESS ∧
    (file_read cfg ops f refcount a e block).len = e.length ∧
    (file_read cfg ops f refcount a e block).e
      = { type := .apr_bucket_type_heap, length := e.length, start := 0,
          data := .heap (read_step cfg ops f e).bytes } ∧
    (file_read cfg ops f refcount a e block).str = .buf (read_step cfg ops f e).bytes ∧
    (file_read cfg ops f refcount a e block).b = none ∧
    (file_read cfg ops f refcount a e block).refcount = refcount - 1 ∧
    (file_read cfg ops f refcount a e block).trace.count (Event.file_destroy a) = 1 := by
  have hchunk : chunk_size cfg e = e.length := by
    unfold chunk_size
    rw [if_neg (by omega), to_size_t_eq _ h0 (by omega)]
  have hgot : ((read_step cfg ops f e).bytes.length : Int) = e.length := by rw [hfull, hchunk]
  have hw : ¬ (mmap_wanted cfg e = true) := by
    rw [mmap_wanted_iff]
    rintro ⟨h1, h2, _⟩
    rcases hout with h | h
    · omega
    · rw [h] at h1; exact absurd h1 (by decide)
  have hm : mmap_attempt cfg ops f e = none := by
    unfold mmap_attempt
    rw [if_neg hw]
  have hrd : ¬((read_step cfg ops f e).rv ≠ APR_SUCCESS ∧ (read_step cfg ops f e).rv ≠ APR_EOF) :=
    fun h => h.1 hrv
  have hmore : ¬ to_off_t (e.length - ((read_step cfg ops f e).bytes.length : Int)) > 0 := by
    rw [hgot, sub_self]; decide
  rw [file_read_unmapped cfg ops f refcount a e block hm,
    buffered_last cfg ops f refcount a e _ hseek hrd hmore]
  refine ⟨hchunk, rfl, hgot, ?_, rfl, rfl, file_destroy_count refcount, ?_⟩
  · simp only [apr_bucket_heap_make, hgot]
  · simp [List.count_append, count_destroy_mmap_trace, count_destroy_seek_trace]

/-- C13 at the input of the scenario: a bucket of 1000 bytes, threshold `8 * 1024`,
buffers of 8000 bytes: one read, a heap bucket of 1000 bytes, no remainder. -/
theorem small_bucket_single_read_witness :
    (file_bucket 7 4096 1000).length < sunos4_config.MMAP_THRESHOLD ∧
    (file_read sunos4_config endless_ops 0 1 7 (file_bucket 7 4096 1000) .APR_BLOCK_READ).rv
      = APR_SUCCESS ∧
    (file_read sunos4_config endless_ops 0 1 7 (file_bucket 7 4096 1000) .APR_BLOCK_READ).len
      = 1000 ∧
    (file_read sunos4_config endless_ops 0 1 7 (file_bucket 7 4096 1000) .APR_BLOCK_READ).e.length
      = 1000 ∧
    (file_read sunos4_config endless_ops 0 1 7 (file_bucket 7 4096 1000) .APR_BLOCK_READ).b
      = none ∧
    (file_read sunos4_config endless_ops 0 1 7 (file_bucket 7 4096 1000) .APR_BLOCK_READ).refcount
      = 0 :=
  have h := small_bucket_single_read sunos4_config endless_ops 0 1 7 (file_bucket 7 4096 1000)
    .APR_BLOCK_READ (by decide) (by decide) (by decide) (Or.inl (by decide)) rfl rfl
    (endless_reads_full (seek_step endless_ops 0 (file_bucket 7 4096 1000)).f
      (chunk_size sunos4_config (file_bucket 7 4096 1000)) (by decide)).2
  ⟨by decide, h.2.1, h.2.2.1, by rw [h.2.2.2.1]; rfl, h.2.2.2.2.2.1, h.2.2.2.2.2.2.1⟩

/-! ## The split in the brigade -/

/-- A bucket is inserted exactly when the read splits; the bucket read is then a heap
bucket and the inserted one a file bucket, and the status is `APR_SUCCESS`. -/
theorem inserted_iff_splits {H M : Type} (cfg : Config) (ops : FileOps H M) (f : H)
    (refcount : Int) (a : Nat) (e : apr_bucket M) (block : apr_read_type_e) :
    (splits cfg ops f e ∧
      (file_read cfg ops f refcount a e block).rv = APR_SUCCESS ∧
      (file_read cfg ops f refcount a e block).e.type = .apr_bucket_type_heap ∧
      ∃ b, (file_read cfg ops f refcount a e block).b = some b ∧
        b.type = .apr_bucket_type_file) ∨
    (¬ splits cfg ops f e ∧ (file_read cfg ops f refcount a e block).b = none) := by
  unfold splits
  cases hm : mmap_attempt cfg ops f e with
  | some mm =>
    right
    rw [file_read_mapped cfg ops f refcount a e block mm hm]
    exact ⟨fun h => absurd h.1 (by simp), rfl⟩
  | none =>
    rw [file_read_unmapped cfg ops f refcount a e block hm]
    by_cases hs : (seek_step ops f e).rv = APR_SUCCESS
    swap
    · right
      rw [buffered_seek_failed cfg ops f refcount a e _ hs]
      exact ⟨fun h => hs h.2.1, rfl⟩
    by_cases hrd : (read_step cfg ops f e).rv ≠ APR_SUCCESS ∧ (read_step cfg ops f e).rv ≠ APR_EOF
    · right
      rw [buffered_read_failed cfg ops f refcount a e _ hs hrd]
      exact ⟨fun h => h.2.2.1 hrd, rfl⟩
    by_cases hmore : to_off_t (e.length - ((read_step cfg ops f e).bytes.length : Int)) > 0
    · left
      rw [buffered_split cfg ops f refcount a e _ hs hrd hmore]
      exact ⟨⟨rfl, hs, hrd, hmore⟩, rfl, rfl, _, rfl, rfl⟩
    · right
      rw [buffered_last cfg ops f refcount a e _ hs hrd hmore]
      exact ⟨fun h => hmore h.2.2.2, rfl⟩

/-- C14: a read of the file bucket `e` that stands in the brigade between the buckets
`pre` and the buckets `post`.  The bucket stays where it is.  When the read splits
(a buffered read that leaves bytes of the range), the brigade is `pre`, the bucket
read, now a heap bucket, one new file bucket, `post`: one bucket more, right behind
the bucket read, and all others where they were.  When it does not split (nothing
left, mapped, or an error), the brigade has the same buckets at the same places, and
after an error it is as it was. -/
theorem split_keeps_position {H M : Type} (cfg : Config) (ops : FileOps H M)
    (block : apr_read_type_e) (w : World H M) (pre post : List (apr_bucket M))
    (e : apr_bucket M) (a : Nat)
    (hw : w.brigade = pre ++ e :: post)
    (ht : e.type = .apr_bucket_type_file) (hd : e.data = .file a) :
    ∃ (w1 : World H M) (r : ReadResult H M),
      brigade_read cfg ops block w pre.length = some (w1, r) ∧
      r = file_read cfg ops (w.files (w.fd a)) (w.refcount a) a e block ∧
      w1.brigade[pre.length]? = some r.e ∧
      (splits cfg ops (w.files (w.fd a)) e →
        r.e.type = .apr_bucket_type_heap ∧
        ∃ b, r.b = some b ∧ b.type = .apr_bucket_type_file ∧
          w1.brigade = pre ++ r.e :: b :: post ∧
          w1.brigade.length = w.brigade.length + 1) ∧
      (¬ splits cfg ops (w.files (w.fd a)) e →
        r.b = none ∧ w1.brigade = pre ++ r.e :: post ∧
        w1.brigade.length = w.brigade.length) ∧
      (r.rv ≠ APR_SUCCESS → w1.brigade = w.brigade) := by
  refine ⟨_, _, brigade_read_at cfg ops block w pre post e a hw ht hd, rfl, ?_, ?_, ?_, ?_⟩
  · show (pre ++ _ :: _)[pre.length]? = some _
    rw [List.getElem?_append_right (le_refl _)]
    simp
  · intro hsp
    rcases inserted_iff_splits cfg ops (w.files (w.fd a)) (w.refcount a) a e block with h | h
    · obtain ⟨_, _, hty, b, hb, hbt⟩ := h
      refine ⟨hty, b, hb, hbt, ?_, ?_⟩
      · show pre ++ _ :: (Option.toList _ ++ post) = _
        rw [hb]; rfl
      · show (pre ++ _ :: (Option.toList _ ++ post)).length = _
        rw [hb, hw]; simp; omega
    · exact absurd hsp h.1
  · intro hsp
    rcases inserted_iff_splits cfg ops (w.files (w.fd a)) (w.refcount a) a e block with h | h
    · exact absurd h.1 hsp
    · refine ⟨h.2, ?_, ?_⟩
      · show pre ++ _ :: (Option.toList _ ++ post) = _
        rw [h.2]; rfl
      · show (pre ++ _ :: (Option.toList _ ++ post)).length = _
        rw [h.2, hw]; simp
  · intro herr
    rcases file_read_outcomes cfg ops (w.files (w.fd a)) (w.refcount a) a e block
      with h | h | h
    · show pre ++ _ :: (Option.toList _ ++ post) = _
      rw [h.2.1, h.2.2.1, hw]; rfl
    · exact absurd h.1 herr
    · exact absurd h.1 herr

/-- C14 at an input: the read of the first of the two file buckets splits; the
brigade has three buckets, the bucket read first, the new file bucket second, the old
second bucket third. -/
theorem split_keeps_position_witness :
    splits small_config mem_ops (mem_of digits 0) (file_bucket 7 2 10) ∧
    ∃ (w1 : World mem_file (List Nat)) (r : ReadResult mem_file (List Nat)),
      brigade_read small_config mem_ops .APR_BLOCK_READ two_bucket_world 0 = some (w1, r) ∧
      w1.brigade = [r.e, file_bucket 7 6 6, file_bucket 7 12 4] ∧
      r.e.type = .apr_bucket_type_heap :=
  have hs : splits small_config mem_ops (mem_of digits 0) (file_bucket 7 2 10) := by
    unfold splits; decide
  ⟨hs,
    (split_keeps_position small_config mem_ops .APR_BLOCK_READ two_bucket_world []
      [file_bucket 7 12 4] (file_bucket 7 2 10) 7 rfl rfl rfl).elim
      (fun w1 h1 => h1.elim (fun r h =>
        ⟨w1, r, h.1, by
          obtain ⟨_, b, hb, _, hbr, _⟩ := h.2.2.2.1 hs
          have hb2 : r.b = some (file_bucket 7 6 6) := by rw [h.2.1]; decide
          rw [hb2] at hb
          rw [hbr, ← Option.some.inj hb]
          rfl, (h.2.2.2.1 hs).1⟩))⟩

/-! ## The number of bytes asked for -/

/-- Every call of `apr_file_read` a read makes asks for `chunk_size` bytes. -/
theorem read_event_size {H M : Type} (cfg : Config) (ops : FileOps H M) (f : H)
    (refcount : Int) (a : Nat) (e : apr_bucket M) (block : apr_read_type_e) (n : Int)
    (h : Event.file_read n ∈ (file_read cfg ops f refcount a e block).trace) :
    n = chunk_size cfg e := by
  cases hm : mmap_attempt cfg ops f e with
  | some mm =>
    rw [file_read_mapped cfg ops f refcount a e block mm hm] at h
    simp [mem_mmap_trace] at h
  | none =>
    rw [file_read_unmapped cfg ops f refcount a e block hm] at h
    rcases buffered_cases cfg ops f refcount a e (mmap_trace cfg e) with c | c | c | c
    · rw [c.2] at h; simp [mem_mmap_trace, mem_seek_trace] at h
    · rw [c.2.2] at h; simpa [mem_mmap_trace, mem_seek_trace] using h
    · rw [c.2.2.2] at h; simpa [mem_mmap_trace, mem_seek_trace] using h
    · rw [c.2.2.2] at h; simpa [mem_mmap_trace, mem_seek_trace] using h

/-- C15: for a file bucket of length `L ≥ 0` (an `apr_off_t`), the buffered read asks
the handle for exactly `min L APR_BUCKET_BUFF_SIZE` bytes: once line 148 is reached,
the one call of `apr_file_read` is made on the handle as the seek step left it, with
that number, and what the call reports is what the read hands on: its bytes are the
`*len` of the read, its handle state is the state the read leaves, and its status is
the status of the read unless it is `APR_EOF`, which becomes `APR_SUCCESS`.  So when
the handle never delivers more than it is asked for, the bytes obtained are at most
`L` and at most `APR_BUCKET_BUFF_SIZE`, and `L - got` is not negative. -/
theorem requested_is_min {H M : Type} (cfg : Config) (ops : FileOps H M) (f : H)
    (refcount : Int) (a : Nat) (e : apr_bucket M) (block : apr_read_type_e)
    (h0 : 0 ≤ e.length) (hoff : e.length < 2 ^ 63) :
    chunk_size cfg e = min e.length (cfg.APR_BUCKET_BUFF_SIZE : Int) ∧
    (∀ n, Event.file_read n ∈ (file_read cfg ops f refcount a e block).trace →
      n = min e.length (cfg.APR_BUCKET_BUFF_SIZE : Int)) ∧
    ((∃ n, Event.file_read n ∈ (file_read cfg ops f refcount a e block).trace) →
      (file_read cfg ops f refcount a e block).len
        = (((ops.apr_file_read (if e.start ≠ 0 then (ops.apr_file_seek f e.start).f else f)
              (min e.length (cfg.APR_BUCKET_BUFF_SIZE : Int))).bytes.length : Nat) : Int) ∧
      (file_read cfg ops f refcount a e block).f
        = (ops.apr_file_read (if e.start ≠ 0 then (ops.apr_file_seek f e.start).f else f)
            (min e.length (cfg.APR_BUCKET_BUFF_SIZE : Int))).f ∧
      (file_read cfg ops f refcount a e block).rv
        = (if (ops.apr_file_read (if e.start ≠ 0 then (ops.apr_file_seek f e.start).f else f)
                (min e.length (cfg.APR_BUCKET_BUFF_SIZE : Int))).rv = APR_EOF
           then APR_SUCCESS
           else (ops.apr_file_read (if e.start ≠ 0 then (ops.apr_file_seek f e.start).f else f)
                (min e.length (cfg.APR_BUCKET_BUFF_SIZE : Int))).rv) ∧
      ((file_read cfg ops f refcount a e block).rv = APR_SUCCESS →
        (file_read cfg ops f refcount a e block).str
          = .buf (ops.apr_file_read (if e.start ≠ 0 then (ops.apr_file_seek f e.start).f else f)
              (min e.length (cfg.APR_BUCKET_BUFF_SIZE : Int))).bytes) ∧
      (read_bounded ops →
        (file_read cfg ops f refcount a e block).len ≤ e.length ∧
        (file_read cfg ops f refcount a e block).len ≤ (cfg.APR_BUCKET_BUFF_SIZE : Int) ∧
        0 ≤ e.length - (file_read cfg ops f refcount a e block).len)) ∧
    (read_bounded ops →
      ((read_step cfg ops f e).bytes.length : Int) ≤ e.length ∧
      ((read_step cfg ops f e).bytes.length : Int) ≤ (cfg.APR_BUCKET_BUFF_SIZE : Int) ∧
      0 ≤ e.length - ((read_step cfg ops f e).bytes.length : Int)) := by
  have hc := chunk_size_bounds cfg e h0 hoff
  have hmin : chunk_size cfg e = min e.length (cfg.APR_BUCKET_BUFF_SIZE : Int) := by
    unfold chunk_size
    split
    · rw [to_size_t_eq _ (by omega) (by omega)]; omega
    · rw [to_size_t_eq _ (by omega) (by omega)]; omega
  have hcall : read_step cfg ops f e
      = ops.apr_file_read (if e.start ≠ 0 then (ops.apr_file_seek f e.start).f else f)
          (min e.length (cfg.APR_BUCKET_BUFF_SIZE : Int)) := by
    unfold read_step seek_step
    rw [hmin]
    by_cases hz : e.start ≠ 0
    · rw [if_pos hz, if_pos hz]
    · rw [if_neg hz, if_neg hz]
  have hgot : read_bounded ops →
      ((read_step cfg ops f e).bytes.length : Int) ≤ chunk_size cfg e :=
    fun hb => hb _ _ hc.1
  refine ⟨hmin, ?_, ?_, ?_⟩
  · intro n hn
    rw [← hmin]
    exact read_event_size cfg ops f refcount a e block n hn
  · rintro ⟨n, hn⟩
    obtain ⟨hm, hs⟩ := read_in_trace cfg ops f refcount a e block n hn
    rw [← hcall, file_read_unmapped cfg ops f refcount a e block hm]
    by_cases hrd : (read_step cfg ops f e).rv ≠ APR_SUCCESS ∧ (read_step cfg ops f e).rv ≠ APR_EOF
    · rw [buffered_read_failed cfg ops f refcount a e _ hs hrd]
      refine ⟨rfl, rfl, ?_, fun h => absurd h hrd.1, fun hb => ?_⟩
      · simp only
        rw [if_neg hrd.2]
      · have := hgot hb
        simp only
        omega
    have hrv : APR_SUCCESS = (if (read_step cfg ops f e).rv = APR_EOF then APR_SUCCESS
        else (read_step cfg ops f e).rv) := by
      by_cases heof : (read_step cfg ops f e).rv = APR_EOF
      · rw [if_pos heof]
      · rw [if_neg heof]
        by_contra hne
        exact hrd ⟨fun h => hne h.symm, heof⟩
    by_cases hmore : to_off_t (e.length - ((read_step cfg ops f e).bytes.length : Int)) > 0
    · rw [buffered_split cfg ops f refcount a e _ hs hrd hmore]
      refine ⟨rfl, rfl, hrv, fun _ => rfl, fun hb => ?_⟩
      have := hgot hb
      simp only
      omega
    · rw [buffered_last cfg ops f refcount a e _ hs hrd hmore]
      refine ⟨rfl, rfl, hrv, fun _ => rfl, fun hb => ?_⟩
      have := hgot hb
      simp only
      omega
  · intro hb
    have := hgot hb
    omega

/-- C15 at an input: of the bucket over bytes 2..11 of the file of 16 bytes, with
buffers of 4 bytes, 4 bytes are asked for, of the handle as the seek to 2 left it, and
the 4 bytes 12..15 that call delivers are what the read hands on; of a bucket of 3
bytes, 3 are asked for. -/
theorem requested_is_min_witness :
    chunk_size small_config (file_bucket 7 2 10) = 4 ∧
    chunk_size { small_config with APR_HAS_MMAP := false } (file_bucket 7 2 3) = 3 ∧
    (file_read small_config mem_ops (mem_of digits 0) 1 7 (file_bucket 7 2 10) .APR_BLOCK_READ).trace
      = [Event.malloc 4, Event.file_seek 2, Event.file_read 4, Event.malloc_bucket] ∧
    (mem_ops.apr_file_read (mem_of digits 2) 4).bytes = [12, 13, 14, 15] ∧
    (file_read small_config mem_ops (mem_of digits 0) 1 7 (file_bucket 7 2 10) .APR_BLOCK_READ).str
      = .buf (mem_ops.apr_file_read (mem_of digits 2) 4).bytes ∧
    (file_read small_config mem_ops (mem_of digits 0) 1 7 (file_bucket 7 2 10) .APR_BLOCK_READ).len
      ≤ 4 :=
  have h := requested_is_min small_config mem_ops (mem_of digits 0) 1 7 (file_bucket 7 2 10)
    .APR_BLOCK_READ (by decide) (by decide)
  have h3 := requested_is_min { small_config with APR_HAS_MMAP := false } mem_ops
    (mem_of digits 0) 1 7 (file_bucket 7 2 3) .APR_BLOCK_READ (by decide) (by decide)
  have hr := h.2.2.1 ⟨4, by decide⟩
  ⟨h.1.trans (by decide), h3.1.trans (by decide), by decide, by decide,
    hr.2.2.2.1 (by decide), (hr.2.2.2.2 mem_ops_read_bounded).2.1⟩

/-! ## Making file buckets -/

/-- C16 as amended: `apr_bucket_file_make` and `apr_bucket_file_create` do not look at
the range they are given.  Whenever the allocations succeed they hand back a file
bucket over a new descriptor with reference count 1, whatever the offset and the
length; its start is the offset as an `apr_off_t` and its length the length as an
`apr_size_t`, stored as an `apr_off_t`, so for `0 ≤ offset, len < 2 ^ 63` its start is
`offset` and its length is `len`.  They hand back nothing only when an allocation
fails. -/
theorem file_make_takes_any_range {M : Type} (a : Nat) (b : apr_bucket M) (fd : Nat)
    (offset len : Int) :
    apr_bucket_file_make (some a) b fd offset len
      = some { b := { type := .apr_bucket_type_file, length := to_off_t (to_size_t len),
                      start := to_off_t offset, data := .file a },
               a := a, f := { refcount := 1, fd := fd } } ∧
    apr_bucket_file_create true (some a) fd offset len
      = apr_bucket_file_make (some a) (calloc_bucket : apr_bucket M) fd offset len ∧
    (0 ≤ offset → offset < 2 ^ 63 → 0 ≤ len → len < 2 ^ 63 →
      to_off_t offset = offset ∧ to_off_t (to_size_t len) = len) ∧
    apr_bucket_file_make none b fd offset len = none ∧
    (apr_bucket_file_create true none fd offset len : Option (made_bucket M)) = none ∧
    (apr_bucket_file_create false (some a) fd offset len : Option (made_bucket M)) = none := by
  refine ⟨?_, rfl, ?_, rfl, rfl, rfl⟩
  · simp only [apr_bucket_file_make, apr_bucket_shared_make]
    have h : to_off_t (to_off_t offset) = to_off_t offset := by
      unfold to_off_t; omega
    rw [h]
  · intro h1 h2 h3 h4
    rw [to_size_t_eq len h3 (by omega), to_off_t_eq len (by omega) h4,
      to_off_t_eq offset (by omega) h2]
    exact ⟨rfl, rfl⟩

/-- C16 as amended, at an input: offset 2 and length 10 give a file bucket with start
2 and length 10. -/
theorem file_make_takes_any_range_witness :
    to_off_t 2 = 2 ∧ to_off_t (to_size_t 10) = 10 ∧
    apr_bucket_file_make (some 7) (calloc_bucket : apr_bucket (List Nat)) 3 2 10
      = some { b := { type := .apr_bucket_type_file, length := to_off_t (to_size_t 10),
                      start := to_off_t 2, data := .file 7 },
               a := 7, f := { refcount := 1, fd := 3 } } :=
  have h := file_make_takes_any_range 7 (calloc_bucket : apr_bucket (List Nat)) 3 2 10
  have h2 := h.2.2.1 (by decide) (by decide) (by decide) (by decide)
  ⟨h2.1, h2.2, h.1⟩

/-- C16, the claim fails: with offset -1 and length 10 `apr_bucket_file_make` hands
back a file bucket whose start is -1, and with offset 0 and length -5
`apr_bucket_file_create` hands back a file bucket whose length is -5.  Neither call
is turned down. -/
theorem negative_range_is_not_rejected :
    (apr_bucket_file_make (some 7) (calloc_bucket : apr_bucket (List Nat)) 3 (-1) 10).map
        (fun m => (m.b.type, m.b.start, m.b.length))
      = some (.apr_bucket_type_file, -1, 10) ∧
    ((apr_bucket_file_create true (some 7) 3 0 (-5) : Option (made_bucket (List Nat))).map
        (fun m => (m.b.type, m.b.start, m.b.length)))
      = some (.apr_bucket_type_file, 0, -5) := by
  decide

/-- The bucket `apr_bucket_file_make` hands back. -/
theorem file_make_shape {M : Type} (a : Nat) (b : apr_bucket M) (fd : Nat) (offset len : Int)
    (m : made_bucket M) (h : apr_bucket_file_make (some a) b fd offset len = some m) :
    m.b.type = .apr_bucket_type_file ∧ m.b.data = .file a ∧
    m.b.length = to_off_t (to_size_t len) ∧ m.b.start = to_off_t (to_off_t offset) ∧
    m.a = a ∧ m.f.refcount = 1 := by
  simp only [apr_bucket_file_make, apr_bucket_shared_make, Option.some.injEq] at h
  subst h
  exact ⟨rfl, rfl, rfl, rfl, rfl, rfl⟩

/-! ## The length that is not known -/

theorem unknown_length_stored : to_off_t (to_size_t unknown_length) = -1 := by decide

/-- C19 as amended: a file bucket made with the `UNKNOWN` sentinel for its length has
length -1, and `file_read` has no case for it.  With `MMAP_THRESHOLD` above -1 the
read makes no mapping attempt.  The bytes it asks for are `(apr_size_t)(-1)`, that is
`2 ^ 64 - 1`, not `APR_BUCKET_BUFF_SIZE`: that is the size of its first call, of
`malloc`, and of every call of `apr_file_read`, which is made on the handle as the
seek step left it.  No read that obtains fewer than `2 ^ 63` bytes, or fails, inserts
a bucket, and the reference is given up only by a read that returns `APR_SUCCESS`.
When the handle turns that request down, with a status other than `APR_SUCCESS` and
`APR_EOF`, the read returns the status of the handle, the bucket is the file bucket of
length -1 it was, no bucket is inserted, the reference is kept and the buffer is
freed. -/
theorem unknown_length_read {H M : Type} (cfg : Config) (ops : FileOps H M) (f : H)
    (refcount : Int) (a : Nat) (b0 : apr_bucket M) (fd : Nat) (offset : Int)
    (m : made_bucket M) (block : apr_read_type_e) (r : ReadResult H M)
    (hmade : apr_bucket_file_make (some a) b0 fd offset unknown_length = some m)
    (hr : file_read cfg ops f refcount a m.b block = r)
    (hthr : -1 < cfg.MMAP_THRESHOLD) :
    m.b.length = -1 ∧
    (∀ o s, Event.mmap_create o s ∉ r.trace) ∧
    chunk_size cfg m.b = 2 ^ 64 - 1 ∧
    r.trace.head? = some (Event.malloc (2 ^ 64 - 1)) ∧
    (∀ n, Event.file_read n ∈ r.trace → n = 2 ^ 64 - 1) ∧
    ((r.rv ≠ APR_SUCCESS ∨ r.len < 2 ^ 63) → r.b = none) ∧
    (r.refcount ≠ refcount → r.rv = APR_SUCCESS) ∧
    ((seek_step ops f m.b).rv = APR_SUCCESS →
      ((ops.apr_file_read (seek_step ops f m.b).f (2 ^ 64 - 1)).rv ≠ APR_SUCCESS ∧
        (ops.apr_file_read (seek_step ops f m.b).f (2 ^ 64 - 1)).rv ≠ APR_EOF) →
      r.rv = (ops.apr_file_read (seek_step ops f m.b).f (2 ^ 64 - 1)).rv ∧
      r.e = m.b ∧ r.e.type = .apr_bucket_type_file ∧ r.e.length = -1 ∧ r.b = none ∧
      r.str = .null ∧ r.refcount = refcount ∧ r.freed = false ∧
      r.trace = seek_trace cfg m.b ++ [Event.file_read (2 ^ 64 - 1), Event.free_buf]) := by
  subst hr
  have hshape := file_make_shape a b0 fd offset unknown_length m hmade
  have hlen : m.b.length = -1 := by
    rw [hshape.2.2.1, unknown_length_stored]
  have hchunk : chunk_size cfg m.b = 2 ^ 64 - 1 := by
    unfold chunk_size
    rw [hlen, if_neg (by omega)]
    decide
  have hw : ¬ (mmap_wanted cfg m.b = true) := by
    rw [mmap_wanted_iff, hlen]
    intro h; omega
  have hm : mmap_attempt cfg ops f m.b = none := by
    unfold mmap_attempt
    rw [if_neg hw]
  have htr0 : mmap_trace cfg m.b = [] := by
    unfold mmap_trace
    rw [if_neg hw]
  have hcall : read_step cfg ops f m.b
      = ops.apr_file_read (seek_step ops f m.b).f (2 ^ 64 - 1) := by
    unfold read_step
    rw [hchunk]
  refine ⟨hlen, ?_, hchunk, ?_, ?_, ?_, ?_, ?_⟩
  · intro o s h
    rw [file_read_unmapped cfg ops f refcount a m.b block hm, buffered_trace_mmap_create,
      mem_mmap_trace] at h
    exact hw h.1
  · rw [file_read_unmapped cfg ops f refcount a m.b block hm, buffered_trace_irrelevant, htr0]
    rcases buffered_cases cfg ops f refcount a m.b [] with c | c | c | c
    · simp only [List.nil_append]
      rw [c.2, ← hchunk]
      unfold seek_trace
      split <;> rfl
    · simp only [List.nil_append]
      rw [c.2.2, ← hchunk]
      unfold seek_trace
      split <;> rfl
    · simp only [List.nil_append]
      rw [c.2.2.2, ← hchunk]
      unfold seek_trace
      split <;> rfl
    · simp only [List.nil_append]
      rw [c.2.2.2, ← hchunk]
      unfold seek_trace
      split <;> rfl
  · intro n hn
    rw [← hchunk]
    exact read_event_size cfg ops f refcount a m.b block n hn
  · rw [file_read_unmapped cfg ops f refcount a m.b block hm]
    by_cases hs : (seek_step ops f m.b).rv = APR_SUCCESS
    swap
    · rw [buffered_seek_failed cfg ops f refcount a m.b _ hs]
      exact fun _ => rfl
    by_cases hrd : (read_step cfg ops f m.b).rv ≠ APR_SUCCESS ∧
        (read_step cfg ops f m.b).rv ≠ APR_EOF
    · rw [buffered_read_failed cfg ops f refcount a m.b _ hs hrd]
      exact fun _ => rfl
    by_cases hmore : to_off_t (m.b.length - ((read_step cfg ops f m.b).bytes.length : Int)) > 0
    · rw [buffered_split cfg ops f refcount a m.b _ hs hrd hmore]
      intro h
      rcases h with h | h
      · exact absurd rfl h
      · simp only at h
        rw [hlen, to_off_t_eq _ (by omega) (by omega)] at hmore
        omega
    · rw [buffered_last cfg ops f refcount a m.b _ hs hrd hmore]
      exact fun _ => rfl
  · rw [file_read_unmapped cfg ops f refcount a m.b block hm]
    by_cases hs : (seek_step ops f m.b).rv = APR_SUCCESS
    swap
    · rw [buffered_seek_failed cfg ops f refcount a m.b _ hs]
      exact fun h => absurd rfl h
    by_cases hrd : (read_step cfg ops f m.b).rv ≠ APR_SUCCESS ∧
        (read_step cfg ops f m.b).rv ≠ APR_EOF
    · rw [buffered_read_failed cfg ops f refcount a m.b _ hs hrd]
      exact fun h => absurd rfl h
    by_cases hmore : to_off_t (m.b.length - ((read_step cfg ops f m.b).bytes.length : Int)) > 0
    · rw [buffered_split cfg ops f refcount a m.b _ hs hrd hmore]
      exact fun _ => rfl
    · rw [buffered_last cfg ops f refcount a m.b _ hs hrd hmore]
      exact fun _ => rfl
  · intro hs hfail
    rw [← hcall] at hfail ⊢
    rw [file_read_unmapped cfg ops f refcount a m.b block hm,
      buffered_read_failed cfg ops f refcount a m.b _ hs hfail, htr0, hchunk]
    exact ⟨rfl, rfl, hshape.1, hlen, rfl, rfl, rfl, rfl, by simp⟩

/-- C19 as amended, at an input: a bucket made with the sentinel over the file of 16
bytes, buffers of 4 bytes, on the handle that turns the request down.  The read asks
`malloc` and the handle for `2 ^ 64 - 1` bytes, returns the status 14 of the handle,
and leaves the file bucket of length -1 with its reference; no bucket is inserted. -/
theorem unknown_length_read_witness :
    chunk_size small_config (file_bucket 7 0 (-1)) = 2 ^ 64 - 1 ∧
    (file_read small_config mem_ops mem_no_buffer 1 7 (file_bucket 7 0 (-1))
        .APR_BLOCK_READ).trace.head? = some (Event.malloc (2 ^ 64 - 1)) ∧
    (file_read small_config mem_ops mem_no_buffer 1 7 (file_bucket 7 0 (-1))
        .APR_BLOCK_READ).rv = 14 ∧
    (file_read small_config mem_ops mem_no_buffer 1 7 (file_bucket 7 0 (-1))
        .APR_BLOCK_READ).e = file_bucket 7 0 (-1) ∧
    (file_read small_config mem_ops mem_no_buffer 1 7 (file_bucket 7 0 (-1))
        .APR_BLOCK_READ).b = none ∧
    (file_read small_config mem_ops mem_no_buffer 1 7 (file_bucket 7 0 (-1))
        .APR_BLOCK_READ).refcount = 1 :=
  have hmade : apr_bucket_file_make (some 7) (calloc_bucket : apr_bucket (List Nat)) 0 0
      unknown_length = some { b := file_bucket 7 0 (-1), a := 7,
                              f := { refcount := 1, fd := 0 } } := by
    decide
  have h := unknown_length_read small_config mem_ops mem_no_buffer 1 7 calloc_bucket 0 0
    _ .APR_BLOCK_READ _ hmade rfl (by decide)
  have hf := h.2.2.2.2.2.2.2 (by decide) (by decide)
  ⟨h.2.2.1, h.2.2.2.1, hf.1.trans (by decide), hf.2.1, hf.2.2.2.2.1, hf.2.2.2.2.2.2.1⟩

/-- C19, the claim fails: a file bucket is made with the `UNKNOWN` sentinel over the
file of 16 bytes, with buffers of 4 bytes.  Its read asks `malloc` and the handle for
`2 ^ 64 - 1` bytes, not for 4.  The handle turns the request down with `EFAULT`, the
read frees the buffer and returns that status, and the bucket is the file bucket of
length -1 it was: no remainder bucket is inserted, and the reference is kept. -/
theorem unknown_length_asks_for_everything :
    (apr_bucket_file_make (some 7) (calloc_bucket : apr_bucket (List Nat)) 0 0
        unknown_length).map (fun m => m.b) = some (file_bucket 7 0 (-1)) ∧
    (file_read small_config mem_ops mem_no_buffer 1 7 (file_bucket 7 0 (-1))
        .APR_BLOCK_READ).trace
      = [Event.malloc 18446744073709551615, Event.file_read 18446744073709551615,
         Event.free_buf] ∧
    (18446744073709551615 : Int) ≠ (small_config.APR_BUCKET_BUFF_SIZE : Int) ∧
    (file_read small_config mem_ops mem_no_buffer 1 7 (file_bucket 7 0 (-1))
        .APR_BLOCK_READ).rv = 14 ∧
    (file_read small_config mem_ops mem_no_buffer 1 7 (file_bucket 7 0 (-1))
        .APR_BLOCK_READ).e = file_bucket 7 0 (-1) ∧
    (file_read small_config mem_ops mem_no_buffer 1 7 (file_bucket 7 0 (-1))
        .APR_BLOCK_READ).b = none ∧
    (file_read small_config mem_ops mem_no_buffer 1 7 (file_bucket 7 0 (-1))
        .APR_BLOCK_READ).refcount = 1 := by
  decide

/-! ## Setting aside a file bucket -/

theorem set_same {α : Type} (l : List α) (i : Nat) (e : α) (h : l[i]? = some e) :
    l.set i e = l := by
  induction l generalizing i with
  | nil => rfl
  | cons x xs ih =>
    cases i with
    | zero =>
      simp only [List.getElem?_cons_zero, Option.some.injEq] at h
      rw [List.set_cons_zero, h]
    | succ j =>
      simp only [List.getElem?_cons_succ] at h
      rw [List.set_cons_succ, ih j h]

/-- C17: `setaside` on a file bucket, called through the type of file buckets, returns
`APR_ENOTIMPL`, which is not `APR_SUCCESS`, and leaves the brigade, with the bucket's
start, length, type and data, and every reference count as they were. -/
theorem setaside_not_implemented {H M : Type} (cfg : Config) (ops : FileOps H M)
    (w : World H M) (i : Nat) (e : apr_bucket M)
    (hi : w.brigade[i]? = some e) (ht : e.type = .apr_bucket_type_file) :
    (apr_bucket_type_file cfg ops).setaside e = (APR_ENOTIMPL, e) ∧
    APR_ENOTIMPL ≠ APR_SUCCESS ∧
    ∃ w1 : World H M, apr_bucket_setaside cfg ops w i = some (APR_ENOTIMPL, w1) ∧
      w1.brigade = w.brigade ∧ w1.brigade[i]? = some e ∧ w1.refcount = w.refcount ∧
      w1.fd = w.fd ∧ w1.files = w.files := by
  refine ⟨rfl, by decide, { w with brigade := w.brigade.set i e }, ?_, ?_, ?_, rfl, rfl, rfl⟩
  · unfold apr_bucket_setaside
    rw [hi]
    simp only [ht]
    rfl
  · exact set_same w.brigade i e hi
  · show (w.brigade.set i e)[i]? = some e
    rw [set_same w.brigade i e hi]
    exact hi

/-- C17 at an input: `setaside` on the first bucket of the brigade of two file buckets
returns `APR_ENOTIMPL` and the brigade is as it was. -/
theorem setaside_not_implemented_witness :
    two_bucket_world.brigade[0]? = some (file_bucket 7 2 10) ∧
    ∃ w1 : World mem_file (List Nat),
      apr_bucket_setaside small_config mem_ops two_bucket_world 0 = some (APR_ENOTIMPL, w1) ∧
      w1.brigade = two_bucket_world.brigade ∧ w1.refcount = two_bucket_world.refcount :=
  ⟨rfl,
    (setaside_not_implemented small_config mem_ops two_bucket_world 0 (file_bucket 7 2 10)
      rfl rfl).2.2.elim (fun w1 h => ⟨w1, h.1, h.2.1, h.2.2.2.1⟩)⟩

/-! ## The mode of the read -/

/-- The mode of the read makes no difference to what `file_read` does. -/
theorem file_read_ignores_block {H M : Type} (cfg : Config) (ops : FileOps H M) (f : H)
    (refcount : Int) (a : Nat) (e : apr_bucket M) (block block2 : apr_read_type_e) :
    file_read cfg ops f refcount a e block = file_read cfg ops f refcount a e block2 := by
  cases hm : mmap_attempt cfg ops f e with
  | some mm =>
    rw [file_read_mapped cfg ops f refcount a e block mm hm,
      file_read_mapped cfg ops f refcount a e block2 mm hm]
  | none =>
    rw [file_read_unmapped cfg ops f refcount a e block hm,
      file_read_unmapped cfg ops f refcount a e block2 hm]

/-- C18 as amended: `file_read` does not look at the mode: a read in non-blocking mode
does what the read in blocking mode does, and once line 148 is reached it calls the
read of the handle.  When the handle waits, the read of the bucket does not return, in
non-blocking mode as in blocking mode.  When the handle does not wait and itself
reports `EAGAIN`, the read returns that status, the bucket is the file bucket it was,
with its start, length and descriptor, no bucket is inserted and the reference count
is as it was, so the read can be tried again. -/
theorem nonblocking_read_would_block {H M : Type} (cfg : Config) (ops : FileOps H M)
    (waits : H → Bool) (f : H) (refcount : Int) (a : Nat) (e : apr_bucket M)
    (hbuf : mmap_attempt cfg ops f e = none)
    (hs : (seek_step ops f e).rv = APR_SUCCESS) :
    (∀ block, file_read_wait cfg ops waits f refcount a e block
      = file_read_wait cfg ops waits f refcount a e .APR_NONBLOCK_READ) ∧
    (waits (seek_step ops f e).f = true →
      file_read_wait cfg ops waits f refcount a e .APR_NONBLOCK_READ = none) ∧
    (waits (seek_step ops f e).f = false →
      file_read_wait cfg ops waits f refcount a e .APR_NONBLOCK_READ
        = some (file_read cfg ops f refcount a e .APR_NONBLOCK_READ) ∧
      ((ops.apr_file_read (seek_step ops f e).f (chunk_size cfg e)).rv = APR_EAGAIN →
        (file_read cfg ops f refcount a e .APR_NONBLOCK_READ).rv = APR_EAGAIN ∧
        (file_read cfg ops f refcount a e .APR_NONBLOCK_READ).e = e ∧
        (file_read cfg ops f refcount a e .APR_NONBLOCK_READ).b = none ∧
        (file_read cfg ops f refcount a e .APR_NONBLOCK_READ).str = .null ∧
        (file_read cfg ops f refcount a e .APR_NONBLOCK_READ).refcount = refcount ∧
        (file_read cfg ops f refcount a e .APR_NONBLOCK_READ).freed = false)) := by
  refine ⟨?_, ?_, ?_⟩
  · intro block
    unfold file_read_wait
    rw [file_read_ignores_block cfg ops f refcount a e block .APR_NONBLOCK_READ]
  · intro hw
    unfold file_read_wait
    rw [hbuf]
    simp only
    rw [if_neg (not_not.2 hs), if_pos hw]
  · intro hw
    refine ⟨?_, ?_⟩
    · unfold file_read_wait
      rw [hbuf]
      simp only
      rw [if_neg (not_not.2 hs), if_neg (by rw [hw]; decide)]
    · intro hagain
      have hfail : (read_step cfg ops f e).rv ≠ APR_SUCCESS ∧
          (read_step cfg ops f e).rv ≠ APR_EOF := by
        unfold read_step
        rw [hagain]; decide
      have hrv : (read_step cfg ops f e).rv = APR_EAGAIN := hagain
      rw [file_read_unmapped cfg ops f refcount a e _ hbuf,
        buffered_read_failed cfg ops f refcount a e _ hs hfail]
      exact ⟨hrv, rfl, rfl, rfl, rfl, rfl⟩

/-! ## Giving up a reference, once more -/

/-- C20: `file_destroy` takes one off the reference count, and the descriptor is freed
exactly when that brings the count to zero; while the count was above 1, the
descriptor is not freed and the count that is left is positive. -/
theorem file_destroy_releases_once (refcount : Int) :
    (file_destroy refcount).1 = refcount - 1 ∧
    ((file_destroy refcount).2 = true ↔ refcount - 1 = 0) ∧
    (1 < refcount → (file_destroy refcount).2 = false ∧ 0 < (file_destroy refcount).1) := by
  refine ⟨file_destroy_count refcount, file_destroy_freed refcount, ?_⟩
  intro h
  refine ⟨?_, by rw [file_destroy_count]; omega⟩
  cases hf : (file_destroy refcount).2 with
  | false => rfl
  | true =>
    have := (file_destroy_freed refcount).1 hf
    omega

/-- C20 at inputs: with two references the descriptor stays, with one it is freed. -/
theorem file_destroy_releases_once_witness :
    file_destroy 2 = (1, false) ∧ file_destroy 1 = (0, true) ∧
    ((1 : Int) < 2 → (file_destroy 2).2 = false ∧ 0 < (file_destroy 2).1) :=
  ⟨by decide, by decide, (file_destroy_releases_once 2).2.2⟩

/-- C18 as amended, at inputs.  On the handle that does not wait and reports `EAGAIN`
the read in non-blocking mode returns, with `EAGAIN`, and the bucket is the file
bucket it was.  On the pipe in blocking mode that nothing has been written to, the
read in non-blocking mode does not return. -/
theorem nonblocking_read_would_block_witness :
    mmap_attempt small_config mem_ops mem_would_block (file_bucket 7 2 10) = none ∧
    (seek_step mem_ops mem_would_block (file_bucket 7 2 10)).rv = APR_SUCCESS ∧
    (file_read_wait small_config mem_ops never_waits mem_would_block 1 7 (file_bucket 7 2 10)
        .APR_NONBLOCK_READ).isSome = true ∧
    (file_read small_config mem_ops mem_would_block 1 7 (file_bucket 7 2 10)
        .APR_NONBLOCK_READ).rv = APR_EAGAIN ∧
    (file_read small_config mem_ops mem_would_block 1 7 (file_bucket 7 2 10)
        .APR_NONBLOCK_READ).e = file_bucket 7 2 10 ∧
    (file_read small_config mem_ops mem_would_block 1 7 (file_bucket 7 2 10)
        .APR_NONBLOCK_READ).b = none ∧
    (file_read_wait small_config mem_ops pipe_waits empty_pipe 1 7 (file_bucket 7 0 10)
        .APR_NONBLOCK_READ).isNone = true :=
  have h := (nonblocking_read_would_block small_config mem_ops never_waits mem_would_block 1 7
    (file_bucket 7 2 10) (by decide) (by decide)).2.2 rfl
  have hstall := (nonblocking_read_would_block small_config mem_ops pipe_waits empty_pipe 1 7
    (file_bucket 7 0 10) (by decide) (by decide)).2.1 (by decide)
  have hgo := h.2 (by decide)
  ⟨by decide, by decide, by rw [h.1]; rfl, hgo.1, hgo.2.1, hgo.2.2.1, by rw [hstall]; rfl⟩

/-- C18, the claim fails: a read in non-blocking mode of a file bucket over the first
10 bytes of a pipe that nothing has been written to, behind a handle in blocking mode.
The handle has no data to deliver at once, and the bucket is not in the mapping
window.  The read of the bucket reaches line 148 and calls the read of the handle,
which waits: the call does not return, with a would-block status or any other, just
as the read in blocking mode does not. -/
theorem nonblocking_read_waits_on_blocking_handle :
    empty_pipe.content = [] ∧ pipe_waits empty_pipe = true ∧
    mmap_attempt small_config mem_ops empty_pipe (file_bucket 7 0 10) = none ∧
    (seek_step mem_ops empty_pipe (file_bucket 7 0 10)).rv = APR_SUCCESS ∧
    (file_read_wait small_config mem_ops pipe_waits empty_pipe 1 7 (file_bucket 7 0 10)
        .APR_NONBLOCK_READ).isNone = true ∧
    (file_read_wait small_config mem_ops pipe_waits empty_pipe 1 7 (file_bucket 7 0 10)
        .APR_BLOCK_READ).isNone = true := by
  decide

/-! ## A range the source does not fill -/

/-- A read that returns `APR_SUCCESS`, is not mapped and obtains fewer bytes than the
bucket is long inserts a file bucket; a read that returns an error leaves the bucket
it was given. -/
theorem short_read_leaves_file_bucket {H M : Type} (cfg : Config) (ops : FileOps H M) (f : H)
    (refcount : Int) (a : Nat) (e : apr_bucket M) (block : apr_read_type_e)
    (hoff : e.length < 2 ^ 63)
    (hnomap : (file_read cfg ops f refcount a e block).e.type ≠ .apr_bucket_type_mmap)
    (hshort : (file_read cfg ops f refcount a e block).rv = APR_SUCCESS →
      (file_read cfg ops f refcount a e block).len < e.length) :
    ((file_read cfg ops f refcount a e block).rv ≠ APR_SUCCESS ∧
      (file_read cfg ops f refcount a e block).e = e ∧
      (file_read cfg ops f refcount a e block).b = none) ∨
    ((file_read cfg ops f refcount a e block).rv = APR_SUCCESS ∧
      ∃ b, (file_read cfg ops f refcount a e block).b = some b ∧
        b.type = .apr_bucket_type_file ∧ 0 < b.length ∧ b.length ≤ e.length) := by
  cases hm : mmap_attempt cfg ops f e with
  | some mm =>
    rw [file_read_mapped cfg ops f refcount a e block mm hm] at hnomap
    exact absurd rfl hnomap
  | none =>
    rw [file_read_unmapped cfg ops f refcount a e block hm] at hshort ⊢
    by_cases hs : (seek_step ops f e).rv = APR_SUCCESS
    swap
    · left
      rw [buffered_seek_failed cfg ops f refcount a e _ hs]
      exact ⟨hs, rfl, rfl⟩
    by_cases hrd : (read_step cfg ops f e).rv ≠ APR_SUCCESS ∧ (read_step cfg ops f e).rv ≠ APR_EOF
    · left
      rw [buffered_read_failed cfg ops f refcount a e _ hs hrd]
      exact ⟨hrd.1, rfl, rfl⟩
    right
    by_cases hmore : to_off_t (e.length - ((read_step cfg ops f e).bytes.length : Int)) > 0
    · rw [buffered_split cfg ops f refcount a e _ hs hrd hmore] at hshort ⊢
      have hlt := hshort rfl
      simp only at hlt
      refine ⟨rfl, _, rfl, rfl, hmore, ?_⟩
      simp only
      rw [to_off_t_eq _ (by omega) (by omega)]
      omega
    · rw [buffered_last cfg ops f refcount a e _ hs hrd hmore] at hshort
      have hlt := hshort rfl
      simp only at hlt
      rw [to_off_t_eq _ (by omega) (by omega)] at hmore
      omega

/-- When no read of a run is mapped and every read that returns `APR_SUCCESS` has
obtained fewer bytes than its bucket was long, a file bucket of the range is left
after the run, however long the run is. -/
theorem short_reads_stay_pending {H M : Type} (cfg : Config) (ops : FileOps H M)
    (block : apr_read_type_e) (a : Nat) :
    ∀ (n : Nat) (f : H) (refcount : Int) (e : apr_bucket M),
      1 ≤ n → e.type = .apr_bucket_type_file → e.length < 2 ^ 63 →
      (∀ s ∈ read_range cfg ops block a n f refcount e,
        s.2.e.type ≠ .apr_bucket_type_mmap ∧ (s.2.rv = APR_SUCCESS → s.2.len < s.1.length)) →
      pending (read_range cfg ops block a n f refcount e) := by
  intro n
  induction n with
  | zero =>
    intro f refcount e hn
    omega
  | succ n ih =>
    intro f refcount e _ ht hoff hsteps
    have hhead : (file_read cfg ops f refcount a e block).e.type ≠ .apr_bucket_type_mmap ∧
        ((file_read cfg ops f refcount a e block).rv = APR_SUCCESS →
          (file_read cfg ops f refcount a e block).len < e.length) :=
      hsteps (e, file_read cfg ops f refcount a e block) (by simp [read_range])
    rcases short_read_leaves_file_bucket cfg ops f refcount a e block hoff hhead.1 hhead.2
      with ⟨herr, he, hb⟩ | ⟨hok, b, hb, hbt, hbpos, hble⟩
    · have hrun : read_range cfg ops block a (n + 1) f refcount e
          = [(e, file_read cfg ops f refcount a e block)] := by
        simp [read_range, herr]
      rw [hrun]
      have hty : (file_read cfg ops f refcount a e block).e.type = .apr_bucket_type_file := by
        rw [he]; exact ht
      exact ⟨(e, file_read cfg ops f refcount a e block), rfl, Or.inr hty⟩
    · have hrun : read_range cfg ops block a (n + 1) f refcount e
          = (e, file_read cfg ops f refcount a e block)
            :: read_range cfg ops block a n (file_read cfg ops f refcount a e block).f
                (file_read cfg ops f refcount a e block).refcount b := by
        simp [read_range, hok, hb]
      rw [hrun] at hsteps ⊢
      cases n with
      | zero =>
        exact ⟨(e, file_read cfg ops f refcount a e block), rfl, Or.inl ⟨b, hb, hbt⟩⟩
      | succ m =>
        obtain ⟨last, hlast, hp⟩ := ih (file_read cfg ops f refcount a e block).f
          (file_read cfg ops f refcount a e block).refcount b (by omega) hbt (by omega)
          (fun s hs => hsteps s (List.mem_cons_of_mem _ hs))
        exact ⟨last, by rw [List.getLast?_cons, hlast]; rfl, hp⟩

/-- On a file in memory no mapping is made when mapping support is not compiled in or
the handle refuses to be mapped. -/
theorem mem_unmapped (cfg : Config) (f : mem_file) (e : apr_bucket (List Nat))
    (hnomap : cfg.APR_HAS_MMAP = false ∨ f.mmap_status ≠ APR_SUCCESS) :
    mmap_attempt cfg mem_ops f e = none := by
  unfold mmap_attempt
  rcases hnomap with h | h
  · simp [mmap_wanted, h]
  · split
    · simp [mem_ops, h]
    · rfl

/-- The seek of line 142 on a file in memory changes the cursor only, and after a
successful seek the cursor is at the start of the bucket. -/
theorem mem_seek_keeps (f : mem_file) (e : apr_bucket (List Nat)) :
    (seek_step mem_ops f e).f.content = f.content ∧
    (seek_step mem_ops f e).f.mmap_status = f.mmap_status ∧
    ((seek_step mem_ops f e).rv = APR_SUCCESS → e.start ≠ 0 →
      (seek_step mem_ops f e).f.pos = e.start.toNat) := by
  unfold seek_step
  by_cases h0 : e.start ≠ 0
  · rw [if_pos h0]
    simp only [mem_ops]
    by_cases hs : f.seek_rv ≠ APR_SUCCESS
    · rw [if_pos hs]
      exact ⟨rfl, rfl, fun h => absurd h hs⟩
    · rw [if_neg hs]
      exact ⟨rfl, rfl, fun _ _ => rfl⟩
  · rw [if_neg h0]
    exact ⟨rfl, rfl, fun _ h => absurd h h0⟩

/-- A read of a file in memory changes the cursor only and delivers no more bytes than
the file holds from the cursor on. -/
theorem mem_read_keeps (g : mem_file) (nbytes : Int) :
    (mem_ops.apr_file_read g nbytes).f.content = g.content ∧
    (mem_ops.apr_file_read g nbytes).f.mmap_status = g.mmap_status ∧
    (mem_ops.apr_file_read g nbytes).bytes.length ≤ g.content.length - g.pos := by
  have h : (List.take nbytes.toNat (List.drop g.pos g.content)).length
      ≤ g.content.length - g.pos := by
    rw [List.length_take, List.length_drop]
    omega
  simp only [mem_ops]
  split
  · exact ⟨rfl, rfl, h⟩
  · split
    · exact ⟨rfl, rfl, Nat.zero_le _⟩
    · exact ⟨rfl, rfl, h⟩

/-- The bytes a buffered read obtains from a file in memory that ends before the range
of the bucket does are fewer than the bucket is long. -/
theorem mem_read_short (cfg : Config) (f : mem_file) (e : apr_bucket (List Nat))
    (hstart : 0 ≤ e.start) (hpos : 0 < e.length)
    (hshort : (f.content.length : Int) < e.start + e.length)
    (hs : (seek_step mem_ops f e).rv = APR_SUCCESS) :
    ((read_step cfg mem_ops f e).bytes.length : Int) < e.length := by
  have hk := mem_seek_keeps f e
  have hr := (mem_read_keeps (seek_step mem_ops f e).f (chunk_size cfg e)).2.2
  change (read_step cfg mem_ops f e).bytes.length ≤ _ at hr
  rw [hk.1] at hr
  by_cases h0 : e.start ≠ 0
  · have hp := hk.2.2 hs h0
    rw [hp] at hr
    omega
  · omega

/-- One read of a file bucket over a file in memory that ends before the range of the
bucket does, when no mapping can be made: the read is not mapped, obtains fewer bytes
than the bucket is long, leaves the bytes of the file as they were, and the bucket it
inserts covers the rest of the same range. -/
theorem mem_short_step (cfg : Config) (f : mem_file) (refcount : Int) (a : Nat)
    (e : apr_bucket (List Nat)) (block : apr_read_type_e)
    (hnomap : cfg.APR_HAS_MMAP = false ∨ f.mmap_status ≠ APR_SUCCESS)
    (ht : e.type = .apr_bucket_type_file)
    (hstart : 0 ≤ e.start) (hpos : 0 < e.length) (hend : e.start + e.length < 2 ^ 63)
    (hshort : (f.content.length : Int) < e.start + e.length) :
    (file_read cfg mem_ops f refcount a e block).e.type ≠ .apr_bucket_type_mmap ∧
    ((file_read cfg mem_ops f refcount a e block).rv = APR_SUCCESS →
      (file_read cfg mem_ops f refcount a e block).len < e.length) ∧
    (file_read cfg mem_ops f refcount a e block).f.content = f.content ∧
    (file_read cfg mem_ops f refcount a e block).f.mmap_status = f.mmap_status ∧
    (∀ b, (file_read cfg mem_ops f refcount a e block).b = some b →
      b.type = .apr_bucket_type_file ∧ 0 ≤ b.start ∧ 0 < b.length ∧
        b.start + b.length = e.start + e.length) := by
  have hk := mem_seek_keeps f e
  have hr := mem_read_keeps (seek_step mem_ops f e).f (chunk_size cfg e)
  change (read_step cfg mem_ops f e).f.content = _ ∧
    (read_step cfg mem_ops f e).f.mmap_status = _ ∧ _ at hr
  rw [file_read_unmapped cfg mem_ops f refcount a e block (mem_unmapped cfg f e hnomap)]
  by_cases hs : (seek_step mem_ops f e).rv = APR_SUCCESS
  swap
  · rw [buffered_seek_failed cfg mem_ops f refcount a e _ hs]
    refine ⟨?_, fun h => absurd h hs, hk.1, hk.2.1, ?_⟩
    · show e.type ≠ _
      rw [ht]; decide
    · intro b hb
      simp at hb
  have hlt := mem_read_short cfg f e hstart hpos hshort hs
  by_cases hrd : (read_step cfg mem_ops f e).rv ≠ APR_SUCCESS ∧
      (read_step cfg mem_ops f e).rv ≠ APR_EOF
  · rw [buffered_read_failed cfg mem_ops f refcount a e _ hs hrd]
    refine ⟨?_, fun h => absurd h hrd.1, hr.1.trans hk.1, hr.2.1.trans hk.2.1, ?_⟩
    · show e.type ≠ _
      rw [ht]; decide
    · intro b hb
      simp at hb
  have hmore : to_off_t (e.length - ((read_step cfg mem_ops f e).bytes.length : Int)) > 0 := by
    rw [to_off_t_eq _ (by omega) (by omega)]
    omega
  rw [buffered_split cfg mem_ops f refcount a e _ hs hrd hmore]
  refine ⟨?_, fun _ => hlt, hr.1.trans hk.1, hr.2.1.trans hk.2.1, ?_⟩
  · show (apr_bucket_heap_make e _ _).type ≠ _
    simp [apr_bucket_heap_make]
  · intro b hb
    simp only [Option.some.injEq] at hb
    subst hb
    refine ⟨rfl, ?_, ?_, ?_⟩
    all_goals
      simp only
      try rw [seek_step_offset mem_ops f e mem_ops_seek_honest hs]
      try rw [to_off_t_eq (e.start + _) (by omega) (by omega)]
      try rw [to_off_t_eq (e.length - _) (by omega) (by omega)]
      omega

/-- Every read of a run over a file in memory that ends before the range does, when no
mapping can be made, is not mapped and obtains fewer bytes than its bucket is long. -/
theorem mem_short_source_steps (cfg : Config) (block : apr_read_type_e) (a : Nat) :
    ∀ (n : Nat) (f : mem_file) (refcount : Int) (e : apr_bucket (List Nat)),
      (cfg.APR_HAS_MMAP = false ∨ f.mmap_status ≠ APR_SUCCESS) →
      e.type = .apr_bucket_type_file → 0 ≤ e.start → 0 < e.length →
      e.start + e.length < 2 ^ 63 → (f.content.length : Int) < e.start + e.length →
      ∀ s ∈ read_range cfg mem_ops block a n f refcount e,
        s.2.e.type ≠ .apr_bucket_type_mmap ∧ (s.2.rv = APR_SUCCESS → s.2.len < s.1.length) := by
  intro n
  induction n with
  | zero =>
    intro f refcount e _ _ _ _ _ _ s hs
    simp [read_range] at hs
  | succ n ih =>
    intro f refcount e hnomap ht hstart hpos hend hshort s hs
    obtain ⟨h1, h2, h3, h4, h5⟩ :=
      mem_short_step cfg f refcount a e block hnomap ht hstart hpos hend hshort
    simp only [read_range, List.mem_cons] at hs
    rcases hs with hs | hs
    · subst hs
      exact ⟨h1, h2⟩
    · by_cases hok : (file_read cfg mem_ops f refcount a e block).rv = APR_SUCCESS
      swap
      · simp [hok] at hs
      rw [if_pos hok] at hs
      cases hb : (file_read cfg mem_ops f refcount a e block).b with
      | none => simp [hb] at hs
      | some b =>
        rw [hb] at hs
        obtain ⟨hbt, hb0, hbpos, hbsum⟩ := h5 b hb
        exact ih _ _ b (by rw [h4]; exact hnomap) hbt hb0 hbpos (by omega)
          (by rw [h3]; omega) s hs

/-- C21: a buffered read of a file bucket with start `O` and length `L > 0` whose call
of `apr_file_read` obtains no byte and reports no error returns `APR_SUCCESS`, turns
the bucket into an empty heap bucket and inserts a file bucket with the same start `O`
and the same length `L` over the same descriptor, keeping the reference; and as long
as no read of the range is mapped and every read that returns `APR_SUCCESS` has
obtained fewer bytes than its bucket was long, a file bucket of the range is left
after any number of reads.  The range `[O, O + L)` is taken to lie within `apr_off_t`
and a successful seek to report the offset it was given. -/
theorem empty_read_makes_no_progress {H M : Type} (cfg : Config) (ops : FileOps H M) (f : H)
    (refcount : Int) (a : Nat) (e : apr_bucket M) (block : apr_read_type_e)
    (hseek : seek_honest ops) (ht : e.type = .apr_bucket_type_file)
    (hstart : 0 ≤ e.start) (hpos : 0 < e.length) (hend : e.start + e.length < 2 ^ 63) :
    ((∃ n, Event.file_read n ∈ (file_read cfg ops f refcount a e block).trace) →
      ¬((read_step cfg ops f e).rv ≠ APR_SUCCESS ∧ (read_step cfg ops f e).rv ≠ APR_EOF) →
      (read_step cfg ops f e).bytes = [] →
        (file_read cfg ops f refcount a e block).rv = APR_SUCCESS ∧
        (file_read cfg ops f refcount a e block).e.type = .apr_bucket_type_heap ∧
        (file_read cfg ops f refcount a e block).e.length = 0 ∧
        (file_read cfg ops f refcount a e block).e.data = .heap [] ∧
        (file_read cfg ops f refcount a e block).str = .buf [] ∧
        (file_read cfg ops f refcount a e block).len = 0 ∧
        (file_read cfg ops f refcount a e block).b
          = some { type := .apr_bucket_type_file, length := e.length, start := e.start,
                   data := .file a } ∧
        (file_read cfg ops f refcount a e block).refcount = refcount) ∧
    (∀ n : Nat, 1 ≤ n →
      (∀ s ∈ read_range cfg ops block a n f refcount e,
        s.2.e.type ≠ .apr_bucket_type_mmap ∧ (s.2.rv = APR_SUCCESS → s.2.len < s.1.length)) →
      pending (read_range cfg ops block a n f refcount e)) := by
  refine ⟨?_, fun n hn hsteps =>
    short_reads_stay_pending cfg ops block a n f refcount e hn ht (by omega) hsteps⟩
  rintro ⟨n, hn⟩ hrd hzero
  obtain ⟨hm, hs⟩ := read_in_trace cfg ops f refcount a e block n hn
  have hmore : to_off_t (e.length - ((read_step cfg ops f e).bytes.length : Int)) > 0 := by
    rw [hzero, to_off_t_eq _ (by simp; omega) (by simp; omega)]
    simp
    exact hpos
  rw [file_read_unmapped cfg ops f refcount a e block hm,
    buffered_split cfg ops f refcount a e _ hs hrd hmore]
  refine ⟨rfl, rfl, ?_, ?_, ?_, ?_, ?_, rfl⟩
  · simp [apr_bucket_heap_make, hzero]
  · simp [apr_bucket_heap_make, hzero]
  · simp [hzero]
  · simp [hzero]
  · simp only [hzero, seek_step_offset ops f e hseek hs, List.length_nil, Nat.cast_zero,
      sub_zero, add_zero]
    rw [to_off_t_eq _ (by omega) (by omega), to_off_t_eq _ (by omega) (by omega)]

/-- The file of 16 bytes holds fewer bytes than the ranges `[16, 26)` and `[2, 22)`.
Of the bucket over `[16, 26)` the first read obtains no byte and inserts the bucket
it was given again; of the bucket over `[2, 22)`, on a handle that cannot be mapped,
eight reads obtain 4, 4, 4, 2, 0, 0, 0, 0 bytes, and however many reads are made a
file bucket is left. -/
theorem empty_read_makes_no_progress_witness :
    seek_honest mem_ops ∧
    (digits.length : Int) < 16 + 10 ∧ (digits.length : Int) < 2 + 20 ∧
    (file_read small_config mem_ops mem_unmappable 1 7 (file_bucket 7 16 10)
        .APR_BLOCK_READ).b = some (file_bucket 7 16 10) ∧
    (file_read small_config mem_ops mem_unmappable 1 7 (file_bucket 7 16 10)
        .APR_BLOCK_READ).e.length = 0 ∧
    produced (read_range small_config mem_ops .APR_BLOCK_READ 7 8 mem_unmappable 1
        (file_bucket 7 2 20))
      = [(.apr_bucket_type_heap, 4), (.apr_bucket_type_heap, 4), (.apr_bucket_type_heap, 4),
         (.apr_bucket_type_heap, 2), (.apr_bucket_type_heap, 0), (.apr_bucket_type_heap, 0),
         (.apr_bucket_type_heap, 0), (.apr_bucket_type_heap, 0)] ∧
    never_exhausted small_config mem_ops .APR_BLOCK_READ 7 mem_unmappable 1
      (file_bucket 7 2 20) :=
  have h1 := (empty_read_makes_no_progress small_config mem_ops mem_unmappable 1 7
    (file_bucket 7 16 10) .APR_BLOCK_READ mem_ops_seek_honest rfl (by decide) (by decide)
    (by decide)).1 ⟨4, by decide⟩ (by decide) (by decide)
  ⟨mem_ops_seek_honest, by decide, by decide, h1.2.2.2.2.2.2.1, h1.2.2.1, by decide,
    fun n hn => (empty_read_makes_no_progress small_config mem_ops mem_unmappable 1 7
      (file_bucket 7 2 20) .APR_BLOCK_READ mem_ops_seek_honest rfl (by decide) (by decide)
      (by decide)).2 n hn
      (mem_short_source_steps small_config .APR_BLOCK_READ 7 n mem_unmappable 1
        (file_bucket 7 2 20) (Or.inr (by decide)) rfl (by decide) (by decide) (by decide)
        (by decide))⟩

/-- The file of 16 bytes holds fewer bytes than the range `[2, 22)`, and the repeated
read of the bucket over that range comes to an end: after four buffered reads of 4, 4,
4 and 2 bytes the bucket over what is left, `[16, 22)`, is 6 bytes long, which is
within the window; the fifth read maps it, inserts no bucket, and no file bucket is
left. -/
theorem short_source_range_ends_mapped :
    (digits.length : Int) < 2 + 20 ∧
    produced (read_range small_config mem_ops .APR_BLOCK_READ 7 9 (mem_of digits 0) 1
        (file_bucket 7 2 20))
      = [(.apr_bucket_type_heap, 4), (.apr_bucket_type_heap, 4), (.apr_bucket_type_heap, 4),
         (.apr_bucket_type_heap, 2), (.apr_bucket_type_mmap, 6)] ∧
    ((read_range small_config mem_ops .APR_BLOCK_READ 7 9 (mem_of digits 0) 1
        (file_bucket 7 2 20)).map (fun s => (s.1, s.2.rv, s.2.b))).getLast?
      = some (file_bucket 7 16 6, APR_SUCCESS, none) := by
  decide

/-! ## Opening a database -/

/-- The switch of lines 172-184 reaches `default:` exactly for the modes other than
the three constants. -/
theorem dbmode_of_eq_none (cfg : DbmConfig) (mode : Int) :
    dbmode_of cfg mode = none ↔
      (mode ≠ cfg.APR_DBM_READONLY ∧ mode ≠ cfg.APR_DBM_READWRITE ∧
        mode ≠ cfg.APR_DBM_RWCREATE) := by
  unfold dbmode_of
  constructor
  · intro h
    by_cases h1 : mode = cfg.APR_DBM_READONLY
    · rw [if_pos h1] at h
      exact absurd h (by simp)
    rw [if_neg h1] at h
    by_cases h2 : mode = cfg.APR_DBM_READWRITE
    · rw [if_pos h2] at h
      exact absurd h (by simp)
    rw [if_neg h2] at h
    by_cases h3 : mode = cfg.APR_DBM_RWCREATE
    · rw [if_pos h3] at h
      exact absurd h (by simp)
    exact ⟨h1, h2, h3⟩
  · rintro ⟨h1, h2, h3⟩
    rw [if_neg h1, if_neg h2, if_neg h3]

section open_paths

variable {F : Type} (cfg : DbmConfig) (ops : DbmOps F) (pathname : String) (pool : Nat)
  (mode : Int)

/-- Return of line 183. -/
theorem dbm_open_invalid (hd : dbmode_of cfg mode = none) :
    apr_dbm_open cfg ops pathname pool mode
      = { rv := APR_EINVAL, pdb := none, trace := [] } := by
  simp [apr_dbm_open, hd]

/-- Return of line 192. -/
theorem dbm_open_sdbm_failed (dbmode : Int) (hd : dbmode_of cfg mode = some dbmode)
    (hb : cfg.backend = .APU_USE_SDBM)
    (ho : (ops.sdbm_open pathname dbmode cfg.APR_OS_DEFAULT pool).rv ≠ APR_SUCCESS) :
    apr_dbm_open cfg ops pathname pool mode
      = { rv := (ops.sdbm_open pathname dbmode cfg.APR_OS_DEFAULT pool).rv, pdb := none,
          trace := [DbmEvent.sdbm_open pathname dbmode cfg.APR_OS_DEFAULT pool] } := by
  simp [apr_dbm_open, hd, hb, ho]

/-- Return of line 208 in the build with SDBM. -/
theorem dbm_open_sdbm_opened (dbmode : Int) (hd : dbmode_of cfg mode = some dbmode)
    (hb : cfg.backend = .APU_USE_SDBM)
    (ho : (ops.sdbm_open pathname dbmode cfg.APR_OS_DEFAULT pool).rv = APR_SUCCESS) :
    apr_dbm_open cfg ops pathname pool mode
      = { rv := APR_SUCCESS,
          pdb := some { pool := pool,
                        file := (ops.sdbm_open pathname dbmode cfg.APR_OS_DEFAULT pool).file,
                        errcode := 0, errmsg := none },
          trace := [DbmEvent.sdbm_open pathname dbmode cfg.APR_OS_DEFAULT pool,
                    DbmEvent.apr_pcalloc pool] } := by
  simp [apr_dbm_open, hd, hb, ho]

/-- Return of line 199. -/
theorem dbm_open_gdbm_failed (dbmode : Int) (hd : dbmode_of cfg mode = some dbmode)
    (hb : cfg.backend = .APU_USE_GDBM)
    (ho : ops.gdbm_open pathname 0 dbmode 0o660 = none) :
    apr_dbm_open cfg ops pathname pool mode
      = { rv := APR_EINVAL, pdb := none,
          trace := [DbmEvent.gdbm_open pathname 0 dbmode 0o660] } := by
  simp [apr_dbm_open, hd, hb, ho]

/-- Return of line 208 in the build with GDBM. -/
theorem dbm_open_gdbm_opened (dbmode : Int) (file : F)
    (hd : dbmode_of cfg mode = some dbmode) (hb : cfg.backend = .APU_USE_GDBM)
    (ho : ops.gdbm_open pathname 0 dbmode 0o660 = some file) :
    apr_dbm_open cfg ops pathname pool mode
      = { rv := APR_SUCCESS,
          pdb := some { pool := pool, file := file, errcode := 0, errmsg := none },
          trace := [DbmEvent.gdbm_open pathname 0 dbmode 0o660,
                    DbmEvent.apr_pcalloc pool] } := by
  simp [apr_dbm_open, hd, hb, ho]

end open_paths

theorem APR_EINVAL_ne_success : APR_EINVAL ≠ APR_SUCCESS := by decide

/-- C22: for every mode other than `APR_DBM_READONLY`, `APR_DBM_READWRITE` and
`APR_DBM_RWCREATE`, `apr_dbm_open` returns `APR_EINVAL`, leaves `*pdb` null and makes
no call at all, so none of the open function of the backend; whenever it returns a
status other than `APR_SUCCESS`, `*pdb` is null; and when it returns `APR_SUCCESS` the
mode was one of the three, the open function of the backend was called and delivered a
file, and `*pdb` is a handle with the given pool and that file. -/
theorem apr_dbm_open_handle {F : Type} (cfg : DbmConfig) (ops : DbmOps F) (pathname : String)
    (pool : Nat) (mode : Int) :
    ((mode ≠ cfg.APR_DBM_READONLY ∧ mode ≠ cfg.APR_DBM_READWRITE ∧
        mode ≠ cfg.APR_DBM_RWCREATE) →
      (apr_dbm_open cfg ops pathname pool mode).rv = APR_EINVAL ∧
      (apr_dbm_open cfg ops pathname pool mode).pdb = none ∧
      (apr_dbm_open cfg ops pathname pool mode).trace = []) ∧
    ((apr_dbm_open cfg ops pathname pool mode).rv ≠ APR_SUCCESS →
      (apr_dbm_open cfg ops pathname pool mode).pdb = none) ∧
    ((apr_dbm_open cfg ops pathname pool mode).rv = APR_SUCCESS →
      ∃ dbmode file, dbmode_of cfg mode = some dbmode ∧
        ((cfg.backend = .APU_USE_SDBM ∧
            ops.sdbm_open pathname dbmode cfg.APR_OS_DEFAULT pool
              = { rv := APR_SUCCESS, file := file } ∧
            (apr_dbm_open cfg ops pathname pool mode).trace
              = [DbmEvent.sdbm_open pathname dbmode cfg.APR_OS_DEFAULT pool,
                 DbmEvent.apr_pcalloc pool]) ∨
          (cfg.backend = .APU_USE_GDBM ∧
            ops.gdbm_open pathname 0 dbmode 0o660 = some file ∧
            (apr_dbm_open cfg ops pathname pool mode).trace
              = [DbmEvent.gdbm_open pathname 0 dbmode 0o660, DbmEvent.apr_pcalloc pool])) ∧
        (apr_dbm_open cfg ops pathname pool mode).pdb
          = some { pool := pool, file := file, errcode := 0, errmsg := none }) := by
  cases hd : dbmode_of cfg mode with
  | none =>
    rw [dbm_open_invalid cfg ops pathname pool mode hd]
    exact ⟨fun _ => ⟨rfl, rfl, rfl⟩, fun _ => rfl, fun h => absurd h APR_EINVAL_ne_success⟩
  | some dbmode =>
    have hvalid : ¬(mode ≠ cfg.APR_DBM_READONLY ∧ mode ≠ cfg.APR_DBM_READWRITE ∧
        mode ≠ cfg.APR_DBM_RWCREATE) := by
      intro h
      rw [(dbmode_of_eq_none cfg mode).2 h] at hd
      exact absurd hd (by simp)
    refine ⟨fun h => absurd h hvalid, ?_⟩
    cases hb : cfg.backend with
    | APU_USE_SDBM =>
      by_cases ho : (ops.sdbm_open pathname dbmode cfg.APR_OS_DEFAULT pool).rv = APR_SUCCESS
      · rw [dbm_open_sdbm_opened cfg ops pathname pool mode dbmode hd hb ho]
        refine ⟨fun h => absurd rfl h, fun _ =>
          ⟨dbmode, (ops.sdbm_open pathname dbmode cfg.APR_OS_DEFAULT pool).file, rfl,
            Or.inl ⟨rfl, ?_, rfl⟩, rfl⟩⟩
        rw [← ho]
      · rw [dbm_open_sdbm_failed cfg ops pathname pool mode dbmode hd hb ho]
        exact ⟨fun _ => rfl, fun h => absurd h ho⟩
    | APU_USE_GDBM =>
      cases ho : ops.gdbm_open pathname 0 dbmode 0o660 with
      | none =>
        rw [dbm_open_gdbm_failed cfg ops pathname pool mode dbmode hd hb ho]
        exact ⟨fun _ => rfl, fun h => absurd h APR_EINVAL_ne_success⟩
      | some file =>
        rw [dbm_open_gdbm_opened cfg ops pathname pool mode dbmode file hd hb ho]
        exact ⟨fun h => absurd rfl h, fun _ =>
          ⟨dbmode, file, rfl, Or.inr ⟨rfl, ho, rfl⟩, rfl⟩⟩

/-- In the build with SDBM, mode 0 is none of the three modes 1, 2 and 3: the call
returns `APR_EINVAL` with `*pdb` null and no call made.  The database that is not
there fails to open for reading with the status of `sdbm_open` and `*pdb` null; the
one that is there opens for reading and writing into a handle with pool 3 and file
41.  In the build with GDBM the failure is reported as `APR_EINVAL`. -/
theorem apr_dbm_open_handle_witness :
    ((apr_dbm_open sdbm_config example_backends users_db 3 0).rv = APR_EINVAL ∧
      (apr_dbm_open sdbm_config example_backends users_db 3 0).pdb = none ∧
      (apr_dbm_open sdbm_config example_backends users_db 3 0).trace = []) ∧
    apr_dbm_open sdbm_config example_backends missing_db 3 1
      = { rv := 2, pdb := none, trace := [DbmEvent.sdbm_open missing_db 1 0x0FFF 3] } ∧
    apr_dbm_open sdbm_config example_backends users_db 3 2
      = { rv := APR_SUCCESS,
          pdb := some { pool := 3, file := 41, errcode := 0, errmsg := none },
          trace := [DbmEvent.sdbm_open users_db 3 0x0FFF 3, DbmEvent.apr_pcalloc 3] } ∧
    apr_dbm_open gdbm_config example_backends missing_db 3 2
      = { rv := APR_EINVAL, pdb := none,
          trace := [DbmEvent.gdbm_open missing_db 0 1 0o660] } ∧
    apr_dbm_open gdbm_config example_backends missing_db 3 3
      = { rv := APR_SUCCESS,
          pdb := some { pool := 3, file := 42, errcode := 0, errmsg := none },
          trace := [DbmEvent.gdbm_open missing_db 0 2 0o660, DbmEvent.apr_pcalloc 3] } :=
  ⟨(apr_dbm_open_handle sdbm_config example_backends users_db 3 0).1 (by decide),
    by decide, by decide, by decide, by decide⟩

end AprUtil
